import Mathlib

/-!
# Smart Plant Watering System: the irrigation controller

A shallow embedding of `01_Smart_Plant_Watering_System/src/spws_controller.c`
together with `inc/config.h`.

* The three module-scope variables (`sensorData`, `settings`, `state`) and the
  function-local static `lastTickMs` of `SPWS_Run` are the fields of `Controller`.
* Every call into the hardware abstraction layer that has an effect, and every
  `SendStatus`, is appended to `Controller.calls`, in program order.
* The values returned by the polled HAL functions during one pass of the
  1-second block are the fields of `TickInput`.
* `uint32_t` arithmetic is arithmetic on `Nat` modulo `2 ^ 32`.
* A C `float` is represented by `CFloat`, which keeps what the comparison
  operators `<` and `>` can observe: NaN, the two infinities, or a finite value.
* The manual button of `src/hal_buttons.c` is a function of the character read
  and of its function-local static `lastState`.
-/

namespace SPWS

/-! ## config.h -/

/-- System operating modes. -/
inductive SystemMode_t where
  | MODE_AUTO
  | MODE_MANUAL
  deriving DecidableEq, Repr

/-- Pump states. -/
inductive PumpState_t where
  | PUMP_OFF
  | PUMP_ON
  deriving DecidableEq, Repr

/-- LED status indicators. -/
inductive LedState_t where
  | LED_NORMAL
  | LED_WATERING
  | LED_MOISTURE_ALERT
  | LED_ERROR
  deriving DecidableEq, Repr

/-- A C `float` up to what `<` and `>` observe. Finite values are rationals
(every finite binary32 value is one; the two zeros compare equal). -/
inductive CFloat where
  | nan
  | negInf
  | fin (q : ℚ)
  | posInf
  deriving DecidableEq

/-- The C comparison `a < b` on floats: false as soon as an operand is NaN. -/
def CFloat.lt : CFloat → CFloat → Bool
  | .nan, _ => false
  | _, .nan => false
  | .negInf, .negInf => false
  | .negInf, _ => true
  | .fin _, .negInf => false
  | .fin a, .fin b => decide (a < b)
  | .fin _, .posInf => true
  | .posInf, _ => false

/-- The C comparison `a > b` on floats. -/
def CFloat.gt (a b : CFloat) : Bool := CFloat.lt b a

/-- Sensor readings structure. -/
structure SensorData_t where
  moisturePercent : CFloat
  airTemperatureCelsius : CFloat
  deriving DecidableEq

/-- User-configurable system settings (the three durations are `uint32_t`). -/
structure SystemSettings_t where
  minMoistureThreshold : CFloat
  maxMoistureThreshold : CFloat
  maxWateringDuration_s : Nat
  manualWateringDuration_s : Nat
  sensorReadInterval_s : Nat
  deriving DecidableEq

/-- Runtime system state (the two counters are `uint32_t`). -/
structure SystemState_t where
  currentMode : SystemMode_t
  pumpState : PumpState_t
  ledState : LedState_t
  wateringTimeCounter : Nat
  sensorCheckCounter : Nat
  deriving DecidableEq

def DEFAULT_MIN_MOISTURE : CFloat := .fin 30
def DEFAULT_MAX_MOISTURE : CFloat := .fin 70
def DEFAULT_MAX_WATERING_TIME : Nat := 30
def DEFAULT_MANUAL_WATERING_TIME : Nat := 10
def DEFAULT_SENSOR_INTERVAL : Nat := 5

/-! ## Machine arithmetic -/

/-- Number of values of a `uint32_t`. -/
def UINT32_RANGE : Nat := 4294967296

/-- The C expression `x++` on a `uint32_t`: the stored value afterwards. -/
def u32_incr (x : Nat) : Nat := (x + 1) % UINT32_RANGE

/-- The C expression `a - b` on two `uint32_t`. -/
def u32_sub (a b : Nat) : Nat := (a % UINT32_RANGE + UINT32_RANGE - b % UINT32_RANGE) % UINT32_RANGE

/-! ## Effects -/

/-- The texts handed to `SendStatus`, one constructor per call site. -/
inductive StatusMsg where
  /-- "System initialized - AUTO mode" -/
  | systemInitialized
  /-- "Sensors - Moisture: %.1f%% | Temp: %.1f°C" with the two readings -/
  | sensors (moisture temperature : CFloat)
  /-- "AUTO: Starting pump - soil too dry" -/
  | autoStartingPump
  /-- "AUTO: Target moisture reached - pump OFF" -/
  | autoTargetReached
  /-- "AUTO: Max watering time exceeded - pump OFF" -/
  | autoMaxTimeExceeded
  /-- "MANUAL: Pump activated by user" -/
  | manualPumpActivated
  /-- "MANUAL: Watering duration complete - pump OFF" -/
  | manualDurationComplete
  /-- "Mode changed: MANUAL" -/
  | modeChangedManual
  /-- "Mode changed: AUTO" -/
  | modeChangedAuto
  /-- "MANUAL mode: Pump forcibly turned OFF" -/
  | manualPumpForcedOff
  deriving DecidableEq

/-- An effectful call made by the controller. -/
inductive HalCall where
  | HAL_Init
  | HAL_TurnPumpOn
  | HAL_TurnPumpOff
  | HAL_SetLedState (s : LedState_t)
  | HAL_DelayMs (ms : Nat)
  | SendStatus (msg : StatusMsg)
  deriving DecidableEq

/-- The module-scope variables of `spws_controller.c`, the static local
`lastTickMs` of `SPWS_Run`, and the calls made so far. -/
structure Controller where
  sensorData : SensorData_t
  settings : SystemSettings_t
  state : SystemState_t
  lastTickMs : Nat
  calls : List HalCall
  deriving DecidableEq

/-- What the polled HAL functions return during one pass of the 1-second block:
`HAL_IsModeButtonPressed()` (polled by `CheckButtons`),
`HAL_IsManualButtonPressed()` (polled by `RunManualMode` only),
`HAL_ReadSoilMoisture()` and `HAL_ReadAirTemperature()` (called by
`UpdateSensors` only). -/
structure TickInput where
  modeButton : Bool
  manualButton : Bool
  soilMoisture : CFloat
  airTemperature : CFloat
  deriving DecidableEq

/-- Static storage before `main` runs: every object is zero-initialised, so the
enums hold their first enumerator and the floats are `0.0`. -/
def powerOn : Controller :=
  { sensorData := { moisturePercent := .fin 0, airTemperatureCelsius := .fin 0 }
    settings :=
      { minMoistureThreshold := .fin 0
        maxMoistureThreshold := .fin 0
        maxWateringDuration_s := 0
        manualWateringDuration_s := 0
        sensorReadInterval_s := 0 }
    state :=
      { currentMode := .MODE_AUTO
        pumpState := .PUMP_OFF
        ledState := .LED_NORMAL
        wateringTimeCounter := 0
        sensorCheckCounter := 0 }
    lastTickMs := 0
    calls := [] }

/-- Record one effectful call. -/
def Controller.call (c : Controller) (e : HalCall) : Controller :=
  { c with calls := c.calls ++ [e] }

/-! ## spws_controller.c -/

def SendStatus (msg : StatusMsg) (c : Controller) : Controller :=
  c.call (.SendStatus msg)

def UpdateLed (c : Controller) : Controller :=
  c.call (.HAL_SetLedState c.state.ledState)

def SPWS_Init (c : Controller) : Controller :=
  let c := { c with settings :=
    { minMoistureThreshold := DEFAULT_MIN_MOISTURE
      maxMoistureThreshold := DEFAULT_MAX_MOISTURE
      maxWateringDuration_s := DEFAULT_MAX_WATERING_TIME
      manualWateringDuration_s := DEFAULT_MANUAL_WATERING_TIME
      sensorReadInterval_s := DEFAULT_SENSOR_INTERVAL } }
  let c := { c with state :=
    { currentMode := .MODE_AUTO
      pumpState := .PUMP_OFF
      ledState := .LED_NORMAL
      wateringTimeCounter := 0
      sensorCheckCounter := 0 } }
  let c := c.call .HAL_Init
  SendStatus .systemInitialized c

def UpdateSensors (inp : TickInput) (c : Controller) : Controller :=
  let c := { c with sensorData := { c.sensorData with moisturePercent := inp.soilMoisture } }
  let c := { c with sensorData := { c.sensorData with airTemperatureCelsius := inp.airTemperature } }
  SendStatus (.sensors c.sensorData.moisturePercent c.sensorData.airTemperatureCelsius) c

def RunAutoMode (c : Controller) : Controller :=
  -- Start watering if soil is too dry
  let c :=
    if c.sensorData.moisturePercent.lt c.settings.minMoistureThreshold
        && c.state.pumpState == .PUMP_OFF then
      let c := c.call .HAL_TurnPumpOn
      let c := { c with state := { c.state with pumpState := .PUMP_ON } }
      let c := { c with state := { c.state with ledState := .LED_WATERING } }
      let c := { c with state := { c.state with wateringTimeCounter := 0 } }
      SendStatus .autoStartingPump c
    else c
  -- Stop conditions when pump is running
  let c :=
    if c.state.pumpState == .PUMP_ON then
      let c := { c with state :=
        { c.state with wateringTimeCounter := u32_incr c.state.wateringTimeCounter } }
      if c.sensorData.moisturePercent.gt c.settings.maxMoistureThreshold then
        let c := c.call .HAL_TurnPumpOff
        let c := { c with state := { c.state with pumpState := .PUMP_OFF } }
        let c := { c with state := { c.state with ledState := .LED_NORMAL } }
        SendStatus .autoTargetReached c
      else if c.state.wateringTimeCounter ≥ c.settings.maxWateringDuration_s then
        let c := c.call .HAL_TurnPumpOff
        let c := { c with state := { c.state with pumpState := .PUMP_OFF } }
        let c := { c with state := { c.state with ledState := .LED_MOISTURE_ALERT } }
        SendStatus .autoMaxTimeExceeded c
      else c
    else c
  -- Update alert LED when not watering
  let c :=
    if c.state.pumpState == .PUMP_OFF then
      { c with state := { c.state with ledState :=
          if c.sensorData.moisturePercent.lt c.settings.minMoistureThreshold then
            .LED_MOISTURE_ALERT
          else .LED_NORMAL } }
    else c
  UpdateLed c

def RunManualMode (inp : TickInput) (c : Controller) : Controller :=
  -- Manual watering trigger
  let c :=
    if inp.manualButton && c.state.pumpState == .PUMP_OFF then
      let c := c.call .HAL_TurnPumpOn
      let c := { c with state := { c.state with pumpState := .PUMP_ON } }
      let c := { c with state := { c.state with ledState := .LED_WATERING } }
      let c := { c with state := { c.state with wateringTimeCounter := 0 } }
      SendStatus .manualPumpActivated c
    else c
  -- Auto-stop after duration
  let c :=
    if c.state.pumpState == .PUMP_ON then
      let c := { c with state :=
        { c.state with wateringTimeCounter := u32_incr c.state.wateringTimeCounter } }
      if c.state.wateringTimeCounter ≥ c.settings.manualWateringDuration_s then
        let c := c.call .HAL_TurnPumpOff
        let c := { c with state := { c.state with pumpState := .PUMP_OFF } }
        let c := { c with state := { c.state with ledState := .LED_NORMAL } }
        SendStatus .manualDurationComplete c
      else c
    else c
  UpdateLed c

def CheckButtons (inp : TickInput) (c : Controller) : Controller :=
  if inp.modeButton then
    let c :=
      if c.state.currentMode == .MODE_AUTO then
        let c := { c with state := { c.state with currentMode := .MODE_MANUAL } }
        SendStatus .modeChangedManual c
      else
        let c := { c with state := { c.state with currentMode := .MODE_AUTO } }
        SendStatus .modeChangedAuto c
    -- Force pump off when entering manual mode
    let c :=
      if c.state.currentMode == .MODE_MANUAL && c.state.pumpState == .PUMP_ON then
        let c := c.call .HAL_TurnPumpOff
        let c := { c with state := { c.state with pumpState := .PUMP_OFF } }
        let c := { c with state := { c.state with ledState := .LED_NORMAL } }
        SendStatus .manualPumpForcedOff c
      else c
    c.call (.HAL_DelayMs 300)
  else c

/-- The 1-second periodic tasks of `SPWS_Run`: the block guarded by the elapsed
time test, after `lastTickMs` has been stored. One pass of it is one tick. -/
def tick (inp : TickInput) (c : Controller) : Controller :=
  let c := CheckButtons inp c
  let c := { c with state :=
    { c.state with sensorCheckCounter := u32_incr c.state.sensorCheckCounter } }
  -- Periodic sensor reading
  let c :=
    if c.state.sensorCheckCounter ≥ c.settings.sensorReadInterval_s then
      let c := { c with state := { c.state with sensorCheckCounter := 0 } }
      UpdateSensors inp c
    else c
  -- Execute mode-specific logic
  if c.state.currentMode == .MODE_AUTO then
    RunAutoMode c
  else
    RunManualMode inp c

/-- One call of `SPWS_Run`, `currentTickMs` being what `HAL_GetTick()` returns. -/
def SPWS_Run (currentTickMs : Nat) (inp : TickInput) (c : Controller) : Controller :=
  if u32_sub currentTickMs c.lastTickMs ≥ 1000 then
    let c := { c with lastTickMs := currentTickMs % UINT32_RANGE }
    tick inp c
  else c

/-- Consecutive ticks, one per element of the input list. -/
def runTicks (c : Controller) (inps : List TickInput) : Controller :=
  inps.foldl (fun c inp => tick inp c) c

/-- The moisture sample the mode rule of a tick works with: the one read in
this tick when the read interval is reached, the one held before otherwise. -/
def sampleInEffect (inp : TickInput) (c : Controller) : CFloat :=
  if u32_incr c.state.sensorCheckCounter ≥ c.settings.sensorReadInterval_s then
    inp.soilMoisture
  else c.sensorData.moisturePercent

/-- Every tick reads the same sensor values and no button is pressed. -/
def steadyInput (moisture temperature : CFloat) : TickInput :=
  { modeButton := false
    manualButton := false
    soilMoisture := moisture
    airTemperature := temperature }

/-- The sensor step of a tick (the counter increment and the periodic read of
`SPWS_Run`), named so that lemmas can speak about it; `tick_eq` relates it to `tick`. -/
def sensorPhase (inp : TickInput) (c : Controller) : Controller :=
  let c := { c with state :=
    { c.state with sensorCheckCounter := u32_incr c.state.sensorCheckCounter } }
  if c.state.sensorCheckCounter ≥ c.settings.sensorReadInterval_s then
    let c := { c with state := { c.state with sensorCheckCounter := 0 } }
    UpdateSensors inp c
  else c

/-- The part of the controller the decisions depend on: the runtime state, the
settings and the held moisture sample. -/
def Controller.control (c : Controller) : SystemState_t × SystemSettings_t × CFloat :=
  (c.state, c.settings, c.sensorData.moisturePercent)

/-! ## Runs and scenarios -/

/-- The controllers at the end of each tick of a run, in order. -/
def trajectory (c : Controller) : List TickInput → List Controller
  | [] => []
  | inp :: rest => tick inp c :: trajectory (tick inp c) rest

/-- The controller once `main` has called `SPWS_Init`. -/
def boot : Controller := SPWS_Init powerOn

/-- A tick in which the mode button alone is pressed. -/
def modePress : TickInput :=
  { modeButton := true
    manualButton := false
    soilMoisture := .fin 20
    airTemperature := .fin 26 }

/-- A tick in which the manual-watering button alone is pressed. -/
def manualPress : TickInput :=
  { modeButton := false
    manualButton := true
    soilMoisture := .fin 20
    airTemperature := .fin 26 }

/-- A tick in which both buttons are pressed. -/
def bothPress : TickInput :=
  { modeButton := true
    manualButton := true
    soilMoisture := .fin 20
    airTemperature := .fin 26 }

/-- A tick without a button press, the sensor holding 20 %. -/
def idle : TickInput := steadyInput (.fin 20) (.fin 26)

/-- Auto mode after `k` ticks on dry soil (20 %), no button pressed. -/
def autoDry (k : Nat) : Controller := runTicks boot (List.replicate k idle)

/-- Manual mode with the pump off: one mode-button press after start-up. -/
def manualIdle : Controller := runTicks boot [modePress]

/-- Manual mode, `k` idle ticks after the tick on which the manual button started the pump. -/
def manualCycle (k : Nat) : Controller :=
  runTicks manualIdle (manualPress :: List.replicate k idle)

/-- Default settings except a maximum auto-watering duration of one second. -/
def shortCap : Controller :=
  { boot with settings := { boot.settings with maxWateringDuration_s := 1 } }

/-- Settings whose thresholds are the wrong way round (min 70, max 30), holding a 50 % sample. -/
def swappedThresholds : Controller :=
  { boot with
    settings :=
      { boot.settings with
        minMoistureThreshold := .fin 70
        maxMoistureThreshold := .fin 30 }
    sensorData := { boot.sensorData with moisturePercent := .fin 50 } }

/-- The calls made during one tick, in order. -/
def callsOfTick (inp : TickInput) (c : Controller) : List HalCall :=
  (tick inp { c with calls := [] }).calls

/-! ## The calls of one tick, step by step -/

/-- The calls made by `CheckButtons` (see `CheckButtons_calls`). -/
def buttonCalls (inp : TickInput) (c : Controller) : List HalCall :=
  if inp.modeButton = true then
    (if c.state.currentMode = .MODE_AUTO then
      HalCall.SendStatus .modeChangedManual ::
        (if c.state.pumpState = .PUMP_ON then
          [.HAL_TurnPumpOff, .SendStatus .manualPumpForcedOff]
        else [])
    else [.SendStatus .modeChangedAuto]) ++ [.HAL_DelayMs 300]
  else []

/-- The calls made by the sensor step (see `sensorPhase_calls_eq`). -/
def sensorCalls (inp : TickInput) (c : Controller) : List HalCall :=
  if u32_incr c.state.sensorCheckCounter ≥ c.settings.sensorReadInterval_s then
    [.SendStatus (.sensors inp.soilMoisture inp.airTemperature)]
  else []

/-- The calls made by `RunAutoMode` before its closing `UpdateLed`
(see `RunAutoMode_calls`). -/
def autoCalls (c : Controller) : List HalCall :=
  if c.state.pumpState = .PUMP_OFF then
    if c.sensorData.moisturePercent.lt c.settings.minMoistureThreshold = true then
      HalCall.HAL_TurnPumpOn :: HalCall.SendStatus .autoStartingPump ::
        (if c.sensorData.moisturePercent.gt c.settings.maxMoistureThreshold = true then
          [.HAL_TurnPumpOff, .SendStatus .autoTargetReached]
        else if c.settings.maxWateringDuration_s ≤ 1 then
          [.HAL_TurnPumpOff, .SendStatus .autoMaxTimeExceeded]
        else [])
    else []
  else if c.sensorData.moisturePercent.gt c.settings.maxMoistureThreshold = true then
    [.HAL_TurnPumpOff, .SendStatus .autoTargetReached]
  else if u32_incr c.state.wateringTimeCounter ≥ c.settings.maxWateringDuration_s then
    [.HAL_TurnPumpOff, .SendStatus .autoMaxTimeExceeded]
  else []

/-- The calls made by `RunManualMode` before its closing `UpdateLed`
(see `RunManualMode_calls`). -/
def manualCalls (inp : TickInput) (c : Controller) : List HalCall :=
  if c.state.pumpState = .PUMP_OFF then
    if inp.manualButton = true then
      HalCall.HAL_TurnPumpOn :: HalCall.SendStatus .manualPumpActivated ::
        (if c.settings.manualWateringDuration_s ≤ 1 then
          [.HAL_TurnPumpOff, .SendStatus .manualDurationComplete]
        else [])
    else []
  else if u32_incr c.state.wateringTimeCounter ≥ c.settings.manualWateringDuration_s then
    [.HAL_TurnPumpOff, .SendStatus .manualDurationComplete]
  else []

/-- The calls of the mode rule of a tick before the closing `UpdateLed`. -/
def ruleCalls (inp : TickInput) (c : Controller) : List HalCall :=
  if c.state.currentMode = .MODE_AUTO then autoCalls c else manualCalls inp c

/-! ## Pump commands in a list of calls -/

/-- The pump state an actuator is left in by one call, having been in state `p`. -/
def pumpAfterCall (p : PumpState_t) : HalCall → PumpState_t
  | .HAL_TurnPumpOn => .PUMP_ON
  | .HAL_TurnPumpOff => .PUMP_OFF
  | _ => p

/-- The pump state an actuator is left in by a list of calls, having been in state `p`. -/
def pumpAfterCalls (p : PumpState_t) (calls : List HalCall) : PumpState_t :=
  calls.foldl pumpAfterCall p

/-- The last pump command of a list of calls, Off when it holds none. -/
def lastPumpCommand (calls : List HalCall) : PumpState_t :=
  pumpAfterCalls .PUMP_OFF calls

/-- Every pump command of the list changes the pump state it meets: pump-on
comes only when the pump is off and pump-off only when it is on, `p` being the
state before the first call. -/
def pumpCommandsAllFlip (p : PumpState_t) : List HalCall → Bool
  | [] => true
  | .HAL_TurnPumpOn :: rest => p == .PUMP_OFF && pumpCommandsAllFlip .PUMP_ON rest
  | .HAL_TurnPumpOff :: rest => p == .PUMP_ON && pumpCommandsAllFlip .PUMP_OFF rest
  | _ :: rest => pumpCommandsAllFlip p rest

/-- Manual mode with the pump off and a manual-watering duration of one second,
the other settings being the defaults. -/
def oneSecondManual : Controller :=
  { manualIdle with settings := { manualIdle.settings with manualWateringDuration_s := 1 } }

/-- A tick without a button press on which the sensor returns 75 %. -/
def wetInput (temperature : CFloat) : TickInput := steadyInput (.fin 75) temperature

/-- The invariant the specification puts on settings, in its words:
`0 ≤ min < max ≤ 100` and the three durations `> 0`. -/
def specSettingsInvariant (s : SystemSettings_t) : Bool :=
  (match s.minMoistureThreshold, s.maxMoistureThreshold with
    | .fin lo, .fin hi => decide (0 ≤ lo) && decide (lo < hi) && decide (hi ≤ 100)
    | _, _ => false) &&
    decide (0 < s.maxWateringDuration_s) && decide (0 < s.manualWateringDuration_s) &&
    decide (0 < s.sensorReadInterval_s)

/-! ## hal_buttons.c -/

/-- The value `EOF` of `<stdio.h>`. -/
def EOF : Int := -1

/-- The function `HAL_IsManualButtonPressed`: `c` is what `getch_noblock()`
returns on this poll and `lastState` the function-local static; the result is
the value returned and the static afterwards. The characters `'t'` and `'T'`
are 116 and 84. -/
def HAL_IsManualButtonPressed (c : Int) (lastState : Nat) : Nat × Nat :=
  if (c = 116 ∨ c = 84) ∧ lastState = 0 then
    (1, 1)
  else
    let lastState := if c = EOF ∨ (c ≠ 116 ∧ c ≠ 84) then 0 else lastState
    (0, lastState)

/-- The values returned by successive polls of `HAL_IsManualButtonPressed`, one
per character read, the static being `lastState` before the first of them. -/
def pollManualButton : List Int → Nat → List Nat
  | [], _ => []
  | c :: rest, lastState =>
    (HAL_IsManualButtonPressed c lastState).1 ::
      pollManualButton rest (HAL_IsManualButtonPressed c lastState).2

/-- The character is one the manual button answers to: `'t'` or `'T'`. -/
def isManualKey (c : Int) : Prop := c = 116 ∨ c = 84

instance (c : Int) : Decidable (isManualKey c) := by
  unfold isManualKey
  infer_instance

end SPWS

/-!
# LED RGB driver

A shallow embedding of `04_LED_RGB_Driver/src/led_driver.c` and of the colour
constants of `include/led_driver.h`.

* The private `led_state` is `LedState`; the heap block behind `buffer` is the
  list of its `uint32_t` cells, `none` standing for `NULL`.
* Whether `calloc` succeeds is an argument of `led_init`.
* The `uint8_t` colour components are natural numbers; that they are below 256
  is a hypothesis where it matters.
-/

namespace LedDriver

/-- The driver state structure `led_state`. -/
structure LedState where
  buffer : Option (List Nat)
  num_pixels : Nat
  initialized : Bool
  deriving DecidableEq, Repr

/-- The static initialiser of `led_state`. -/
def led_state_initial : LedState :=
  { buffer := none
    num_pixels := 0
    initialized := false }

/-- Pack RGB components into a 32-bit colour value, format 0x00GGRRBB. -/
def pack_color (r g b : Nat) : Nat :=
  (g <<< 16) ||| (r <<< 8) ||| b

/-- Check if a pixel index is valid. -/
def is_valid_index (index : Nat) (s : LedState) : Bool :=
  s.initialized && decide (index < s.num_pixels)

/-- The function `led_init`: the value returned and the state afterwards;
`allocOk` tells whether `calloc` returns a block. -/
def led_init (num_pixels : Nat) (allocOk : Bool) (s : LedState) : Int × LedState :=
  -- Validate input
  if num_pixels = 0 then (-1, s)
  -- Check if already initialized
  else if s.initialized then (-1, s)
  else
    -- Allocate memory for the buffer
    let s :=
      { s with buffer := if allocOk then some (List.replicate num_pixels 0) else none }
    if s.buffer = none then (-1, s)
    else
      -- Initialize state
      let s := { s with num_pixels := num_pixels }
      let s := { s with initialized := true }
      (0, s)

def led_shutdown (s : LedState) : LedState :=
  if !s.initialized then s
  else
    -- Free allocated memory
    let s := if s.buffer ≠ none then { s with buffer := none } else s
    -- Reset state
    let s := { s with num_pixels := 0 }
    { s with initialized := false }

def led_set_pixel_color (index r g b : Nat) (s : LedState) : LedState :=
  -- Bounds checking
  if !is_valid_index index s then s
  else
    -- Pack color and store in buffer
    { s with buffer := s.buffer.map fun buf => buf.set index (pack_color r g b) }

def led_fill (r g b : Nat) (s : LedState) : LedState :=
  if !s.initialized then s
  else
    -- Pack color once
    let color := pack_color r g b
    -- Fill entire buffer with this color
    { s with buffer := s.buffer.map fun buf =>
        (List.range s.num_pixels).foldl (fun buf i => buf.set i color) buf }

def led_clear (s : LedState) : LedState :=
  led_fill 0 0 0 s

def led_get_buffer (s : LedState) : Option (List Nat) :=
  if !s.initialized then none else s.buffer

def led_get_pixel_count (s : LedState) : Nat :=
  if s.initialized then s.num_pixels else 0

def led_get_pixel (index : Nat) (s : LedState) : Nat :=
  if !is_valid_index index s then 0
  else
    match s.buffer with
    | some buf => buf.getD index 0
    | none => 0

/-- The green component `led_print_buffer` extracts: `(color >> 16) & 0xFF`. -/
def extract_g (color : Nat) : Nat := (color >>> 16) &&& 0xFF

/-- The red component `led_print_buffer` extracts: `(color >> 8) & 0xFF`. -/
def extract_r (color : Nat) : Nat := (color >>> 8) &&& 0xFF

/-- The blue component `led_print_buffer` extracts: `color & 0xFF`. -/
def extract_b (color : Nat) : Nat := color &&& 0xFF

def LED_COLOR_BLACK : Nat := 0x00000000
def LED_COLOR_WHITE : Nat := 0x00FFFFFF
def LED_COLOR_RED : Nat := 0x0000FF00
def LED_COLOR_GREEN : Nat := 0x00FF0000
def LED_COLOR_BLUE : Nat := 0x000000FF
def LED_COLOR_YELLOW : Nat := 0x00FFFF00
def LED_COLOR_CYAN : Nat := 0x00FF00FF
def LED_COLOR_MAGENTA : Nat := 0x0000FFFF
def LED_COLOR_ORANGE : Nat := 0x00FF8000
def LED_COLOR_PURPLE : Nat := 0x008000FF

/-- The strip is initialised and `buffer` is a block of `num_pixels` cells, as
`led_init` leaves it. -/
def LedState.ready (s : LedState) : Bool :=
  s.initialized &&
    match s.buffer with
    | some buf => buf.length == s.num_pixels
    | none => false

/-- One call of the public interface that changes the driver state. -/
inductive LedCall where
  | init (num_pixels : Nat) (allocOk : Bool)
  | set_pixel_color (index r g b : Nat)
  | fill (r g b : Nat)
  | clear
  | shutdown
  deriving DecidableEq, Repr

/-- The state after one call. -/
def LedCall.run : LedCall → LedState → LedState
  | .init n ok, s => (led_init n ok s).2
  | .set_pixel_color i r g b, s => led_set_pixel_color i r g b s
  | .fill r g b, s => led_fill r g b s
  | .clear, s => led_clear s
  | .shutdown, s => led_shutdown s

/-- The colour arguments of the call are `uint8_t` values. -/
def LedCall.eightBit : LedCall → Bool
  | .set_pixel_color _ r g b => decide (r < 256) && decide (g < 256) && decide (b < 256)
  | .fill r g b => decide (r < 256) && decide (g < 256) && decide (b < 256)
  | _ => true

/-- The state after a sequence of calls. -/
def runCalls (s : LedState) (calls : List LedCall) : LedState :=
  calls.foldl (fun s c => c.run s) s

/-- Every cell of the block behind `buffer` is below `2 ^ 24`. -/
def LedState.cellsBelow (s : LedState) : Prop :=
  ∀ buf, s.buffer = some buf → ∀ v ∈ buf, v < 2 ^ 24

end LedDriver

/-!
# Task queue

A shallow embedding of `06_Task_Queue_Log/task_queue.c`, a FIFO queue kept as a
singly linked list with a head and a tail pointer.

* Memory is explicit: `heap` lists the nodes `malloc` has handed out, a pointer
  to a node is its index in that list and `none` is `NULL`. `malloc` returns the
  next unused index; `free` is left to the caller and is not modelled.
* A `char` array is the list of its bytes; a C string argument is given by its
  bytes, read up to the first zero byte.
-/

namespace TaskQueue

/-- Maximum size of a task description. -/
def TASK_DESC_SIZE : Nat := 50

/-- The node structure `TaskNode_t`. -/
structure TaskNode_t where
  task_description : List Nat
  next : Option Nat
  deriving DecidableEq, Repr

/-- The nodes allocated so far and the two module-scope pointers. -/
structure QueueState where
  heap : List TaskNode_t
  queue_head : Option Nat
  queue_tail : Option Nat
  deriving DecidableEq, Repr

/-- The string held by a `char` array: its bytes before the first zero byte. -/
def cstring (bytes : List Nat) : List Nat :=
  bytes.takeWhile (· ≠ 0)

/-- The `n` bytes `strncpy(dest, src, n)` writes to `dest`: the string of `src`
cut to `n` bytes, padded with zero bytes up to `n`. -/
def strncpy (src : List Nat) (n : Nat) : List Nat :=
  (cstring src).take n ++ List.replicate (n - (cstring src).length) 0

/-- The assignment `p->next = value` on the heap (nothing to write for a
pointer that is not a node). -/
def setNext (heap : List TaskNode_t) (p : Nat) (value : Option Nat) : List TaskNode_t :=
  match heap[p]? with
  | some node => heap.set p { node with next := value }
  | none => heap

/-- The function `queue_add_task`; `description` is `none` for `NULL`, and
`allocOk` tells whether `malloc` returns a node. -/
def queue_add_task (description : Option (List Nat)) (allocOk : Bool) (q : QueueState) :
    QueueState :=
  match description with
  | none => q
  | some description =>
    if !allocOk then q
    else
      -- allocate the new node
      let new_node := q.heap.length
      -- copy the description, force the terminator, clear the link
      let node : TaskNode_t :=
        { task_description := strncpy description (TASK_DESC_SIZE - 1) ++ [0]
          next := none }
      let heap := q.heap ++ [node]
      match q.queue_head with
      | none =>
        -- empty queue: the new node is both head and tail
        { heap := heap, queue_head := some new_node, queue_tail := some new_node }
      | some _ =>
        -- append after the tail
        match q.queue_tail with
        | some tail =>
          { heap := setNext heap tail (some new_node)
            queue_head := q.queue_head
            queue_tail := some new_node }
        | none => { heap := heap, queue_head := q.queue_head, queue_tail := some new_node }

/-- The function `queue_get_next_task`: the pointer returned and the state afterwards. -/
def queue_get_next_task (q : QueueState) : Option Nat × QueueState :=
  match q.queue_head with
  | none => (none, q)
  | some task_node =>
    -- move head to the next node
    let next := (q.heap[task_node]?).bind (·.next)
    let q := { q with queue_head := next }
    -- the queue became empty: update tail
    let q := if q.queue_head = none then { q with queue_tail := none } else q
    -- unlink the node
    let q := { q with heap := setNext q.heap task_node none }
    (some task_node, q)

/-- The function `queue_is_empty`. -/
def queue_is_empty (q : QueueState) : Nat :=
  if q.queue_head = none then 1 else 0

/-- Add the descriptions one after the other, every allocation succeeding. -/
def addAll (descriptions : List (List Nat)) (q : QueueState) : QueueState :=
  descriptions.foldl (fun q d => queue_add_task (some d) true q) q

/-- Call `queue_get_next_task` `n` times; each result is the node the returned
pointer points to right after the call (`none` for `NULL`). -/
def getMany : Nat → QueueState → List (Option TaskNode_t) × QueueState
  | 0, q => ([], q)
  | n + 1, q =>
    let r := queue_get_next_task q
    let node := r.1.bind (r.2.heap[·]?)
    let rest := getMany n r.2
    (node :: rest.1, rest.2)

/-- The linked list starting at `start`: the listed pointers in order, each to
a node with the listed description, the last one with a `NULL` link. -/
def chain (heap : List TaskNode_t) : Option Nat → List (Nat × List Nat) → Prop
  | start, [] => start = none
  | start, (p, d) :: rest =>
    start = some p ∧ ∃ nx, heap[p]? = some { task_description := d, next := nx } ∧
      chain heap nx rest

/-- The queue holds `items` (pointer and description, oldest first): the list
from `queue_head` runs through them, no node occurs twice, and `queue_tail`
points to the last of them. -/
def Holds (q : QueueState) (items : List (Nat × List Nat)) : Prop :=
  chain q.heap q.queue_head items ∧ (items.map Prod.fst).Nodup ∧
    q.queue_tail = (items.map Prod.fst).getLast?

/-- The queue with both pointers `NULL`, whatever nodes were allocated before. -/
def emptyQueue (heap : List TaskNode_t) : QueueState :=
  { heap := heap, queue_head := none, queue_tail := none }

/-- The loop of `queue_destroy` from `current` on: the pointers handed to
`free`, in order, or `none` when the loop has not ended after `fuel` nodes. -/
def destroyLoop (heap : List TaskNode_t) : Nat → Option Nat → Option (List Nat)
  | _, none => some []
  | 0, some _ => none
  | fuel + 1, some current =>
    let next_node := (heap[current]?).bind (·.next)
    (destroyLoop heap fuel next_node).map (current :: ·)

/-- The function `queue_destroy`: the pointers freed and the state afterwards.
A walk over more nodes than were ever allocated has met a node twice and goes
on for ever, so the loop is given `heap.length + 1` steps and the result is
`none` when they do not suffice. -/
def queue_destroy (q : QueueState) : Option (List Nat × QueueState) :=
  (destroyLoop q.heap (q.heap.length + 1) q.queue_head).map
    (fun freed => (freed, { q with queue_head := none, queue_tail := none }))

/-- One call of the queue interface by a client. -/
inductive QueueCall
  | add (description : Option (List Nat)) (allocOk : Bool)
  | get
  | destroy
  deriving DecidableEq, Repr

/-- The state after one call, `none` when the call does not return. -/
def QueueCall.run : QueueCall → QueueState → Option QueueState
  | .add description allocOk, q => some (queue_add_task description allocOk q)
  | .get, q => some (queue_get_next_task q).2
  | .destroy, q => (queue_destroy q).map (·.2)

/-- The state after a sequence of calls, `none` when one of them does not return. -/
def runQueueCalls : List QueueCall → QueueState → Option QueueState
  | [], q => some q
  | call :: rest, q => (call.run q).bind (runQueueCalls rest)

/-- In the words of the specification, the effect of one call on the tasks
pending (the descriptions as passed, oldest first): an `add` that is given a
description and memory appends it, a `get` takes the oldest away and a
`destroy` drops them all. -/
def QueueCall.pending : QueueCall → List (List Nat) → List (List Nat)
  | .add (some description) true, tasks => tasks ++ [description]
  | .add _ _, tasks => tasks
  | .get, tasks => tasks.tail
  | .destroy, _ => []

/-- In the words of the specification, the tasks pending after a sequence of
calls on a queue that started with none. -/
def pendingAfter (calls : List QueueCall) : List (List Nat) :=
  calls.foldl (fun tasks call => call.pending tasks) []

end TaskQueue

/-!
# Activity log

A shallow embedding of `06_Task_Queue_Log/activity_log.c`, a log kept as a
doubly linked list with the newest entry at the head. Memory and strings are
modelled as for the task queue: `heap` lists the nodes `malloc` has handed out,
a pointer is an index into it, `none` is `NULL`.
-/

namespace ActivityLog

open TaskQueue (cstring strncpy)

/-- Maximum size of a log entry. -/
def LOG_ENTRY_SIZE : Nat := 50

/-- The node structure `HistoryNode_t`. -/
structure HistoryNode_t where
  log_entry : List Nat
  next : Option Nat
  prev : Option Nat
  deriving DecidableEq, Repr

/-- The nodes allocated so far and the three module-scope pointers. -/
structure HistoryState where
  heap : List HistoryNode_t
  history_head : Option Nat
  history_tail : Option Nat
  current_node : Option Nat
  deriving DecidableEq, Repr

/-- The assignment `p->next = value` on the heap (nothing to write for a
pointer that is not a node). -/
def setNext (heap : List HistoryNode_t) (p : Nat) (value : Option Nat) : List HistoryNode_t :=
  match heap[p]? with
  | some node => heap.set p { node with next := value }
  | none => heap

/-- The assignment `p->prev = value` on the heap. -/
def setPrev (heap : List HistoryNode_t) (p : Nat) (value : Option Nat) : List HistoryNode_t :=
  match heap[p]? with
  | some node => heap.set p { node with prev := value }
  | none => heap

/-- The function `history_log_activity`; `entry` is `none` for `NULL`, and
`allocOk` tells whether `malloc` returns a node. -/
def history_log_activity (entry : Option (List Nat)) (allocOk : Bool) (s : HistoryState) :
    HistoryState :=
  match entry with
  | none => s
  | some entry =>
    if !allocOk then s
    else
      -- allocate the new node
      let new_node := s.heap.length
      -- copy the entry, force the terminator, clear the links
      let node : HistoryNode_t :=
        { log_entry := strncpy entry (LOG_ENTRY_SIZE - 1) ++ [0]
          next := none
          prev := none }
      let heap := s.heap ++ [node]
      match s.history_head with
      | none =>
        -- empty list
        { s with heap := heap, history_head := some new_node, history_tail := some new_node }
      | some head =>
        -- insert before the old head
        let heap := setNext heap new_node (some head)
        let heap := setPrev heap head (some new_node)
        { s with heap := heap, history_head := some new_node }

/-- The loop of `history_print_all` from `current` on: the number and the
string printed for each node, in order. The result is `none` when the loop has
not ended after `fuel` nodes or follows a pointer that is not a node. -/
def printLoop (heap : List HistoryNode_t) : Nat → Option Nat → Nat → Option (List (Nat × List Nat))
  | _, none, _ => some []
  | 0, some _, _ => none
  | fuel + 1, some current, index =>
    match heap[current]? with
    | none => none
    | some node =>
      (printLoop heap fuel node.next (index + 1)).map ((index, cstring node.log_entry) :: ·)

/-- The function `history_print_all`: the entries it lists between its header
and footer lines, each with its number, none for the line `(Log is empty)`. A
walk over more nodes than were ever allocated has met a node twice and goes on
for ever, so the loop is given `heap.length + 1` steps. -/
def history_print_all (s : HistoryState) : Option (List (Nat × List Nat)) :=
  printLoop s.heap (s.heap.length + 1) s.history_head 1

/-- The function `history_is_empty`. -/
def history_is_empty (s : HistoryState) : Nat :=
  if s.history_head = none then 1 else 0

/-- Log the entries one after the other, every allocation succeeding. -/
def logAll (entries : List (List Nat)) (s : HistoryState) : HistoryState :=
  entries.foldl (fun s e => history_log_activity (some e) true s) s

/-- The log with all pointers `NULL`, whatever nodes were allocated before. -/
def emptyLog (heap : List HistoryNode_t) : HistoryState :=
  { heap := heap, history_head := none, history_tail := none, current_node := none }

/-- The linked list starting at `start`, followed through `next`: nodes with
the listed entries in order, the last one with a `NULL` link. -/
def chain (heap : List HistoryNode_t) : Option Nat → List (List Nat) → Prop
  | start, [] => start = none
  | start, d :: rest =>
    ∃ p node, start = some p ∧ heap[p]? = some node ∧ node.log_entry = d ∧
      chain heap node.next rest

end ActivityLog

/-!
# Logger

A shallow embedding of `c-logger/src/logger.c` with the header
`03_C-Logger/include/logger.h`.

* The module-scope `logger_config` and the function-local static
  `warning_shown` of `logger_log` are the fields of `LoggerConfig`; its field
  `log_file_path` is written by `logger_init` and never read, and is left out.
* What the module writes to `stderr`, `stdout` and the log file is kept, in
  order, in the field `output`. A log line is kept by the values printed into
  its format `"[%s] [%s] [%s:%d] - %s\n"`; the cut of the composed line to the
  size of the line buffer is not modelled.
* A string is the list of its bytes, without the terminator.
* A value of the enumeration `LogLevel` is an integer; the clock, the result of
  `fopen` and the expansion of a `printf`-style format are inputs.
-/

namespace Logger

/-- System is unusable. -/
def LOG_EMERGENCY : Int := 0
/-- Action must be taken immediately. -/
def LOG_ALERT : Int := 1
/-- Critical conditions. -/
def LOG_CRITICAL : Int := 2
/-- Error conditions. -/
def LOG_ERROR : Int := 3
/-- Warning conditions. -/
def LOG_WARNING : Int := 4
/-- Normal but significant condition. -/
def LOG_NOTICE : Int := 5
/-- Informational messages. -/
def LOG_INFO : Int := 6
/-- Debug-level messages. -/
def LOG_DEBUG : Int := 7

/-- Size of the buffer the user message is formatted into. -/
def MAX_LOG_MESSAGE : Nat := 4096

/-- The bytes of a string literal of the source (all of them ASCII). -/
def bytes (s : String) : List Nat := s.toList.map Char.toNat

/-- The values printed into one log line. -/
structure LogLine where
  timestamp : List Nat
  level_name : String
  filename : List Nat
  line : Int
  message : List Nat
  deriving DecidableEq, Repr

/-- The diagnostics the module prints to `stderr` outside of log lines. -/
inductive Diagnostic
  | alreadyInitialized
  | openFailed (log_file : List Nat)
  | notInitialized
  | invalidLevel (level : Int)
  | notInitializedWarning
  deriving DecidableEq, Repr

/-- The streams the module writes to. -/
inductive LogStream
  | stderr
  | stdout
  | logFile
  deriving DecidableEq, Repr

/-- One write of the module. -/
inductive Output
  | diagnostic (d : Diagnostic)
  | logLine (stream : LogStream) (l : LogLine)
  deriving DecidableEq, Repr

/-- The write is a log line. -/
def Output.isLogLine : Output → Bool
  | .diagnostic _ => false
  | .logLine _ _ => true

/-- The logger configuration `logger_config`, the static `warning_shown` and
the writes made so far; `log_file` is `none` for `NULL` and else the path the
stream was opened on. -/
structure LoggerConfig where
  log_file : Option (List Nat)
  min_level : Int
  initialized : Bool
  warning_shown : Bool
  output : List Output
  deriving DecidableEq, Repr

/-- The state at program start. -/
def logger_config_initial : LoggerConfig :=
  { log_file := none
    min_level := LOG_INFO
    initialized := false
    warning_shown := false
    output := [] }

/-- Record one write. -/
def LoggerConfig.write (c : LoggerConfig) (o : Output) : LoggerConfig :=
  { c with output := c.output ++ [o] }

/-- Level name mapping. -/
def level_names : List String :=
  ["EMERGENCY", "ALERT", "CRITICAL", "ERROR", "WARNING", "NOTICE", "INFO", "DEBUG"]

/-- The function `get_level_name`. -/
def get_level_name (level : Int) : String :=
  if level < LOG_EMERGENCY ∨ level > LOG_DEBUG then "UNKNOWN"
  else level_names.getD level.toNat "UNKNOWN"

/-- The C function `strrchr` on the bytes of a string: the part of the string
from the last occurrence of `ch` on, `none` when there is none. -/
def strrchr : List Nat → Nat → Option (List Nat)
  | [], _ => none
  | b :: rest, ch =>
    match strrchr rest ch with
    | some found => some found
    | none => if b = ch then some (b :: rest) else none

/-- The function `extract_filename`; 47 is `'/'` and 92 the backslash. -/
def extract_filename (path : List Nat) : List Nat :=
  let filename := strrchr path 47
  let filename := if filename = none then strrchr path 92 else filename
  match filename with
  | some found => found.drop 1
  | none => path

/-- The function `logger_log`: `formatted` is the expansion of the format with
its arguments and `timestamp` what `get_timestamp` writes at this call. -/
def logger_log (level : Int) (file : List Nat) (line : Int) (formatted : List Nat)
    (timestamp : List Nat) (c : LoggerConfig) : LoggerConfig :=
  -- Check initialization
  if !c.initialized then
    if !c.warning_shown then
      { c.write (.diagnostic .notInitializedWarning) with warning_shown := true }
    else c
  -- Level filtering
  else if level > c.min_level then c
  else
    let level_name := get_level_name level
    let filename := extract_filename file
    let message := formatted.take (MAX_LOG_MESSAGE - 1)
    let log_line : LogLine :=
      { timestamp := timestamp
        level_name := level_name
        filename := filename
        line := line
        message := message }
    -- Output to console (stderr for errors, stdout for others)
    let console : LogStream := if level ≤ LOG_ERROR then .stderr else .stdout
    let c := c.write (.logLine console log_line)
    -- Output to file if available
    if c.log_file ≠ none then c.write (.logLine .logFile log_line) else c

/-- The source file the module's own `log_info` calls name. -/
def thisFile : List Nat := bytes "logger.c"

/-- The function `logger_init`; `log_file` is `none` for `NULL` and `openOk`
tells whether `fopen` succeeds. -/
def logger_init (log_file : Option (List Nat)) (min_level : Int) (openOk : Bool)
    (timestamp : List Nat) (c : LoggerConfig) : Bool × LoggerConfig :=
  if c.initialized then
    (false, c.write (.diagnostic .alreadyInitialized))
  else
    let c := { c with min_level := min_level, log_file := none }
    -- Open log file if path provided
    match log_file with
    | some path =>
      if !openOk then (false, c.write (.diagnostic (.openFailed path)))
      else
        let c := { c with log_file := some path }
        let c := { c with initialized := true }
        (true, logger_log LOG_INFO thisFile 118
          (bytes "Logger initialized (min_level=" ++ bytes (get_level_name min_level) ++
            bytes ", file=" ++ path ++ bytes ")") timestamp c)
    | none =>
      let c := { c with initialized := true }
      (true, logger_log LOG_INFO thisFile 118
        (bytes "Logger initialized (min_level=" ++ bytes (get_level_name min_level) ++
          bytes ", file=" ++ bytes "console-only" ++ bytes ")") timestamp c)

/-- The function `logger_set_level`. -/
def logger_set_level (level : Int) (timestamp : List Nat) (c : LoggerConfig) : LoggerConfig :=
  if !c.initialized then c.write (.diagnostic .notInitialized)
  else if level < LOG_EMERGENCY ∨ level > LOG_DEBUG then
    c.write (.diagnostic (.invalidLevel level))
  else
    let old_level := c.min_level
    let c := { c with min_level := level }
    logger_log LOG_INFO thisFile 139
      (bytes "Log level changed from " ++ bytes (get_level_name old_level) ++ bytes " to " ++
        bytes (get_level_name level)) timestamp c

/-- The function `logger_get_level`. -/
def logger_get_level (c : LoggerConfig) : Int :=
  c.min_level

/-- The function `logger_cleanup`. -/
def logger_cleanup (timestamp : List Nat) (c : LoggerConfig) : LoggerConfig :=
  if !c.initialized then c
  else
    let c := logger_log LOG_INFO thisFile 212 (bytes "Logger shutting down") timestamp c
    let c := if c.log_file ≠ none then { c with log_file := none } else c
    { c with initialized := false }

/-- What a call wrote: the writes of `after` beyond those of `before`. -/
def written (before after : LoggerConfig) : List Output :=
  after.output.drop before.output.length

end Logger

namespace SPWS

/-! ## Basic facts -/

theorem CFloat.lt_asymm {a b : CFloat} (h : a.lt b = true) : b.lt a = false := by
  cases a <;> cases b <;> simp_all [CFloat.lt]
  exact le_of_lt h

theorem CFloat.lt_trans {a b c : CFloat} (hab : a.lt b = true) (hbc : b.lt c = true) :
    a.lt c = true := by
  cases a <;> cases b <;> cases c <;> simp_all [CFloat.lt]
  exact hab.trans hbc


theorem tick_eq (inp : TickInput) (c : Controller) :
    tick inp c =
      if (sensorPhase inp (CheckButtons inp c)).state.currentMode = .MODE_AUTO then
        RunAutoMode (sensorPhase inp (CheckButtons inp c))
      else RunManualMode inp (sensorPhase inp (CheckButtons inp c)) := by
  simp [tick, sensorPhase]

theorem sensorPhase_settings (inp : TickInput) (c : Controller) :
    (sensorPhase inp c).settings = c.settings := by
  unfold sensorPhase; dsimp only; split <;> rfl

theorem sensorPhase_mode (inp : TickInput) (c : Controller) :
    (sensorPhase inp c).state.currentMode = c.state.currentMode := by
  unfold sensorPhase; dsimp only; split <;> rfl

theorem sensorPhase_pump (inp : TickInput) (c : Controller) :
    (sensorPhase inp c).state.pumpState = c.state.pumpState := by
  unfold sensorPhase; dsimp only; split <;> rfl

theorem sensorPhase_led (inp : TickInput) (c : Controller) :
    (sensorPhase inp c).state.ledState = c.state.ledState := by
  unfold sensorPhase; dsimp only; split <;> rfl

theorem sensorPhase_watering (inp : TickInput) (c : Controller) :
    (sensorPhase inp c).state.wateringTimeCounter = c.state.wateringTimeCounter := by
  unfold sensorPhase; dsimp only; split <;> rfl

theorem sensorPhase_moisture (inp : TickInput) (c : Controller) :
    (sensorPhase inp c).sensorData.moisturePercent = sampleInEffect inp c := by
  unfold sensorPhase sampleInEffect; dsimp only; split <;> rfl

theorem CheckButtons_idle (inp : TickInput) (c : Controller) (h : inp.modeButton = false) :
    CheckButtons inp c = c := by
  simp [CheckButtons, h]


theorem RunAutoMode_state_of_on (c : Controller) (hpump : c.state.pumpState = .PUMP_ON) :
    (RunAutoMode c).state =
      if c.sensorData.moisturePercent.gt c.settings.maxMoistureThreshold = true ∨
          u32_incr c.state.wateringTimeCounter ≥ c.settings.maxWateringDuration_s then
        { c.state with
          pumpState := .PUMP_OFF
          ledState :=
            if c.sensorData.moisturePercent.lt c.settings.minMoistureThreshold then
              .LED_MOISTURE_ALERT
            else .LED_NORMAL
          wateringTimeCounter := u32_incr c.state.wateringTimeCounter }
      else { c.state with wateringTimeCounter := u32_incr c.state.wateringTimeCounter } := by
  by_cases h1 : c.sensorData.moisturePercent.gt c.settings.maxMoistureThreshold = true
  · simp [RunAutoMode, UpdateLed, SendStatus, Controller.call, hpump, h1]
  · by_cases h2 : u32_incr c.state.wateringTimeCounter ≥ c.settings.maxWateringDuration_s
    · simp [RunAutoMode, UpdateLed, SendStatus, Controller.call, hpump, h1, h2]
    · simp [RunAutoMode, UpdateLed, SendStatus, Controller.call, hpump, h1, h2]

theorem RunAutoMode_state_of_off (c : Controller) (hpump : c.state.pumpState = .PUMP_OFF) :
    (RunAutoMode c).state =
      if c.sensorData.moisturePercent.lt c.settings.minMoistureThreshold = true then
        if c.sensorData.moisturePercent.gt c.settings.maxMoistureThreshold = true ∨
            c.settings.maxWateringDuration_s ≤ 1 then
          { c.state with
            pumpState := .PUMP_OFF
            ledState := .LED_MOISTURE_ALERT
            wateringTimeCounter := 1 }
        else
          { c.state with
            pumpState := .PUMP_ON
            ledState := .LED_WATERING
            wateringTimeCounter := 1 }
      else { c.state with ledState := .LED_NORMAL } := by
  by_cases h0 : c.sensorData.moisturePercent.lt c.settings.minMoistureThreshold = true
  · by_cases h1 : c.sensorData.moisturePercent.gt c.settings.maxMoistureThreshold = true
    · simp [RunAutoMode, UpdateLed, SendStatus, Controller.call, hpump, h0, h1, u32_incr,
        UINT32_RANGE]
    · by_cases h2 : c.settings.maxWateringDuration_s ≤ 1
      · simp [RunAutoMode, UpdateLed, SendStatus, Controller.call, hpump, h0, h1, h2, u32_incr,
          UINT32_RANGE]
      · simp [RunAutoMode, UpdateLed, SendStatus, Controller.call, hpump, h0, h1, h2, u32_incr,
          UINT32_RANGE]
  · simp [RunAutoMode, UpdateLed, SendStatus, Controller.call, hpump, h0]

theorem RunManualMode_state_of_on (inp : TickInput) (c : Controller)
    (hpump : c.state.pumpState = .PUMP_ON) :
    (RunManualMode inp c).state =
      if u32_incr c.state.wateringTimeCounter ≥ c.settings.manualWateringDuration_s then
        { c.state with
          pumpState := .PUMP_OFF
          ledState := .LED_NORMAL
          wateringTimeCounter := u32_incr c.state.wateringTimeCounter }
      else { c.state with wateringTimeCounter := u32_incr c.state.wateringTimeCounter } := by
  by_cases h2 : u32_incr c.state.wateringTimeCounter ≥ c.settings.manualWateringDuration_s
  · simp [RunManualMode, UpdateLed, SendStatus, Controller.call, hpump, h2]
  · simp [RunManualMode, UpdateLed, SendStatus, Controller.call, hpump, h2]

theorem RunManualMode_state_of_off (inp : TickInput) (c : Controller)
    (hpump : c.state.pumpState = .PUMP_OFF) :
    (RunManualMode inp c).state =
      if inp.manualButton = true then
        if c.settings.manualWateringDuration_s ≤ 1 then
          { c.state with
            pumpState := .PUMP_OFF
            ledState := .LED_NORMAL
            wateringTimeCounter := 1 }
        else
          { c.state with
            pumpState := .PUMP_ON
            ledState := .LED_WATERING
            wateringTimeCounter := 1 }
      else c.state := by
  by_cases h0 : inp.manualButton = true
  · by_cases h2 : c.settings.manualWateringDuration_s ≤ 1
    · simp [RunManualMode, UpdateLed, SendStatus, Controller.call, hpump, h0, h2, u32_incr,
        UINT32_RANGE]
    · simp [RunManualMode, UpdateLed, SendStatus, Controller.call, hpump, h0, h2, u32_incr,
        UINT32_RANGE]
  · simp [RunManualMode, UpdateLed, SendStatus, Controller.call, hpump, h0]

theorem RunAutoMode_settings (c : Controller) : (RunAutoMode c).settings = c.settings := by
  simp only [RunAutoMode, UpdateLed, SendStatus, Controller.call]
  split_ifs <;> rfl

theorem RunManualMode_settings (inp : TickInput) (c : Controller) :
    (RunManualMode inp c).settings = c.settings := by
  simp only [RunManualMode, UpdateLed, SendStatus, Controller.call]
  split_ifs <;> rfl

theorem CheckButtons_settings (inp : TickInput) (c : Controller) :
    (CheckButtons inp c).settings = c.settings := by
  simp only [CheckButtons, UpdateLed, SendStatus, Controller.call]
  split_ifs <;> rfl

theorem tick_settings (inp : TickInput) (c : Controller) :
    (tick inp c).settings = c.settings := by
  rw [tick_eq]
  split <;>
    simp [RunAutoMode_settings, RunManualMode_settings, sensorPhase_settings,
      CheckButtons_settings]

theorem tick_of_auto (inp : TickInput) (c : Controller)
    (hmode : c.state.currentMode = .MODE_AUTO) (hbtn : inp.modeButton = false) :
    tick inp c = RunAutoMode (sensorPhase inp c) := by
  rw [tick_eq, CheckButtons_idle inp c hbtn, if_pos (by rw [sensorPhase_mode, hmode])]

theorem tick_of_manual (inp : TickInput) (c : Controller)
    (hmode : c.state.currentMode = .MODE_MANUAL) (hbtn : inp.modeButton = false) :
    tick inp c = RunManualMode inp (sensorPhase inp c) := by
  rw [tick_eq, CheckButtons_idle inp c hbtn, if_neg (by rw [sensorPhase_mode, hmode]; decide)]

theorem CheckButtons_state_of_auto (inp : TickInput) (c : Controller)
    (hmode : c.state.currentMode = .MODE_AUTO) (hbtn : inp.modeButton = true) :
    (CheckButtons inp c).state =
      { c.state with
        currentMode := .MODE_MANUAL
        pumpState := .PUMP_OFF
        ledState := if c.state.pumpState = .PUMP_ON then .LED_NORMAL else c.state.ledState } := by
  cases hp : c.state.pumpState <;>
    simp [CheckButtons, SendStatus, Controller.call, hmode, hbtn, hp]

theorem CheckButtons_state_of_manual (inp : TickInput) (c : Controller)
    (hmode : c.state.currentMode = .MODE_MANUAL) (hbtn : inp.modeButton = true) :
    (CheckButtons inp c).state = { c.state with currentMode := .MODE_AUTO } := by
  simp [CheckButtons, SendStatus, Controller.call, hmode, hbtn]

theorem CheckButtons_sensorData (inp : TickInput) (c : Controller) :
    (CheckButtons inp c).sensorData = c.sensorData := by
  simp only [CheckButtons, UpdateLed, SendStatus, Controller.call]
  split_ifs <;> rfl

theorem CheckButtons_sensorCheckCounter (inp : TickInput) (c : Controller) :
    (CheckButtons inp c).state.sensorCheckCounter = c.state.sensorCheckCounter := by
  simp only [CheckButtons, UpdateLed, SendStatus, Controller.call]
  split_ifs <;> rfl

theorem sampleInEffect_CheckButtons (inp : TickInput) (c : Controller) :
    sampleInEffect inp (CheckButtons inp c) = sampleInEffect inp c := by
  simp [sampleInEffect, CheckButtons_sensorData, CheckButtons_sensorCheckCounter,
    CheckButtons_settings]



theorem RunAutoMode_sensorData (c : Controller) : (RunAutoMode c).sensorData = c.sensorData := by
  simp only [RunAutoMode, UpdateLed, SendStatus, Controller.call]
  split_ifs <;> rfl

theorem RunManualMode_sensorData (inp : TickInput) (c : Controller) :
    (RunManualMode inp c).sensorData = c.sensorData := by
  simp only [RunManualMode, UpdateLed, SendStatus, Controller.call]
  split_ifs <;> rfl

theorem RunAutoMode_mode (c : Controller) :
    (RunAutoMode c).state.currentMode = c.state.currentMode := by
  simp only [RunAutoMode, UpdateLed, SendStatus, Controller.call]
  split_ifs <;> rfl

theorem RunManualMode_mode (inp : TickInput) (c : Controller) :
    (RunManualMode inp c).state.currentMode = c.state.currentMode := by
  simp only [RunManualMode, UpdateLed, SendStatus, Controller.call]
  split_ifs <;> rfl

theorem sensorPhase_state (inp : TickInput) (c : Controller) :
    (sensorPhase inp c).state =
      { c.state with
        sensorCheckCounter :=
          if u32_incr c.state.sensorCheckCounter ≥ c.settings.sensorReadInterval_s then 0
          else u32_incr c.state.sensorCheckCounter } := by
  unfold sensorPhase; dsimp only; split <;> rfl


theorem control_eq_iff (a b : Controller) :
    a.control = b.control ↔
      a.state = b.state ∧ a.settings = b.settings ∧
        a.sensorData.moisturePercent = b.sensorData.moisturePercent := by
  simp [Controller.control]

theorem RunAutoMode_control_congr (a b : Controller) (h : a.control = b.control) :
    (RunAutoMode a).control = (RunAutoMode b).control := by
  rw [control_eq_iff] at h ⊢
  obtain ⟨hs, hc, hm⟩ := h
  refine ⟨?_, by rw [RunAutoMode_settings, RunAutoMode_settings, hc],
    by rw [RunAutoMode_sensorData, RunAutoMode_sensorData, hm]⟩
  cases hp : a.state.pumpState
  · rw [RunAutoMode_state_of_off a hp, RunAutoMode_state_of_off b (hs ▸ hp), hs, hc, hm]
  · rw [RunAutoMode_state_of_on a hp, RunAutoMode_state_of_on b (hs ▸ hp), hs, hc, hm]

theorem RunManualMode_control_congr (i j : TickInput) (a b : Controller)
    (hi : i.manualButton = j.manualButton) (h : a.control = b.control) :
    (RunManualMode i a).control = (RunManualMode j b).control := by
  rw [control_eq_iff] at h ⊢
  obtain ⟨hs, hc, hm⟩ := h
  refine ⟨?_, by rw [RunManualMode_settings, RunManualMode_settings, hc],
    by rw [RunManualMode_sensorData, RunManualMode_sensorData, hm]⟩
  cases hp : a.state.pumpState
  · rw [RunManualMode_state_of_off i a hp, RunManualMode_state_of_off j b (hs ▸ hp), hs, hc, hi]
  · rw [RunManualMode_state_of_on i a hp, RunManualMode_state_of_on j b (hs ▸ hp), hs, hc]

theorem CheckButtons_state (inp : TickInput) (c : Controller) :
    (CheckButtons inp c).state =
      if inp.modeButton = true then
        if c.state.currentMode = .MODE_AUTO then
          { c.state with
            currentMode := .MODE_MANUAL
            pumpState := .PUMP_OFF
            ledState :=
              if c.state.pumpState = .PUMP_ON then .LED_NORMAL else c.state.ledState }
        else { c.state with currentMode := .MODE_AUTO }
      else c.state := by
  by_cases hb : inp.modeButton = true
  · cases hm : c.state.currentMode
    · rw [CheckButtons_state_of_auto inp c hm hb]; simp [hb]
    · rw [CheckButtons_state_of_manual inp c hm hb]; simp [hb]
  · simp only [Bool.not_eq_true] at hb
    rw [CheckButtons_idle inp c hb]; simp [hb]

theorem CheckButtons_control_congr (i j : TickInput) (a b : Controller)
    (hi : i.modeButton = j.modeButton) (h : a.control = b.control) :
    (CheckButtons i a).control = (CheckButtons j b).control := by
  rw [control_eq_iff] at h ⊢
  obtain ⟨hs, hc, hm⟩ := h
  rw [CheckButtons_state, CheckButtons_state, CheckButtons_settings, CheckButtons_settings,
    CheckButtons_sensorData, CheckButtons_sensorData, hs, hc, hm, hi]
  exact ⟨rfl, rfl, rfl⟩

theorem sensorPhase_control_congr (i j : TickInput) (a b : Controller)
    (hi : i.soilMoisture = j.soilMoisture) (h : a.control = b.control) :
    (sensorPhase i a).control = (sensorPhase j b).control := by
  rw [control_eq_iff] at h ⊢
  obtain ⟨hs, hc, hm⟩ := h
  rw [sensorPhase_state, sensorPhase_state, sensorPhase_settings, sensorPhase_settings,
    sensorPhase_moisture, sensorPhase_moisture, hs, hc]
  refine ⟨rfl, rfl, ?_⟩
  simp [sampleInEffect, hs, hc, hm, hi]

/-- The state, the settings and the held moisture sample after a tick are
determined by the same three before it and by the two buttons and the soil
moisture reading: the air temperature and the earlier calls play no part. -/
theorem tick_control_congr (i j : TickInput) (a b : Controller)
    (h1 : i.modeButton = j.modeButton) (h2 : i.manualButton = j.manualButton)
    (h3 : i.soilMoisture = j.soilMoisture) (h : a.control = b.control) :
    (tick i a).control = (tick j b).control := by
  have hp := sensorPhase_control_congr i j _ _ h3 (CheckButtons_control_congr i j a b h1 h)
  have hmode : (sensorPhase i (CheckButtons i a)).state.currentMode =
      (sensorPhase j (CheckButtons j b)).state.currentMode := by
    rw [control_eq_iff] at hp; rw [hp.1]
  rw [tick_eq, tick_eq, hmode]
  split
  · exact RunAutoMode_control_congr _ _ hp
  · exact RunManualMode_control_congr i j _ _ h2 hp

theorem runTicks_cons (c : Controller) (inp : TickInput) (rest : List TickInput) :
    runTicks c (inp :: rest) = runTicks (tick inp c) rest := rfl

theorem runTicks_settings (c : Controller) (inps : List TickInput) :
    (runTicks c inps).settings = c.settings := by
  induction inps generalizing c with
  | nil => rfl
  | cons inp rest ih => rw [runTicks_cons, ih, tick_settings]

/-- Running on steady inputs that differ in the air temperature only gives the same control part. -/
theorem runTicks_steady_control (m t u : CFloat) (n : Nat) (a b : Controller)
    (h : a.control = b.control) :
    (runTicks a (List.replicate n (steadyInput m t))).control =
      (runTicks b (List.replicate n (steadyInput m u))).control := by
  induction n generalizing a b with
  | zero => exact h
  | succ n ih =>
    rw [List.replicate_succ, List.replicate_succ, runTicks_cons, runTicks_cons]
    exact ih _ _ (tick_control_congr _ _ a b rfl rfl rfl h)

/-- The sensor step makes one call, the status line, and only when it reads. -/
theorem sensorPhase_calls (inp : TickInput) (c : Controller) :
    (sensorPhase inp c).calls =
      c.calls ++
        if u32_incr c.state.sensorCheckCounter ≥ c.settings.sensorReadInterval_s then
          [.SendStatus (.sensors inp.soilMoisture inp.airTemperature)]
        else [] := by
  unfold sensorPhase; dsimp only; split
  · rfl
  · simp

/-- The calls of `RunAutoMode` when it is entered with the pump on. -/
theorem RunAutoMode_calls_of_on (c : Controller) (hpump : c.state.pumpState = .PUMP_ON) :
    (RunAutoMode c).calls =
      c.calls ++
        if c.sensorData.moisturePercent.gt c.settings.maxMoistureThreshold = true then
          [.HAL_TurnPumpOff, .SendStatus .autoTargetReached,
            .HAL_SetLedState (RunAutoMode c).state.ledState]
        else if u32_incr c.state.wateringTimeCounter ≥ c.settings.maxWateringDuration_s then
          [.HAL_TurnPumpOff, .SendStatus .autoMaxTimeExceeded,
            .HAL_SetLedState (RunAutoMode c).state.ledState]
        else [.HAL_SetLedState (RunAutoMode c).state.ledState] := by
  by_cases h1 : c.sensorData.moisturePercent.gt c.settings.maxMoistureThreshold = true
  · simp [RunAutoMode, UpdateLed, SendStatus, Controller.call, hpump, h1]
  · by_cases h2 : u32_incr c.state.wateringTimeCounter ≥ c.settings.maxWateringDuration_s
    · simp [RunAutoMode, UpdateLed, SendStatus, Controller.call, hpump, h1, h2]
    · simp [RunAutoMode, UpdateLed, SendStatus, Controller.call, hpump, h1, h2]

/-- With the pump on, `RunManualMode` does the same whatever the manual button reports. -/
theorem RunManualMode_of_on (i j : TickInput) (c : Controller)
    (hpump : c.state.pumpState = .PUMP_ON) : RunManualMode i c = RunManualMode j c := by
  simp [RunManualMode, hpump]

/-- Only `CheckButtons` changes the mode during a tick. -/
theorem tick_mode (inp : TickInput) (c : Controller) :
    (tick inp c).state.currentMode = (CheckButtons inp c).state.currentMode := by
  rw [tick_eq]
  split
  · rw [RunAutoMode_mode, sensorPhase_mode]
  · rw [RunManualMode_mode, sensorPhase_mode]

/-- When the mode after the button step is Auto, that step left the pump and the watering counter alone. -/
theorem CheckButtons_pump_of_auto_after (inp : TickInput) (c : Controller)
    (h : (CheckButtons inp c).state.currentMode = .MODE_AUTO) :
    (CheckButtons inp c).state.pumpState = c.state.pumpState ∧
      (CheckButtons inp c).state.wateringTimeCounter = c.state.wateringTimeCounter := by
  rw [CheckButtons_state] at h ⊢
  by_cases hb : inp.modeButton = true
  · cases hm : c.state.currentMode
    · simp [hb, hm] at h
    · simp [hb, hm]
  · simp [hb]

/-- An Auto-mode tick that ends with the pump on leaves the watering counter
below the cap, and when the pump was on before, the counter went up by one. -/
theorem auto_tick_on_counter (inp : TickInput) (c : Controller)
    (hmode : (tick inp c).state.currentMode = .MODE_AUTO)
    (hpump : (tick inp c).state.pumpState = .PUMP_ON) :
    (tick inp c).state.wateringTimeCounter < c.settings.maxWateringDuration_s ∧
      (c.state.pumpState = .PUMP_ON →
        (tick inp c).state.wateringTimeCounter = u32_incr c.state.wateringTimeCounter) := by
  rw [tick_mode] at hmode
  obtain ⟨hp, hw⟩ := CheckButtons_pump_of_auto_after inp c hmode
  have hm1 : (sensorPhase inp (CheckButtons inp c)).state.currentMode = .MODE_AUTO := by
    rw [sensorPhase_mode, hmode]
  have ht : tick inp c = RunAutoMode (sensorPhase inp (CheckButtons inp c)) := by
    rw [tick_eq, if_pos hm1]
  rw [ht] at hpump ⊢
  cases hc : c.state.pumpState
  · have hp1 : (sensorPhase inp (CheckButtons inp c)).state.pumpState = .PUMP_OFF := by
      rw [sensorPhase_pump, hp, hc]
    rw [RunAutoMode_state_of_off _ hp1] at hpump ⊢
    simp only [sensorPhase_settings, CheckButtons_settings] at hpump ⊢
    split_ifs at hpump ⊢ <;> simp_all
  · have hp1 : (sensorPhase inp (CheckButtons inp c)).state.pumpState = .PUMP_ON := by
      rw [sensorPhase_pump, hp, hc]
    rw [RunAutoMode_state_of_on _ hp1] at hpump ⊢
    simp only [sensorPhase_settings, CheckButtons_settings, sensorPhase_watering, hw] at hpump ⊢
    split_ifs at hpump ⊢
    simp_all

/-- Below the top of the range `x++` does not wrap. -/
theorem u32_incr_of_lt (x : Nat) (h : x + 1 < UINT32_RANGE) : u32_incr x = x + 1 :=
  Nat.mod_eq_of_lt h

/-- Along a run of Auto-mode ticks that all end with the pump on, started with
the pump on and the counter below the cap, the counter climbs by one per tick. -/
theorem auto_run_counter (c : Controller) (inps : List TickInput)
    (hN : c.settings.maxWateringDuration_s < UINT32_RANGE)
    (hpump : c.state.pumpState = .PUMP_ON)
    (hcnt : c.state.wateringTimeCounter < c.settings.maxWateringDuration_s)
    (hrun : ∀ s ∈ trajectory c inps,
      s.state.currentMode = .MODE_AUTO ∧ s.state.pumpState = .PUMP_ON) :
    c.state.wateringTimeCounter + inps.length < c.settings.maxWateringDuration_s := by
  induction inps generalizing c with
  | nil => simpa using hcnt
  | cons inp rest ih =>
    have h1 := hrun (tick inp c) (by simp [trajectory])
    obtain ⟨hlt, heq⟩ := auto_tick_on_counter inp c h1.1 h1.2
    have hinc := heq hpump
    rw [u32_incr_of_lt _ (by omega)] at hinc
    have := ih (tick inp c) (by rw [tick_settings]; exact hN) h1.2
      (by rw [tick_settings]; exact hlt)
      (fun s hs => hrun s (by simp [trajectory, hs]))
    rw [tick_settings, hinc] at this
    simp only [List.length_cons]
    omega

/-- A run of Auto-mode ticks that all end with the pump on has at most
`maxWateringDuration_s` ticks. -/
theorem auto_run_length_le (c : Controller) (inps : List TickInput)
    (hN : c.settings.maxWateringDuration_s < UINT32_RANGE)
    (hrun : ∀ s ∈ trajectory c inps,
      s.state.currentMode = .MODE_AUTO ∧ s.state.pumpState = .PUMP_ON) :
    inps.length ≤ c.settings.maxWateringDuration_s := by
  cases inps with
  | nil => simp
  | cons inp rest =>
    have h1 := hrun (tick inp c) (by simp [trajectory])
    obtain ⟨hlt, -⟩ := auto_tick_on_counter inp c h1.1 h1.2
    have := auto_run_counter (tick inp c) rest (by rw [tick_settings]; exact hN) h1.2
      (by rw [tick_settings]; exact hlt)
      (fun s hs => hrun s (by simp [trajectory, hs]))
    rw [tick_settings] at this
    simp only [List.length_cons]
    omega

/-- Running two input lists one after the other. -/
theorem runTicks_append (c : Controller) (xs ys : List TickInput) :
    runTicks c (xs ++ ys) = runTicks (runTicks c xs) ys := by
  simp [runTicks, List.foldl_append]

/-- A Manual-mode tick without mode-button press, pump on, counter still short
of the duration: the pump stays on and the counter goes up by one. -/
theorem manual_tick_keeps_on (inp : TickInput) (c : Controller)
    (hmode : c.state.currentMode = .MODE_MANUAL) (hpump : c.state.pumpState = .PUMP_ON)
    (hbtn : inp.modeButton = false)
    (hlt : c.state.wateringTimeCounter + 1 < c.settings.manualWateringDuration_s)
    (hN : c.settings.manualWateringDuration_s < UINT32_RANGE) :
    (tick inp c).state.currentMode = .MODE_MANUAL ∧ (tick inp c).state.pumpState = .PUMP_ON ∧
      (tick inp c).state.wateringTimeCounter = c.state.wateringTimeCounter + 1 := by
  have hp1 : (sensorPhase inp c).state.pumpState = .PUMP_ON := by rw [sensorPhase_pump, hpump]
  have hi : u32_incr c.state.wateringTimeCounter = c.state.wateringTimeCounter + 1 :=
    u32_incr_of_lt _ (by omega)
  rw [tick_of_manual inp c hmode hbtn, RunManualMode_state_of_on _ _ hp1, sensorPhase_watering,
    sensorPhase_settings, hi, if_neg (by omega)]
  exact ⟨by rw [sensorPhase_mode, hmode], hp1, rfl⟩

/-- A Manual-mode tick without mode-button press, pump on, on which the
incremented counter reaches the duration: the pump is turned off, indicator Normal. -/
theorem manual_tick_stops (inp : TickInput) (c : Controller)
    (hmode : c.state.currentMode = .MODE_MANUAL) (hpump : c.state.pumpState = .PUMP_ON)
    (hbtn : inp.modeButton = false)
    (hge : u32_incr c.state.wateringTimeCounter ≥ c.settings.manualWateringDuration_s) :
    (tick inp c).state.pumpState = .PUMP_OFF ∧ (tick inp c).state.ledState = .LED_NORMAL := by
  have hp1 : (sensorPhase inp c).state.pumpState = .PUMP_ON := by rw [sensorPhase_pump, hpump]
  rw [tick_of_manual inp c hmode hbtn, RunManualMode_state_of_on _ _ hp1, sensorPhase_watering,
    sensorPhase_settings, if_pos hge]
  exact ⟨rfl, rfl⟩

/-- A manual cycle keeps running while the counter stays short of the duration. -/
theorem manual_run_keeps_on (c : Controller) (inps : List TickInput)
    (hmode : c.state.currentMode = .MODE_MANUAL) (hpump : c.state.pumpState = .PUMP_ON)
    (hbtn : ∀ i ∈ inps, i.modeButton = false)
    (hlt : c.state.wateringTimeCounter + inps.length < c.settings.manualWateringDuration_s)
    (hN : c.settings.manualWateringDuration_s < UINT32_RANGE) :
    (runTicks c inps).state.currentMode = .MODE_MANUAL ∧
      (runTicks c inps).state.pumpState = .PUMP_ON ∧
      (runTicks c inps).state.wateringTimeCounter = c.state.wateringTimeCounter + inps.length := by
  induction inps generalizing c with
  | nil => exact ⟨hmode, hpump, rfl⟩
  | cons inp rest ih =>
    simp only [List.length_cons] at hlt
    obtain ⟨h1, h2, h3⟩ := manual_tick_keeps_on inp c hmode hpump (hbtn inp (by simp))
      (by omega) hN
    have := ih (tick inp c) h1 h2 (fun i hi => hbtn i (by simp [hi]))
      (by rw [tick_settings, h3]; omega) (by rw [tick_settings]; exact hN)
    rw [runTicks_cons]
    refine ⟨this.1, this.2.1, ?_⟩
    rw [this.2.2, h3, List.length_cons]; omega

/-- What the code does for a manual cycle of duration `N ≥ 2`: when the manual
button starts the pump on tick `t` (input `first`), the pump is on at the end of
the ticks `t, …, t + N - 2` and is turned off on tick `t + N - 1`. -/
theorem manual_cycle_runs_one_tick_short (c : Controller) (first last : TickInput)
    (rest : List TickInput)
    (hmode : c.state.currentMode = .MODE_MANUAL) (hpump : c.state.pumpState = .PUMP_OFF)
    (hN : c.settings.manualWateringDuration_s < UINT32_RANGE)
    (hfirst : first.modeButton = false ∧ first.manualButton = true)
    (hrest : ∀ i ∈ rest, i.modeButton = false) (hlast : last.modeButton = false)
    (hlen : rest.length + 2 = c.settings.manualWateringDuration_s) :
    (∀ k ≤ rest.length, (runTicks c (first :: rest.take k)).state.pumpState = .PUMP_ON) ∧
      (runTicks c (first :: rest ++ [last])).state.pumpState = .PUMP_OFF ∧
      (runTicks c (first :: rest ++ [last])).state.ledState = .LED_NORMAL := by
  have hp1 : (sensorPhase first c).state.pumpState = .PUMP_OFF := by
    rw [sensorPhase_pump, hpump]
  have hst : (tick first c).state.currentMode = .MODE_MANUAL ∧
      (tick first c).state.pumpState = .PUMP_ON ∧
      (tick first c).state.wateringTimeCounter = 1 := by
    rw [tick_of_manual first c hmode hfirst.1, RunManualMode_state_of_off _ _ hp1,
      sensorPhase_settings, if_pos hfirst.2, if_neg (by omega)]
    exact ⟨by rw [← hmode, ← sensorPhase_mode first c], rfl, rfl⟩
  have hN1 : (tick first c).settings.manualWateringDuration_s < UINT32_RANGE := by
    rw [tick_settings]; exact hN
  refine ⟨fun k hk => ?_, ?_⟩
  · rw [runTicks_cons]
    refine (manual_run_keeps_on (tick first c) (rest.take k) hst.1 hst.2.1
      (fun i hi => hrest i (List.mem_of_mem_take hi)) ?_ hN1).2.1
    rw [tick_settings, hst.2.2, List.length_take]
    omega
  · have hrun := manual_run_keeps_on (tick first c) rest hst.1 hst.2.1 hrest
      (by rw [tick_settings, hst.2.2]; omega) hN1
    rw [List.cons_append, runTicks_cons, runTicks_append]
    refine manual_tick_stops last _ hrun.1 hrun.2.1 hlast ?_
    rw [hrun.2.2, hst.2.2, runTicks_settings, tick_settings, u32_incr_of_lt _ (by omega)]
    omega

/-- On a steady 20 % reading the runtime state does not depend on the air temperature. -/
theorem steady_dry_state (t : CFloat) (k : Nat) :
    (runTicks boot (List.replicate k (steadyInput (.fin 20) t))).state = (autoDry k).state := by
  have h := runTicks_steady_control (.fin 20) t (.fin 26) k boot boot rfl
  rw [control_eq_iff] at h
  exact h.1

/-- The calls of `CheckButtons`. -/
theorem CheckButtons_calls (inp : TickInput) (c : Controller) :
    (CheckButtons inp c).calls = c.calls ++ buttonCalls inp c := by
  by_cases hb : inp.modeButton = true
  · cases hm : c.state.currentMode <;> cases hp : c.state.pumpState <;>
      simp [CheckButtons, buttonCalls, SendStatus, Controller.call, hb, hm, hp]
  · simp [CheckButtons, buttonCalls, hb]

/-- The calls of the sensor step. -/
theorem sensorPhase_calls_eq (inp : TickInput) (c : Controller) :
    (sensorPhase inp c).calls = c.calls ++ sensorCalls inp c :=
  sensorPhase_calls inp c

/-- The calls of `RunAutoMode`, the closing indicator command last. -/
theorem RunAutoMode_calls (c : Controller) :
    (RunAutoMode c).calls =
      c.calls ++ autoCalls c ++ [.HAL_SetLedState (RunAutoMode c).state.ledState] := by
  cases hp : c.state.pumpState
  · by_cases h0 : c.sensorData.moisturePercent.lt c.settings.minMoistureThreshold = true
    · by_cases h1 : c.sensorData.moisturePercent.gt c.settings.maxMoistureThreshold = true
      · simp [RunAutoMode, autoCalls, UpdateLed, SendStatus, Controller.call, hp, h0, h1]
      · by_cases h2 : c.settings.maxWateringDuration_s ≤ 1
        · simp [RunAutoMode, autoCalls, UpdateLed, SendStatus, Controller.call, hp, h0, h1, h2,
            u32_incr, UINT32_RANGE]
        · simp [RunAutoMode, autoCalls, UpdateLed, SendStatus, Controller.call, hp, h0, h1, h2,
            u32_incr, UINT32_RANGE]
    · simp [RunAutoMode, autoCalls, UpdateLed, SendStatus, Controller.call, hp, h0]
  · by_cases h1 : c.sensorData.moisturePercent.gt c.settings.maxMoistureThreshold = true
    · simp [RunAutoMode, autoCalls, UpdateLed, SendStatus, Controller.call, hp, h1]
    · by_cases h2 : u32_incr c.state.wateringTimeCounter ≥ c.settings.maxWateringDuration_s
      · simp [RunAutoMode, autoCalls, UpdateLed, SendStatus, Controller.call, hp, h1, h2]
      · simp [RunAutoMode, autoCalls, UpdateLed, SendStatus, Controller.call, hp, h1, h2]

/-- The calls of `RunManualMode`, the closing indicator command last. -/
theorem RunManualMode_calls (inp : TickInput) (c : Controller) :
    (RunManualMode inp c).calls =
      c.calls ++ manualCalls inp c ++
        [.HAL_SetLedState (RunManualMode inp c).state.ledState] := by
  cases hp : c.state.pumpState
  · by_cases h0 : inp.manualButton = true
    · by_cases h2 : c.settings.manualWateringDuration_s ≤ 1
      · simp [RunManualMode, manualCalls, UpdateLed, SendStatus, Controller.call, hp, h0, h2,
          u32_incr, UINT32_RANGE]
      · simp [RunManualMode, manualCalls, UpdateLed, SendStatus, Controller.call, hp, h0, h2,
          u32_incr, UINT32_RANGE]
    · simp [RunManualMode, manualCalls, UpdateLed, SendStatus, Controller.call, hp, h0]
  · by_cases h2 : u32_incr c.state.wateringTimeCounter ≥ c.settings.manualWateringDuration_s
    · simp [RunManualMode, manualCalls, UpdateLed, SendStatus, Controller.call, hp, h2]
    · simp [RunManualMode, manualCalls, UpdateLed, SendStatus, Controller.call, hp, h2]

/-- The calls of a tick in program order: button step, sensor step, mode rule,
and last the indicator command with the indicator state the tick ends with. -/
theorem tick_calls (inp : TickInput) (c : Controller) :
    (tick inp c).calls =
      c.calls ++
        (buttonCalls inp c ++ sensorCalls inp (CheckButtons inp c) ++
          ruleCalls inp (sensorPhase inp (CheckButtons inp c)) ++
          [.HAL_SetLedState (tick inp c).state.ledState]) := by
  rw [tick_eq]
  unfold ruleCalls
  split
  · rw [RunAutoMode_calls, sensorPhase_calls_eq, CheckButtons_calls]
    simp [List.append_assoc]
  · rw [RunManualMode_calls, sensorPhase_calls_eq, CheckButtons_calls]
    simp [List.append_assoc]

/-- The calls of `CheckButtons` depend on the control part only. -/
theorem buttonCalls_congr (i : TickInput) (a b : Controller) (h : a.control = b.control) :
    buttonCalls i a = buttonCalls i b := by
  rw [control_eq_iff] at h
  simp [buttonCalls, h.1]

/-- Whether the sensor step reads depends on the control part only. -/
theorem sensorCalls_congr (i : TickInput) (a b : Controller) (h : a.control = b.control) :
    sensorCalls i a = sensorCalls i b := by
  rw [control_eq_iff] at h
  simp [sensorCalls, h.1, h.2.1]

/-- The calls of the mode rule depend on the control part only. -/
theorem ruleCalls_congr (i : TickInput) (a b : Controller) (h : a.control = b.control) :
    ruleCalls i a = ruleCalls i b := by
  rw [control_eq_iff] at h
  simp [ruleCalls, autoCalls, manualCalls, h.1, h.2.1, h.2.2]

/-- Forgetting the earlier calls does not touch the control part. -/
theorem control_clear_calls (c : Controller) : ({ c with calls := [] } : Controller).control = c.control :=
  rfl

/-- The calls of a tick do not depend on the calls made before it. -/
theorem callsOfTick_eq (inp : TickInput) (c : Controller) :
    callsOfTick inp c =
      buttonCalls inp c ++ sensorCalls inp (CheckButtons inp c) ++
        ruleCalls inp (sensorPhase inp (CheckButtons inp c)) ++
        [.HAL_SetLedState (tick inp c).state.ledState] := by
  have hc := control_clear_calls c
  have h1 := CheckButtons_control_congr inp inp _ _ rfl hc
  have h2 := sensorPhase_control_congr inp inp _ _ rfl h1
  have h3 := tick_control_congr inp inp _ _ rfl rfl rfl hc
  rw [control_eq_iff] at h3
  unfold callsOfTick
  rw [tick_calls, buttonCalls_congr inp _ _ hc, sensorCalls_congr inp _ _ h1,
    ruleCalls_congr inp _ _ h2, h3.1]
  simp

/-- A tick appends its calls to those made before. -/
theorem tick_calls_append (inp : TickInput) (c : Controller) :
    (tick inp c).calls = c.calls ++ callsOfTick inp c := by
  rw [tick_calls, callsOfTick_eq]

/-- `RunAutoMode` leaves the sensor counter alone. -/
theorem RunAutoMode_sensorCheckCounter (c : Controller) :
    (RunAutoMode c).state.sensorCheckCounter = c.state.sensorCheckCounter := by
  simp only [RunAutoMode, UpdateLed, SendStatus, Controller.call]
  split_ifs <;> rfl

/-- `RunManualMode` leaves the sensor counter alone. -/
theorem RunManualMode_sensorCheckCounter (inp : TickInput) (c : Controller) :
    (RunManualMode inp c).state.sensorCheckCounter = c.state.sensorCheckCounter := by
  simp only [RunManualMode, UpdateLed, SendStatus, Controller.call]
  split_ifs <;> rfl

/-- The held sample after the sensor step. -/
theorem sensorPhase_sensorData (inp : TickInput) (c : Controller) :
    (sensorPhase inp c).sensorData =
      if u32_incr c.state.sensorCheckCounter ≥ c.settings.sensorReadInterval_s then
        { moisturePercent := inp.soilMoisture, airTemperatureCelsius := inp.airTemperature }
      else c.sensorData := by
  unfold sensorPhase; dsimp only; split <;> rfl

/-- The sensor counter after a tick: reset when the interval is reached, one more otherwise. -/
theorem tick_sensorCheckCounter (inp : TickInput) (c : Controller) :
    (tick inp c).state.sensorCheckCounter =
      if u32_incr c.state.sensorCheckCounter ≥ c.settings.sensorReadInterval_s then 0
      else u32_incr c.state.sensorCheckCounter := by
  rw [tick_eq]
  split
  · rw [RunAutoMode_sensorCheckCounter, sensorPhase_state, CheckButtons_sensorCheckCounter,
      CheckButtons_settings]
  · rw [RunManualMode_sensorCheckCounter, sensorPhase_state, CheckButtons_sensorCheckCounter,
      CheckButtons_settings]

/-- The held sample after a tick: the readings of this tick when the interval
is reached, the sample held before otherwise. -/
theorem tick_sensorData (inp : TickInput) (c : Controller) :
    (tick inp c).sensorData =
      if u32_incr c.state.sensorCheckCounter ≥ c.settings.sensorReadInterval_s then
        { moisturePercent := inp.soilMoisture, airTemperatureCelsius := inp.airTemperature }
      else c.sensorData := by
  rw [tick_eq]
  split
  · rw [RunAutoMode_sensorData, sensorPhase_sensorData, CheckButtons_sensorCheckCounter,
      CheckButtons_settings, CheckButtons_sensorData]
  · rw [RunManualMode_sensorData, sensorPhase_sensorData, CheckButtons_sensorCheckCounter,
      CheckButtons_settings, CheckButtons_sensorData]

/-- The moisture held after a tick is the sample in effect during it. -/
theorem tick_moisture (inp : TickInput) (c : Controller) :
    (tick inp c).sensorData.moisturePercent = sampleInEffect inp c := by
  rw [tick_sensorData]; unfold sampleInEffect; split <;> rfl

/-- The indicator at the end of an Auto-mode tick that ends with the pump off. -/
theorem tick_auto_off_led (inp : TickInput) (c : Controller)
    (hmode : (tick inp c).state.currentMode = .MODE_AUTO)
    (hpump : (tick inp c).state.pumpState = .PUMP_OFF) :
    (tick inp c).state.ledState =
        (if (sampleInEffect inp c).lt c.settings.minMoistureThreshold = true then
          .LED_MOISTURE_ALERT
        else .LED_NORMAL) ∧
      (tick inp c).sensorData.moisturePercent = sampleInEffect inp c := by
  refine ⟨?_, tick_moisture inp c⟩
  rw [tick_mode] at hmode
  have hm1 : (sensorPhase inp (CheckButtons inp c)).state.currentMode = .MODE_AUTO := by
    rw [sensorPhase_mode, hmode]
  have ht : tick inp c = RunAutoMode (sensorPhase inp (CheckButtons inp c)) := by
    rw [tick_eq, if_pos hm1]
  rw [ht] at hpump ⊢
  cases hp : (sensorPhase inp (CheckButtons inp c)).state.pumpState
  · rw [RunAutoMode_state_of_off _ hp] at hpump ⊢
    simp only [sensorPhase_moisture, sensorPhase_settings, CheckButtons_settings,
      sampleInEffect_CheckButtons] at hpump ⊢
    split_ifs at hpump ⊢ <;> rfl
  · rw [RunAutoMode_state_of_on _ hp] at hpump ⊢
    simp only [sensorPhase_moisture, sensorPhase_settings, CheckButtons_settings,
      sampleInEffect_CheckButtons] at hpump ⊢
    split_ifs at hpump ⊢ <;> simp_all

/-- Starting with the sensor counter at `k < I`, after `n` ticks it is `(k + n) % I`. -/
theorem runTicks_sensorCheckCounter (c : Controller) (inps : List TickInput)
    (hI : c.settings.sensorReadInterval_s < UINT32_RANGE)
    (hk : c.state.sensorCheckCounter < c.settings.sensorReadInterval_s) :
    (runTicks c inps).state.sensorCheckCounter =
      (c.state.sensorCheckCounter + inps.length) % c.settings.sensorReadInterval_s := by
  induction inps generalizing c with
  | nil => simp [runTicks, Nat.mod_eq_of_lt hk]
  | cons inp rest ih =>
    have hinc : u32_incr c.state.sensorCheckCounter = c.state.sensorCheckCounter + 1 :=
      u32_incr_of_lt _ (by omega)
    have hstep := tick_sensorCheckCounter inp c
    rw [hinc] at hstep
    rw [runTicks_cons, ih (tick inp c) (by rw [tick_settings]; exact hI)
      (by rw [tick_settings, hstep]; split <;> omega), tick_settings, hstep, List.length_cons]
    split
    · rename_i h
      have heq : c.state.sensorCheckCounter + 1 = c.settings.sensorReadInterval_s := by omega
      rw [Nat.zero_add, show c.state.sensorCheckCounter + (rest.length + 1) =
        rest.length + c.settings.sensorReadInterval_s by omega, Nat.add_mod_right]
    · congr 1; omega

/-- Running `m + n` equal ticks is running `m`, then `n`. -/
theorem runTicks_replicate_add (c : Controller) (inp : TickInput) (m n : Nat) :
    runTicks c (List.replicate (m + n) inp) =
      runTicks (runTicks c (List.replicate m inp)) (List.replicate n inp) := by
  rw [List.replicate_add, runTicks_append]

/-- On a steady 75 % reading the control part does not depend on the air temperature. -/
theorem wetInput_state (t : CFloat) (k : Nat) :
    (runTicks boot (List.replicate k (wetInput t))).control =
      (runTicks boot (List.replicate k (wetInput (.fin 26)))).control :=
  runTicks_steady_control (.fin 75) t (.fin 26) k boot boot rfl

/-- Auto mode, pump off, a held sample of 75 % and the default settings: a tick
that reads 75 % (or reads nothing) and sees no button leaves all of that as it is,
with the indicator Normal. -/
theorem wet_tick_stable (t : CFloat) (c : Controller)
    (hset : c.settings = boot.settings)
    (hmode : c.state.currentMode = .MODE_AUTO)
    (hpump : c.state.pumpState = .PUMP_OFF)
    (hheld : c.sensorData.moisturePercent = .fin 75) :
    (tick (wetInput t) c).settings = boot.settings ∧
      (tick (wetInput t) c).state.currentMode = .MODE_AUTO ∧
      (tick (wetInput t) c).state.pumpState = .PUMP_OFF ∧
      (tick (wetInput t) c).sensorData.moisturePercent = .fin 75 ∧
      (tick (wetInput t) c).state.ledState = .LED_NORMAL := by
  have hsample : sampleInEffect (wetInput t) c = .fin 75 := by
    unfold sampleInEffect; split
    · rfl
    · exact hheld
  have hlt : (CFloat.fin 75).lt boot.settings.minMoistureThreshold = false := by decide
  have hp1 : (sensorPhase (wetInput t) c).state.pumpState = .PUMP_OFF := by
    rw [sensorPhase_pump, hpump]
  refine ⟨by rw [tick_settings, hset], ?_, ?_, by rw [tick_moisture, hsample], ?_⟩
  all_goals
    rw [tick_of_auto (wetInput t) c hmode rfl, RunAutoMode_state_of_off _ hp1,
      sensorPhase_moisture, sensorPhase_settings, hsample, hset, hlt]
    simp [sensorPhase_mode, hmode, hp1]

/-- Once the pump is off on a held sample of 75 %, it stays off on a steady 75 % reading. -/
theorem wet_run_stable (t : CFloat) (n : Nat) (c : Controller)
    (hset : c.settings = boot.settings)
    (hmode : c.state.currentMode = .MODE_AUTO)
    (hpump : c.state.pumpState = .PUMP_OFF)
    (hled : c.state.ledState = .LED_NORMAL)
    (hheld : c.sensorData.moisturePercent = .fin 75) :
    (runTicks c (List.replicate n (wetInput t))).state.pumpState = .PUMP_OFF ∧
      (runTicks c (List.replicate n (wetInput t))).state.ledState = .LED_NORMAL := by
  induction n generalizing c with
  | zero => exact ⟨hpump, hled⟩
  | succ n ih =>
    obtain ⟨h1, h2, h3, h4, h5⟩ := wet_tick_stable t c hset hmode hpump hheld
    rw [List.replicate_succ, runTicks_cons]
    exact ih _ h1 h2 h3 h5 h4

/-- While the pump is on the indicator shows Watering: a tick keeps that true. -/
theorem tick_on_shows_watering (inp : TickInput) (c : Controller)
    (h : c.state.pumpState = .PUMP_ON → c.state.ledState = .LED_WATERING) :
    (tick inp c).state.pumpState = .PUMP_ON → (tick inp c).state.ledState = .LED_WATERING := by
  have h1 : (sensorPhase inp (CheckButtons inp c)).state.pumpState = .PUMP_ON →
      (sensorPhase inp (CheckButtons inp c)).state.ledState = .LED_WATERING := by
    rw [sensorPhase_pump, sensorPhase_led, CheckButtons_state]
    split_ifs <;> simp_all
  rw [tick_eq]
  split
  · cases hp : (sensorPhase inp (CheckButtons inp c)).state.pumpState
    · rw [RunAutoMode_state_of_off _ hp]
      split_ifs <;> simp [hp]
    · rw [RunAutoMode_state_of_on _ hp]
      split_ifs <;> simp [hp, h1 hp]
  · cases hp : (sensorPhase inp (CheckButtons inp c)).state.pumpState
    · rw [RunManualMode_state_of_off _ _ hp]
      split_ifs <;> simp [hp]
    · rw [RunManualMode_state_of_on _ _ hp]
      split_ifs <;> simp [hp, h1 hp]

/-- Along a run, while the pump is on the indicator shows Watering. -/
theorem runTicks_on_shows_watering (c : Controller) (inps : List TickInput)
    (h : c.state.pumpState = .PUMP_ON → c.state.ledState = .LED_WATERING) :
    (runTicks c inps).state.pumpState = .PUMP_ON →
      (runTicks c inps).state.ledState = .LED_WATERING := by
  induction inps generalizing c with
  | nil => exact h
  | cons inp rest ih => rw [runTicks_cons]; exact ih _ (tick_on_shows_watering inp c h)

/-- At the end of an Auto-mode tick of a run from start-up the indicator is
Watering when the pump is on, and otherwise follows the held sample. -/
theorem auto_tick_indicator (xs : List TickInput) (x : TickInput)
    (hmode : (tick x (runTicks boot xs)).state.currentMode = .MODE_AUTO) :
    (tick x (runTicks boot xs)).state.ledState =
      if (tick x (runTicks boot xs)).state.pumpState = .PUMP_ON then .LED_WATERING
      else if (tick x (runTicks boot xs)).sensorData.moisturePercent.lt
          boot.settings.minMoistureThreshold = true then
        .LED_MOISTURE_ALERT
      else .LED_NORMAL := by
  cases hp : (tick x (runTicks boot xs)).state.pumpState
  · rw [if_neg (by decide), (tick_auto_off_led x _ hmode hp).1, tick_moisture,
      runTicks_settings]
  · rw [if_pos rfl]
    exact tick_on_shows_watering x _
      (runTicks_on_shows_watering boot xs (fun h => absurd h (by decide))) hp

/-- At the end of a tick of a run from start-up that is in Auto mode or has the
pump on, the indicator is Watering when the pump is on, and otherwise follows
the held sample. -/
theorem tick_indicator_of_auto_or_on (xs : List TickInput) (x : TickInput)
    (h : (tick x (runTicks boot xs)).state.currentMode = .MODE_AUTO ∨
      (tick x (runTicks boot xs)).state.pumpState = .PUMP_ON) :
    (tick x (runTicks boot xs)).state.ledState =
      if (tick x (runTicks boot xs)).state.pumpState = .PUMP_ON then .LED_WATERING
      else if (tick x (runTicks boot xs)).sensorData.moisturePercent.lt
          boot.settings.minMoistureThreshold = true then
        .LED_MOISTURE_ALERT
      else .LED_NORMAL := by
  rcases h with hmode | hon
  · exact auto_tick_indicator xs x hmode
  · rw [if_pos hon]
    exact tick_on_shows_watering x _
      (runTicks_on_shows_watering boot xs (fun h => absurd h (by decide))) hon

/-- What the code does on a manual press with a duration above one second. -/
theorem manual_press_starts_pump (inp : TickInput) (c : Controller)
    (hmode : c.state.currentMode = .MODE_MANUAL) (hpump : c.state.pumpState = .PUMP_OFF)
    (hbtn : inp.modeButton = false) (hman : inp.manualButton = true)
    (hdur : 1 < c.settings.manualWateringDuration_s) :
    (tick inp c).state.pumpState = .PUMP_ON ∧ (tick inp c).state.ledState = .LED_WATERING ∧
      (tick inp c).state.wateringTimeCounter = 1 := by
  have hp1 : (sensorPhase inp c).state.pumpState = .PUMP_OFF := by rw [sensorPhase_pump, hpump]
  rw [tick_of_manual inp c hmode hbtn, RunManualMode_state_of_off _ _ hp1, if_pos hman,
    sensorPhase_settings, if_neg (by omega)]
  exact ⟨rfl, rfl, rfl⟩

/-- Replaying two lists of calls one after the other. -/
theorem pumpAfterCalls_append (p : PumpState_t) (xs ys : List HalCall) :
    pumpAfterCalls p (xs ++ ys) = pumpAfterCalls (pumpAfterCalls p xs) ys := by
  simp [pumpAfterCalls, List.foldl_append]

/-- Checking two lists of calls one after the other. -/
theorem pumpCommandsAllFlip_append (p : PumpState_t) (xs ys : List HalCall) :
    pumpCommandsAllFlip p (xs ++ ys) =
      (pumpCommandsAllFlip p xs && pumpCommandsAllFlip (pumpAfterCalls p xs) ys) := by
  induction xs generalizing p with
  | nil => simp [pumpCommandsAllFlip, pumpAfterCalls]
  | cons e rest ih =>
    cases e <;>
      simp [pumpCommandsAllFlip, pumpAfterCalls, pumpAfterCall, ih, Bool.and_assoc]

/-- A list of calls without pump command leaves the pump as it is. -/
theorem pumpAfterCalls_of_no_command (p : PumpState_t) (xs : List HalCall)
    (hon : HalCall.HAL_TurnPumpOn ∉ xs) (hoff : HalCall.HAL_TurnPumpOff ∉ xs) :
    pumpAfterCalls p xs = p := by
  induction xs generalizing p with
  | nil => rfl
  | cons e rest ih =>
    simp only [List.mem_cons, not_or] at hon hoff
    have := ih p hon.2 hoff.2
    cases e <;> simp_all [pumpAfterCalls, pumpAfterCall]

/-- The pump commands of `CheckButtons` agree with what it stores. -/
theorem buttonCalls_pump (inp : TickInput) (c : Controller) :
    pumpAfterCalls c.state.pumpState (buttonCalls inp c) = (CheckButtons inp c).state.pumpState ∧
      pumpCommandsAllFlip c.state.pumpState (buttonCalls inp c) = true := by
  rw [CheckButtons_state]
  cases hb : inp.modeButton <;> cases hm : c.state.currentMode <;>
    cases hp : c.state.pumpState <;>
    simp [buttonCalls, pumpAfterCalls, pumpAfterCall, pumpCommandsAllFlip, hb, hm, hp]

/-- The sensor step issues no pump command. -/
theorem sensorCalls_pump (inp : TickInput) (c : Controller) (p : PumpState_t) :
    pumpAfterCalls p (sensorCalls inp c) = p ∧
      pumpCommandsAllFlip p (sensorCalls inp c) = true := by
  unfold sensorCalls
  split <;> simp [pumpAfterCalls, pumpAfterCall, pumpCommandsAllFlip]

/-- The pump commands of `RunAutoMode` agree with what it stores. -/
theorem autoCalls_pump (c : Controller) :
    pumpAfterCalls c.state.pumpState (autoCalls c) = (RunAutoMode c).state.pumpState ∧
      pumpCommandsAllFlip c.state.pumpState (autoCalls c) = true := by
  cases hp : c.state.pumpState
  · rw [RunAutoMode_state_of_off c hp]
    unfold autoCalls
    split_ifs
    all_goals simp_all [pumpAfterCalls, pumpAfterCall, pumpCommandsAllFlip]
    all_goals omega
  · rw [RunAutoMode_state_of_on c hp]
    unfold autoCalls
    split_ifs
    all_goals simp_all [pumpAfterCalls, pumpAfterCall, pumpCommandsAllFlip]
    all_goals omega

/-- The pump commands of `RunManualMode` agree with what it stores. -/
theorem manualCalls_pump (inp : TickInput) (c : Controller) :
    pumpAfterCalls c.state.pumpState (manualCalls inp c) =
        (RunManualMode inp c).state.pumpState ∧
      pumpCommandsAllFlip c.state.pumpState (manualCalls inp c) = true := by
  cases hp : c.state.pumpState
  · rw [RunManualMode_state_of_off inp c hp]
    unfold manualCalls
    split_ifs <;>
      simp_all [pumpAfterCalls, pumpAfterCall, pumpCommandsAllFlip]
  · rw [RunManualMode_state_of_on inp c hp]
    unfold manualCalls
    split_ifs <;>
      simp_all [pumpAfterCalls, pumpAfterCall, pumpCommandsAllFlip]

/-- Replaying the pump commands of a tick from the stored pump state gives the
stored pump state at the end of the tick, and each of them changes the state. -/
theorem callsOfTick_pump (inp : TickInput) (c : Controller) :
    pumpAfterCalls c.state.pumpState (callsOfTick inp c) = (tick inp c).state.pumpState ∧
      pumpCommandsAllFlip c.state.pumpState (callsOfTick inp c) = true := by
  obtain ⟨hb1, hb2⟩ := buttonCalls_pump inp c
  obtain ⟨hs1, hs2⟩ := sensorCalls_pump inp (CheckButtons inp c)
    (CheckButtons inp c).state.pumpState
  have hr : pumpAfterCalls (CheckButtons inp c).state.pumpState
        (ruleCalls inp (sensorPhase inp (CheckButtons inp c))) = (tick inp c).state.pumpState ∧
      pumpCommandsAllFlip (CheckButtons inp c).state.pumpState
        (ruleCalls inp (sensorPhase inp (CheckButtons inp c))) = true := by
    rw [← sensorPhase_pump inp (CheckButtons inp c), tick_eq]
    unfold ruleCalls
    split
    · exact autoCalls_pump _
    · exact manualCalls_pump inp _
  rw [callsOfTick_eq]
  simp only [pumpAfterCalls_append, pumpCommandsAllFlip_append, hb1, hb2, hs1, hs2, hr.1, hr.2]
  simp [pumpAfterCalls, pumpAfterCall, pumpCommandsAllFlip]

/-- A tick keeps the stored pump state equal to the last pump command. -/
theorem lastPumpCommand_tick (inp : TickInput) (c : Controller)
    (h : lastPumpCommand c.calls = c.state.pumpState) :
    lastPumpCommand (tick inp c).calls = (tick inp c).state.pumpState := by
  unfold lastPumpCommand at h ⊢
  rw [tick_calls_append, pumpAfterCalls_append, h, (callsOfTick_pump inp c).1]

/-- A run keeps the stored pump state equal to the last pump command. -/
theorem lastPumpCommand_runTicks (c : Controller) (inps : List TickInput)
    (h : lastPumpCommand c.calls = c.state.pumpState) :
    lastPumpCommand (runTicks c inps).calls = (runTicks c inps).state.pumpState := by
  induction inps generalizing c with
  | nil => exact h
  | cons inp rest ih => rw [runTicks_cons]; exact ih _ (lastPumpCommand_tick inp c h)

/-! ### The elapsed-time test of `SPWS_Run` -/

/-- The subtraction of two `uint32_t` is the difference of the values modulo `2 ^ 32`. -/
theorem u32_sub_eq_emod (a b : Nat) :
    ((u32_sub a b : Nat) : Int) = ((a : Int) - (b : Int)) % 4294967296 := by
  simp only [u32_sub, UINT32_RANGE]
  omega

/-- Across a wrap of the clock the subtraction still gives the elapsed time. -/
theorem u32_sub_elapsed (last elapsed : Nat) (hl : last < UINT32_RANGE)
    (he : elapsed < UINT32_RANGE) :
    u32_sub ((last + elapsed) % UINT32_RANGE) last = elapsed := by
  simp only [u32_sub, UINT32_RANGE] at *
  omega

theorem u32_sub_self (a : Nat) : u32_sub a a = 0 := by
  simp only [u32_sub, UINT32_RANGE]
  omega

theorem CheckButtons_lastTickMs (inp : TickInput) (c : Controller) :
    (CheckButtons inp c).lastTickMs = c.lastTickMs := by
  simp only [CheckButtons, UpdateLed, SendStatus, Controller.call]
  split_ifs <;> rfl

theorem sensorPhase_lastTickMs (inp : TickInput) (c : Controller) :
    (sensorPhase inp c).lastTickMs = c.lastTickMs := by
  unfold sensorPhase; dsimp only; split <;> rfl

theorem RunAutoMode_lastTickMs (c : Controller) : (RunAutoMode c).lastTickMs = c.lastTickMs := by
  simp only [RunAutoMode, UpdateLed, SendStatus, Controller.call]
  split_ifs <;> rfl

theorem RunManualMode_lastTickMs (inp : TickInput) (c : Controller) :
    (RunManualMode inp c).lastTickMs = c.lastTickMs := by
  simp only [RunManualMode, UpdateLed, SendStatus, Controller.call]
  split_ifs <;> rfl

/-- The tick body leaves `lastTickMs` alone. -/
theorem tick_lastTickMs (inp : TickInput) (c : Controller) :
    (tick inp c).lastTickMs = c.lastTickMs := by
  rw [tick_eq]
  split
  · rw [RunAutoMode_lastTickMs, sensorPhase_lastTickMs, CheckButtons_lastTickMs]
  · rw [RunManualMode_lastTickMs, sensorPhase_lastTickMs, CheckButtons_lastTickMs]

/-- The calls of a tick do not depend on `lastTickMs`. -/
theorem callsOfTick_lastTickMs (inp : TickInput) (c : Controller) (t : Nat) :
    callsOfTick inp { c with lastTickMs := t } = callsOfTick inp c := by
  have hc : ({ c with lastTickMs := t } : Controller).control = c.control := rfl
  have h1 := CheckButtons_control_congr inp inp _ _ rfl hc
  have h2 := sensorPhase_control_congr inp inp _ _ rfl h1
  have h3 := tick_control_congr inp inp _ _ rfl rfl rfl hc
  rw [control_eq_iff] at h3
  rw [callsOfTick_eq, callsOfTick_eq, buttonCalls_congr inp _ _ hc, sensorCalls_congr inp _ _ h1,
    ruleCalls_congr inp _ _ h2, h3.1]

/-- A tick makes at least one call. -/
theorem callsOfTick_ne_nil (inp : TickInput) (c : Controller) : callsOfTick inp c ≠ [] := by
  rw [callsOfTick_eq]
  simp

theorem SPWS_Run_of_elapsed (now : Nat) (inp : TickInput) (c : Controller)
    (h : 1000 ≤ u32_sub now c.lastTickMs) :
    SPWS_Run now inp c = tick inp { c with lastTickMs := now % UINT32_RANGE } := by
  simp [SPWS_Run, h]

theorem SPWS_Run_of_not_elapsed (now : Nat) (inp : TickInput) (c : Controller)
    (h : u32_sub now c.lastTickMs < 1000) : SPWS_Run now inp c = c := by
  simp [SPWS_Run, Nat.not_le.mpr h]

/-! ### The manual button -/

/-- After a poll the static tells whether the character just read was `'t'` / `'T'`. -/
theorem HAL_IsManualButtonPressed_lastState (c : Int) (lastState : Nat) (h : lastState ≤ 1) :
    (HAL_IsManualButtonPressed c lastState).2 = if isManualKey c then 1 else 0 := by
  unfold HAL_IsManualButtonPressed isManualKey EOF
  by_cases hk : c = 116 ∨ c = 84
  · by_cases hl : lastState = 0
    · simp [hk, hl]
    · have h1 : lastState = 1 := by omega
      rcases hk with hk | hk <;> simp [hk, h1]
  · have hk2 := hk
    rw [not_or] at hk2
    simp [hk, hk2.1, hk2.2]

/-- A poll returns 1 when the character is `'t'` / `'T'` and the static is clear, else 0. -/
theorem HAL_IsManualButtonPressed_result (c : Int) (lastState : Nat) :
    (HAL_IsManualButtonPressed c lastState).1 =
      if isManualKey c ∧ lastState = 0 then 1 else 0 := by
  unfold HAL_IsManualButtonPressed isManualKey
  split_ifs <;> rfl

/-- The value returned by poll `i`, the static being `lastState` before poll 0. -/
theorem pollManualButton_getElem? (chars : List Int) (lastState : Nat) (h : lastState ≤ 1)
    (i : Nat) (c : Int) (hc : chars[i]? = some c) :
    (pollManualButton chars lastState)[i]? =
      some (if isManualKey c ∧
          (if i = 0 then lastState = 0 else ∃ p, chars[i - 1]? = some p ∧ ¬ isManualKey p)
        then 1 else 0) := by
  induction chars generalizing lastState i with
  | nil => simp at hc
  | cons c0 rest ih =>
    have hls : (HAL_IsManualButtonPressed c0 lastState).2 ≤ 1 := by
      rw [HAL_IsManualButtonPressed_lastState c0 lastState h]
      split <;> omega
    cases i with
    | zero =>
      simp only [List.getElem?_cons_zero, Option.some.injEq] at hc
      subst hc
      simp [pollManualButton, HAL_IsManualButtonPressed_result]
    | succ j =>
      simp only [List.getElem?_cons_succ] at hc
      simp only [pollManualButton, List.getElem?_cons_succ]
      rw [ih _ hls j hc, HAL_IsManualButtonPressed_lastState c0 lastState h]
      cases j with
      | zero =>
        by_cases hk : isManualKey c0 <;> simp [hk]
      | succ k => simp

/-! ## Theorems -/

/-- C1: after `SPWS_Init`, whatever the module variables held before, the state
is mode Auto, pump Off, indicator Normal, both counters 0, and the settings are
the defaults 30 / 70 / 30 s / 10 s / 5 s. -/
theorem SPWS_Init_state_and_settings (c : Controller) :
    (SPWS_Init c).state =
        { currentMode := .MODE_AUTO
          pumpState := .PUMP_OFF
          ledState := .LED_NORMAL
          wateringTimeCounter := 0
          sensorCheckCounter := 0 } ∧
      (SPWS_Init c).settings =
        { minMoistureThreshold := .fin 30
          maxMoistureThreshold := .fin 70
          maxWateringDuration_s := 30
          manualWateringDuration_s := 10
          sensorReadInterval_s := 5 } := by
  constructor <;> rfl

/-- C2, counterexample: two dry ticks in Auto mode with the pump off and the mode
button not pressed that end with the pump Off and the indicator MoistureAlert.
With a cap of 1 s the pump is started and stopped again by the time test of the
same tick; with thresholds min 70 / max 30 and a 50 % sample it is stopped by
the target test of the same tick. -/
theorem auto_dry_tick_may_end_pump_off :
    (shortCap.state.currentMode = .MODE_AUTO ∧ shortCap.state.pumpState = .PUMP_OFF ∧
        idle.modeButton = false ∧
        (sampleInEffect idle shortCap).lt shortCap.settings.minMoistureThreshold = true ∧
        (tick idle shortCap).state.pumpState = .PUMP_OFF ∧
        (tick idle shortCap).state.ledState = .LED_MOISTURE_ALERT) ∧
      (swappedThresholds.state.currentMode = .MODE_AUTO ∧
        swappedThresholds.state.pumpState = .PUMP_OFF ∧
        idle.modeButton = false ∧
        (sampleInEffect idle swappedThresholds).lt
            swappedThresholds.settings.minMoistureThreshold = true ∧
        (tick idle swappedThresholds).state.pumpState = .PUMP_OFF ∧
        (tick idle swappedThresholds).state.ledState = .LED_MOISTURE_ALERT) := by
  decide

/-- C2 (amended): in Auto mode with the pump off, a tick without mode-button press
whose moisture sample in effect is below `minMoistureThreshold` and not above
`maxMoistureThreshold`, with `maxWateringDuration_s > 1`, ends with the pump On
and the indicator Watering. -/
theorem auto_dry_tick_starts_pump (inp : TickInput) (c : Controller)
    (hmode : c.state.currentMode = .MODE_AUTO)
    (hpump : c.state.pumpState = .PUMP_OFF)
    (hbtn : inp.modeButton = false)
    (hdry : (sampleInEffect inp c).lt c.settings.minMoistureThreshold = true)
    (hmax : (sampleInEffect inp c).gt c.settings.maxMoistureThreshold = false)
    (hdur : 1 < c.settings.maxWateringDuration_s) :
    (tick inp c).state.pumpState = .PUMP_ON ∧ (tick inp c).state.ledState = .LED_WATERING := by
  rw [tick_of_auto inp c hmode hbtn,
    RunAutoMode_state_of_off _ (by rw [sensorPhase_pump, hpump])]
  simp [sensorPhase_moisture, sensorPhase_settings, hdry, hmax, Nat.not_le.mpr hdur]

/-- C2, witness: the first tick after start-up, default settings, held sample 0.0. -/
theorem auto_dry_tick_starts_pump_witness :
    (tick idle boot).state.pumpState = .PUMP_ON ∧
      (tick idle boot).state.ledState = .LED_WATERING :=
  auto_dry_tick_starts_pump idle boot (by decide) (by decide) (by decide) (by decide)
    (by decide) (by decide)

set_option maxRecDepth 100000 in
/-- C3: a run of consecutive ticks spent in Auto mode (the states at the end of
the ticks, `trajectory`) that all end with the pump on has at most
`maxWateringDuration_s` ticks, whatever the inputs and the starting state (the
cap is a `uint32_t`). With the default settings and the sensor fixed at 20 %,
for every air temperature, the pump is On with indicator Watering after tick 1
and some tick `k ≤ 31` ends with the pump Off and indicator MoistureAlert (it
is tick 30). -/
theorem auto_watering_time_bounded (c : Controller) (inps : List TickInput)
    (hN : c.settings.maxWateringDuration_s < UINT32_RANGE)
    (hrun : ∀ s ∈ trajectory c inps,
      s.state.currentMode = .MODE_AUTO ∧ s.state.pumpState = .PUMP_ON) :
    inps.length ≤ c.settings.maxWateringDuration_s ∧
      ∀ t : CFloat,
        (runTicks boot (List.replicate 1 (steadyInput (.fin 20) t))).state.pumpState = .PUMP_ON ∧
          (runTicks boot (List.replicate 1 (steadyInput (.fin 20) t))).state.ledState
            = .LED_WATERING ∧
          ∃ k, k ≤ 31 ∧
            (runTicks boot (List.replicate k (steadyInput (.fin 20) t))).state.pumpState
              = .PUMP_OFF ∧
            (runTicks boot (List.replicate k (steadyInput (.fin 20) t))).state.ledState
              = .LED_MOISTURE_ALERT := by
  refine ⟨auto_run_length_le c inps hN hrun, fun t => ?_⟩
  rw [steady_dry_state]
  refine ⟨by decide, by decide, 30, by decide, ?_⟩
  rw [steady_dry_state]
  decide

set_option maxRecDepth 100000 in
/-- C3, witness: from start-up on dry soil the first 29 ticks all end in Auto mode
with the pump on, and 29 is within the default cap of 30. -/
theorem auto_watering_time_bounded_witness :
    (∀ s ∈ trajectory boot (List.replicate 29 idle),
        s.state.currentMode = .MODE_AUTO ∧ s.state.pumpState = .PUMP_ON) ∧
      (List.replicate 29 idle).length ≤ boot.settings.maxWateringDuration_s :=
  ⟨by decide, (auto_watering_time_bounded boot (List.replicate 29 idle) (by decide)
    (by decide)).1⟩

/-- C4, counterexample: Auto mode, pump on, both buttons reported pressed in one
tick: the tick ends in Manual mode with the pump On and the indicator Watering. -/
theorem mode_and_manual_press_leaves_pump_on :
    (autoDry 1).state.currentMode = .MODE_AUTO ∧ (autoDry 1).state.pumpState = .PUMP_ON ∧
      bothPress.modeButton = true ∧
      (tick bothPress (autoDry 1)).state.currentMode = .MODE_MANUAL ∧
      (tick bothPress (autoDry 1)).state.pumpState = .PUMP_ON ∧
      (tick bothPress (autoDry 1)).state.ledState = .LED_WATERING := by
  decide

/-- C4 (amended): from Auto mode with the pump on, a tick in which the mode button
is pressed ends in Manual mode; the button step forces the pump Off and the
indicator Normal, and the tick ends with pump Off and indicator Normal, except
when the manual button is pressed in the same tick and
`manualWateringDuration_s > 1`: then the manual rule starts the pump again and
the tick ends with pump On and indicator Watering. -/
theorem mode_press_while_auto_watering (inp : TickInput) (c : Controller)
    (hmode : c.state.currentMode = .MODE_AUTO)
    (hpump : c.state.pumpState = .PUMP_ON)
    (hbtn : inp.modeButton = true) :
    (CheckButtons inp c).state.pumpState = .PUMP_OFF ∧
      (CheckButtons inp c).state.ledState = .LED_NORMAL ∧
      (tick inp c).state.currentMode = .MODE_MANUAL ∧
      if inp.manualButton = true ∧ 1 < c.settings.manualWateringDuration_s then
        (tick inp c).state.pumpState = .PUMP_ON ∧ (tick inp c).state.ledState = .LED_WATERING
      else
        (tick inp c).state.pumpState = .PUMP_OFF ∧ (tick inp c).state.ledState = .LED_NORMAL := by
  have hcb := CheckButtons_state_of_auto inp c hmode hbtn
  have hm1 : (sensorPhase inp (CheckButtons inp c)).state.currentMode = .MODE_MANUAL := by
    rw [sensorPhase_mode, hcb]
  have hp1 : (sensorPhase inp (CheckButtons inp c)).state.pumpState = .PUMP_OFF := by
    rw [sensorPhase_pump, hcb]
  have hl1 : (sensorPhase inp (CheckButtons inp c)).state.ledState = .LED_NORMAL := by
    rw [sensorPhase_led, hcb]; simp [hpump]
  have ht : tick inp c = RunManualMode inp (sensorPhase inp (CheckButtons inp c)) := by
    rw [tick_eq, if_neg (by rw [hm1]; decide)]
  refine ⟨by rw [hcb], by rw [hcb]; simp [hpump], by rw [ht, RunManualMode_mode, hm1], ?_⟩
  rw [ht, RunManualMode_state_of_off _ _ hp1]
  by_cases hb : inp.manualButton = true
  · by_cases hd : 1 < c.settings.manualWateringDuration_s
    · simp [hb, hd, sensorPhase_settings, CheckButtons_settings, Nat.not_le.mpr hd]
    · simp [hb, hd, sensorPhase_settings, CheckButtons_settings, Nat.not_lt.mp hd]
  · simp [hb, hp1, hl1]

/-- C4, witness: one tick after start-up the pump is on in Auto mode; a mode-button
press alone then ends the tick in Manual mode, pump Off, indicator Normal. -/
theorem mode_press_while_auto_watering_witness :
    (tick modePress (autoDry 1)).state.currentMode = .MODE_MANUAL ∧
      (tick modePress (autoDry 1)).state.pumpState = .PUMP_OFF ∧
      (tick modePress (autoDry 1)).state.ledState = .LED_NORMAL := by
  have h := mode_press_while_auto_watering modePress (autoDry 1) (by decide) (by decide)
    (by decide)
  exact ⟨h.2.2.1, by simpa [modePress] using h.2.2.2⟩

set_option maxRecDepth 100000 in
/-- C5: what the code does with the default duration of 10 s. From Manual mode
with the pump off (`manualIdle`), the manual button pressed on tick 1 and no
button afterwards (`manualCycle k` is the controller at the end of tick
`k + 1`): the pump is On at the end of ticks 1 and 9, tick 10 issues
`HAL_TurnPumpOff` and ends with the pump Off and the indicator Normal, and
tick 11 finds the pump already off and issues no pump command. -/
theorem manual_cycle_default_stops_on_tick_10 :
    manualIdle.state.currentMode = .MODE_MANUAL ∧ manualIdle.state.pumpState = .PUMP_OFF ∧
      manualIdle.settings.manualWateringDuration_s = 10 ∧
      (manualCycle 0).state.pumpState = .PUMP_ON ∧
      (manualCycle 8).state.pumpState = .PUMP_ON ∧
      (manualCycle 9).state.pumpState = .PUMP_OFF ∧
      (manualCycle 9).state.ledState = .LED_NORMAL ∧
      callsOfTick idle (manualCycle 8) =
        [.HAL_TurnPumpOff, .SendStatus .manualDurationComplete, .HAL_SetLedState .LED_NORMAL] ∧
      manualCycle 9 = tick idle (manualCycle 8) ∧
      (manualCycle 10).state.pumpState = .PUMP_OFF ∧
      HalCall.HAL_TurnPumpOff ∉ callsOfTick idle (manualCycle 9) := by
  decide

/-- C6, counterexample: a manual cycle is running (Manual mode, pump on) and the
mode button is pressed: the tick ends in Auto mode with the pump still On. -/
theorem mode_press_in_manual_cycle_leaves_pump_on :
    (manualCycle 0).state.currentMode = .MODE_MANUAL ∧
      (manualCycle 0).state.pumpState = .PUMP_ON ∧
      modePress.modeButton = true ∧
      (tick modePress (manualCycle 0)).state.currentMode = .MODE_AUTO ∧
      (tick modePress (manualCycle 0)).state.pumpState = .PUMP_ON := by
  decide

/-- C6 (amended): when the mode button is pressed while a manual cycle is running,
the button step leaves the pump On and the tick ends in Auto mode; at the end
of the tick the pump is Off exactly when the Auto rule stops it, that is when
the moisture sample in effect is above `maxMoistureThreshold` or the
incremented watering counter is at least `maxWateringDuration_s`. -/
theorem mode_press_while_manual_watering (inp : TickInput) (c : Controller)
    (hmode : c.state.currentMode = .MODE_MANUAL)
    (hpump : c.state.pumpState = .PUMP_ON)
    (hbtn : inp.modeButton = true) :
    (CheckButtons inp c).state.pumpState = .PUMP_ON ∧
      (tick inp c).state.currentMode = .MODE_AUTO ∧
      ((tick inp c).state.pumpState = .PUMP_OFF ↔
        (sampleInEffect inp c).gt c.settings.maxMoistureThreshold = true ∨
          u32_incr c.state.wateringTimeCounter ≥ c.settings.maxWateringDuration_s) := by
  have hcb := CheckButtons_state_of_manual inp c hmode hbtn
  have hm1 : (sensorPhase inp (CheckButtons inp c)).state.currentMode = .MODE_AUTO := by
    rw [sensorPhase_mode, hcb]
  have hp1 : (sensorPhase inp (CheckButtons inp c)).state.pumpState = .PUMP_ON := by
    rw [sensorPhase_pump, hcb]; exact hpump
  have ht : tick inp c = RunAutoMode (sensorPhase inp (CheckButtons inp c)) := by
    rw [tick_eq, if_pos hm1]
  refine ⟨by rw [hcb]; exact hpump, by rw [ht, RunAutoMode_mode, hm1], ?_⟩
  rw [ht, RunAutoMode_state_of_on _ hp1, sensorPhase_moisture, sensorPhase_settings,
    sensorPhase_watering, sampleInEffect_CheckButtons, CheckButtons_settings, hcb]
  by_cases h : (sampleInEffect inp c).gt c.settings.maxMoistureThreshold = true ∨
      u32_incr c.state.wateringTimeCounter ≥ c.settings.maxWateringDuration_s
  · rw [if_pos h]; simpa using h
  · rw [if_neg h]; simpa [hp1] using h

/-- C6, witness: the first tick of a manual cycle with the default settings,
followed by a mode-button press. -/
theorem mode_press_while_manual_watering_witness :
    (manualCycle 0).state.currentMode = .MODE_MANUAL ∧
      (manualCycle 0).state.pumpState = .PUMP_ON ∧
      modePress.modeButton = true ∧
      ((tick modePress (manualCycle 0)).state.pumpState = .PUMP_OFF ↔
        (sampleInEffect modePress (manualCycle 0)).gt
            (manualCycle 0).settings.maxMoistureThreshold = true ∨
          u32_incr (manualCycle 0).state.wateringTimeCounter ≥
            (manualCycle 0).settings.maxWateringDuration_s) :=
  ⟨by decide, by decide, by decide,
    (mode_press_while_manual_watering modePress (manualCycle 0) (by decide) (by decide)
      (by decide)).2.2⟩

set_option maxRecDepth 100000 in
/-- C7, counterexample: default settings, Auto mode, pump on, counter 29; the
tick reads 75 % (above 70) and the incremented counter is 30: the pump goes Off
with the target-reached status and the indicator ends Normal, not MoistureAlert. -/
theorem target_and_timeout_together_end_normal :
    (autoDry 29).state.currentMode = .MODE_AUTO ∧ (autoDry 29).state.pumpState = .PUMP_ON ∧
      (sampleInEffect (steadyInput (.fin 75) (.fin 26)) (autoDry 29)).gt
          (autoDry 29).settings.maxMoistureThreshold = true ∧
      u32_incr (autoDry 29).state.wateringTimeCounter ≥
          (autoDry 29).settings.maxWateringDuration_s ∧
      (tick (steadyInput (.fin 75) (.fin 26)) (autoDry 29)).state.pumpState = .PUMP_OFF ∧
      (tick (steadyInput (.fin 75) (.fin 26)) (autoDry 29)).state.ledState = .LED_NORMAL ∧
      callsOfTick (steadyInput (.fin 75) (.fin 26)) (autoDry 29) =
        [.SendStatus (.sensors (.fin 75) (.fin 26)), .HAL_TurnPumpOff,
          .SendStatus .autoTargetReached, .HAL_SetLedState .LED_NORMAL] := by
  decide

/-- C7 (amended): in Auto mode with the pump on and no mode-button press, when the
moisture sample in effect is above `maxMoistureThreshold` and the incremented
counter is at least `maxWateringDuration_s`, the target-reached branch is the
one taken (its status is sent, the timeout status is not), the pump goes Off,
and the indicator at the end of the tick is the one recomputed from the sample:
MoistureAlert when the sample is below `minMoistureThreshold`, Normal otherwise. -/
theorem target_reached_wins_over_timeout (inp : TickInput) (c : Controller)
    (hmode : c.state.currentMode = .MODE_AUTO)
    (hpump : c.state.pumpState = .PUMP_ON)
    (hbtn : inp.modeButton = false)
    (hwet : (sampleInEffect inp c).gt c.settings.maxMoistureThreshold = true)
    (_htime : u32_incr c.state.wateringTimeCounter ≥ c.settings.maxWateringDuration_s) :
    (tick inp c).state.pumpState = .PUMP_OFF ∧
      (tick inp c).state.ledState =
        (if (sampleInEffect inp c).lt c.settings.minMoistureThreshold = true then
          .LED_MOISTURE_ALERT
        else .LED_NORMAL) ∧
      HalCall.SendStatus .autoTargetReached ∈ callsOfTick inp c ∧
      HalCall.SendStatus .autoMaxTimeExceeded ∉ callsOfTick inp c := by
  have hp1 : (sensorPhase inp c).state.pumpState = .PUMP_ON := by rw [sensorPhase_pump, hpump]
  have hp0 : (sensorPhase inp { c with calls := [] }).state.pumpState = .PUMP_ON := by
    rw [sensorPhase_pump]; exact hpump
  have h0 := tick_of_auto inp { c with calls := [] } hmode hbtn
  refine ⟨?_, ?_, ?_, ?_⟩
  · rw [tick_of_auto inp c hmode hbtn, RunAutoMode_state_of_on _ hp1]
    simp [sensorPhase_moisture, sensorPhase_settings, hwet]
  · rw [tick_of_auto inp c hmode hbtn, RunAutoMode_state_of_on _ hp1]
    simp [sensorPhase_moisture, sensorPhase_settings, hwet]
  · unfold callsOfTick
    rw [h0, RunAutoMode_calls_of_on _ hp0, sensorPhase_moisture]
    have : sampleInEffect inp { c with calls := [] } = sampleInEffect inp c := rfl
    simp [this, sensorPhase_settings, hwet]
  · unfold callsOfTick
    rw [h0, RunAutoMode_calls_of_on _ hp0, sensorPhase_moisture, sensorPhase_calls]
    have : sampleInEffect inp { c with calls := [] } = sampleInEffect inp c := rfl
    simp only [this, sensorPhase_settings, hwet, if_true]
    split <;> simp

set_option maxRecDepth 100000 in
/-- C7, witness: tick 30 of a dry run with the default settings reading 75 %. -/
theorem target_reached_wins_over_timeout_witness :
    (autoDry 29).state.currentMode = .MODE_AUTO ∧ (autoDry 29).state.pumpState = .PUMP_ON ∧
      (tick (steadyInput (.fin 75) (.fin 26)) (autoDry 29)).state.pumpState = .PUMP_OFF :=
  ⟨by decide, by decide,
    (target_reached_wins_over_timeout (steadyInput (.fin 75) (.fin 26)) (autoDry 29)
      (by decide) (by decide) (by decide) (by decide) (by decide)).1⟩

set_option maxRecDepth 100000 in
/-- C8, counterexample: default settings, Auto mode, pump on, counter 29; the
tick reads 50 % (not above 70, not below 30): the pump is turned Off by the
timeout branch and the indicator at the end of the tick is Normal. -/
theorem timeout_with_moist_soil_ends_normal :
    (autoDry 29).state.currentMode = .MODE_AUTO ∧ (autoDry 29).state.pumpState = .PUMP_ON ∧
      (sampleInEffect (steadyInput (.fin 50) (.fin 26)) (autoDry 29)).gt
          (autoDry 29).settings.maxMoistureThreshold = false ∧
      u32_incr (autoDry 29).state.wateringTimeCounter ≥
          (autoDry 29).settings.maxWateringDuration_s ∧
      (tick (steadyInput (.fin 50) (.fin 26)) (autoDry 29)).state.pumpState = .PUMP_OFF ∧
      (tick (steadyInput (.fin 50) (.fin 26)) (autoDry 29)).state.ledState = .LED_NORMAL ∧
      callsOfTick (steadyInput (.fin 50) (.fin 26)) (autoDry 29) =
        [.SendStatus (.sensors (.fin 50) (.fin 26)), .HAL_TurnPumpOff,
          .SendStatus .autoMaxTimeExceeded, .HAL_SetLedState .LED_NORMAL] := by
  decide

/-- C8 (amended): in Auto mode with the pump on and no mode-button press, a tick
on which the incremented counter is at least `maxWateringDuration_s` while the
sample in effect is not above `maxMoistureThreshold` sends the timeout status,
turns the pump Off, and ends with the indicator recomputed from the sample:
MoistureAlert when the sample is below `minMoistureThreshold`, Normal otherwise. -/
theorem timeout_indicator_follows_sample (inp : TickInput) (c : Controller)
    (hmode : c.state.currentMode = .MODE_AUTO)
    (hpump : c.state.pumpState = .PUMP_ON)
    (hbtn : inp.modeButton = false)
    (hnot : (sampleInEffect inp c).gt c.settings.maxMoistureThreshold = false)
    (htime : u32_incr c.state.wateringTimeCounter ≥ c.settings.maxWateringDuration_s) :
    (tick inp c).state.pumpState = .PUMP_OFF ∧
      (tick inp c).state.ledState =
        (if (sampleInEffect inp c).lt c.settings.minMoistureThreshold = true then
          .LED_MOISTURE_ALERT
        else .LED_NORMAL) ∧
      HalCall.SendStatus .autoMaxTimeExceeded ∈ callsOfTick inp c := by
  have hp1 : (sensorPhase inp c).state.pumpState = .PUMP_ON := by rw [sensorPhase_pump, hpump]
  have hp0 : (sensorPhase inp { c with calls := [] }).state.pumpState = .PUMP_ON := by
    rw [sensorPhase_pump]; exact hpump
  have h0 := tick_of_auto inp { c with calls := [] } hmode hbtn
  have htime1 : c.settings.maxWateringDuration_s ≤ u32_incr c.state.wateringTimeCounter := htime
  refine ⟨?_, ?_, ?_⟩
  · rw [tick_of_auto inp c hmode hbtn, RunAutoMode_state_of_on _ hp1]
    simp [sensorPhase_moisture, sensorPhase_settings, sensorPhase_watering, hnot, htime1]
  · rw [tick_of_auto inp c hmode hbtn, RunAutoMode_state_of_on _ hp1]
    simp [sensorPhase_moisture, sensorPhase_settings, sensorPhase_watering, hnot, htime1]
  · unfold callsOfTick
    rw [h0, RunAutoMode_calls_of_on _ hp0, sensorPhase_moisture]
    have : sampleInEffect inp { c with calls := [] } = sampleInEffect inp c := rfl
    simp [this, sensorPhase_settings, sensorPhase_watering, hnot, htime1]

set_option maxRecDepth 100000 in
/-- C8, witness: tick 30 of a dry run with the default settings, still reading 20 %. -/
theorem timeout_indicator_follows_sample_witness :
    (autoDry 29).state.currentMode = .MODE_AUTO ∧ (autoDry 29).state.pumpState = .PUMP_ON ∧
      (tick idle (autoDry 29)).state.pumpState = .PUMP_OFF ∧
      (tick idle (autoDry 29)).state.ledState = .LED_MOISTURE_ALERT := by
  have h := timeout_indicator_follows_sample idle (autoDry 29)
    (by decide) (by decide) (by decide) (by decide) (by decide)
  refine ⟨by decide, by decide, h.1, ?_⟩
  rw [h.2.1]
  decide

/-- C9: in Auto mode with the pump on and `minMoistureThreshold <
maxMoistureThreshold`, a tick without mode-button press whose moisture sample
in effect is above `maxMoistureThreshold` ends with the pump Off and the
indicator Normal. -/
theorem target_reached_turns_pump_off (inp : TickInput) (c : Controller)
    (hmode : c.state.currentMode = .MODE_AUTO)
    (hpump : c.state.pumpState = .PUMP_ON)
    (hset : c.settings.minMoistureThreshold.lt c.settings.maxMoistureThreshold = true)
    (hbtn : inp.modeButton = false)
    (hwet : (sampleInEffect inp c).gt c.settings.maxMoistureThreshold = true) :
    (tick inp c).state.pumpState = .PUMP_OFF ∧ (tick inp c).state.ledState = .LED_NORMAL := by
  have hp1 : (sensorPhase inp c).state.pumpState = .PUMP_ON := by rw [sensorPhase_pump, hpump]
  have hnd : (sampleInEffect inp c).lt c.settings.minMoistureThreshold = false :=
    CFloat.lt_asymm (CFloat.lt_trans hset hwet)
  rw [tick_of_auto inp c hmode hbtn, RunAutoMode_state_of_on _ hp1]
  simp [sensorPhase_moisture, sensorPhase_settings, hwet, hnd]

/-- C9, witness: the fifth tick after start-up reads 75 % while the pump is on. -/
theorem target_reached_turns_pump_off_witness :
    ((autoDry 4).state.currentMode = .MODE_AUTO ∧ (autoDry 4).state.pumpState = .PUMP_ON ∧
        (sampleInEffect (steadyInput (.fin 75) (.fin 26)) (autoDry 4)).gt
          (autoDry 4).settings.maxMoistureThreshold = true) ∧
      (tick (steadyInput (.fin 75) (.fin 26)) (autoDry 4)).state.pumpState = .PUMP_OFF ∧
      (tick (steadyInput (.fin 75) (.fin 26)) (autoDry 4)).state.ledState = .LED_NORMAL :=
  ⟨by decide,
    target_reached_turns_pump_off (steadyInput (.fin 75) (.fin 26)) (autoDry 4)
      (by decide) (by decide) (by decide) (by decide) (by decide)⟩

/-- C10: from Manual mode with the pump on, a tick gives the same controller (pump
state, indicator, watering counter and all the rest, the calls included) whether
the manual button reports pressed or not, and the watering counter at the end
of the tick is the old one incremented: a press does not restart it. -/
theorem manual_press_ignored_while_watering (inp : TickInput) (c : Controller)
    (hmode : c.state.currentMode = .MODE_MANUAL)
    (hpump : c.state.pumpState = .PUMP_ON) :
    tick { inp with manualButton := true } c = tick { inp with manualButton := false } c ∧
      (tick inp c).state.wateringTimeCounter = u32_incr c.state.wateringTimeCounter := by
  constructor
  · rw [tick_eq, tick_eq]
    have hcb : CheckButtons { inp with manualButton := true } c =
        CheckButtons { inp with manualButton := false } c := rfl
    have hsp : ∀ x, sensorPhase { inp with manualButton := true } x =
        sensorPhase { inp with manualButton := false } x := fun _ => rfl
    rw [hcb, hsp]
    split
    · rfl
    · rename_i hm
      apply RunManualMode_of_on
      rw [sensorPhase_pump, CheckButtons_state]
      rw [sensorPhase_mode, CheckButtons_state] at hm
      by_cases hb : inp.modeButton = true
      · simp [hb, hmode] at hm
      · simp [hb, hpump]
  · by_cases hb : inp.modeButton = true
    · have hcb := CheckButtons_state_of_manual inp c hmode hb
      have hm1 : (sensorPhase inp (CheckButtons inp c)).state.currentMode = .MODE_AUTO := by
        rw [sensorPhase_mode, hcb]
      have hp1 : (sensorPhase inp (CheckButtons inp c)).state.pumpState = .PUMP_ON := by
        rw [sensorPhase_pump, hcb]; exact hpump
      rw [tick_eq, if_pos hm1, RunAutoMode_state_of_on _ hp1, sensorPhase_watering, hcb]
      split <;> rfl
    · simp only [Bool.not_eq_true] at hb
      have hp1 : (sensorPhase inp c).state.pumpState = .PUMP_ON := by
        rw [sensorPhase_pump, hpump]
      rw [tick_of_manual inp c hmode hb, RunManualMode_state_of_on _ _ hp1, sensorPhase_watering]
      split <;> rfl

/-- C10, witness: the fifth tick of a manual cycle with the default settings. -/
theorem manual_press_ignored_while_watering_witness :
    ((manualCycle 3).state.currentMode = .MODE_MANUAL ∧
        (manualCycle 3).state.pumpState = .PUMP_ON) ∧
      tick { idle with manualButton := true } (manualCycle 3) =
        tick { idle with manualButton := false } (manualCycle 3) :=
  ⟨by decide,
    (manual_press_ignored_while_watering idle (manualCycle 3) (by decide) (by decide)).1⟩

set_option maxRecDepth 100000 in
/-- C11: what the code does from start-up with the default settings when every
sensor read returns 75 % and no button is pressed, for every air temperature.
The held sample is the zero-initialised 0.0 until the first read on tick 5, so
tick 1 issues `HAL_TurnPumpOn`, the ticks 1 to 4 end with the pump On and the
indicator Watering, and from tick 5 on every tick ends with the pump Off and
the indicator Normal. -/
theorem wet_soil_start_waters_until_first_read (t : CFloat) :
    boot.sensorData.moisturePercent = .fin 0 ∧
      (∀ k, 1 ≤ k → k ≤ 4 →
        (runTicks boot (List.replicate k (wetInput t))).state.pumpState = .PUMP_ON ∧
        (runTicks boot (List.replicate k (wetInput t))).state.ledState = .LED_WATERING) ∧
      HalCall.HAL_TurnPumpOn ∈ callsOfTick (wetInput t) boot ∧
      (∀ k, 5 ≤ k →
        (runTicks boot (List.replicate k (wetInput t))).state.pumpState = .PUMP_OFF ∧
        (runTicks boot (List.replicate k (wetInput t))).state.ledState = .LED_NORMAL) := by
  have hctl := fun k => (control_eq_iff _ _).mp (wetInput_state t k)
  refine ⟨rfl, ?_, ?_, ?_⟩
  · intro k h1 h4
    rw [(hctl k).1]
    interval_cases k <;> decide
  · have hp : (sensorPhase (wetInput t) (CheckButtons (wetInput t) boot)).control =
        (sensorPhase (wetInput (.fin 26)) (CheckButtons (wetInput (.fin 26)) boot)).control :=
      sensorPhase_control_congr _ _ _ _ rfl (CheckButtons_control_congr _ _ _ _ rfl rfl)
    rw [callsOfTick_eq]
    apply List.mem_append_left
    apply List.mem_append_right
    rw [ruleCalls_congr _ _ _ hp]
    unfold ruleCalls
    rw [if_pos (by decide)]
    decide
  · intro k h5
    obtain ⟨j, rfl⟩ : ∃ j, k = 5 + j := ⟨k - 5, by omega⟩
    rw [runTicks_replicate_add]
    have h := hctl 5
    refine wet_run_stable t j _ (by rw [h.2.1]; decide) (by rw [h.1]; decide)
      (by rw [h.1]; decide) (by rw [h.1]; decide) (by rw [h.2.2]; decide)

/-- C12: a tick whose mode rule is the Auto rule and that ends with the pump Off
ends with the indicator MoistureAlert when the moisture sample in effect is
below `minMoistureThreshold` and Normal otherwise; that sample is the one held
at the end of the tick. -/
theorem auto_tick_pump_off_indicator (inp : TickInput) (c : Controller)
    (hmode : (tick inp c).state.currentMode = .MODE_AUTO)
    (hpump : (tick inp c).state.pumpState = .PUMP_OFF) :
    (tick inp c).state.ledState =
        (if (sampleInEffect inp c).lt c.settings.minMoistureThreshold = true then
          .LED_MOISTURE_ALERT
        else .LED_NORMAL) ∧
      (tick inp c).sensorData.moisturePercent = sampleInEffect inp c :=
  tick_auto_off_led inp c hmode hpump

set_option maxRecDepth 100000 in
/-- C12, witness: tick 30 of a dry run with the default settings (timeout, pump Off). -/
theorem auto_tick_pump_off_indicator_witness :
    ((tick idle (autoDry 29)).state.currentMode = .MODE_AUTO ∧
        (tick idle (autoDry 29)).state.pumpState = .PUMP_OFF) ∧
      (tick idle (autoDry 29)).state.ledState =
        (if (sampleInEffect idle (autoDry 29)).lt
            (autoDry 29).settings.minMoistureThreshold = true then
          .LED_MOISTURE_ALERT
        else .LED_NORMAL) :=
  ⟨by decide, (auto_tick_pump_off_indicator idle (autoDry 29) (by decide) (by decide)).1⟩

set_option maxRecDepth 100000 in
/-- C13, counterexample: two runs from start-up that end in Manual mode with the
pump Off and a held sample of 20 %, one with the indicator MoistureAlert (30 dry
Auto ticks, then the mode button), the other with the indicator Normal (the
mode button on tick 1, then four ticks). -/
theorem manual_indicator_not_determined :
    (runTicks boot (List.replicate 30 idle ++ [modePress])).state.currentMode = .MODE_MANUAL ∧
      (runTicks boot (modePress :: List.replicate 4 idle)).state.currentMode = .MODE_MANUAL ∧
      (runTicks boot (List.replicate 30 idle ++ [modePress])).state.pumpState = .PUMP_OFF ∧
      (runTicks boot (modePress :: List.replicate 4 idle)).state.pumpState = .PUMP_OFF ∧
      (runTicks boot (List.replicate 30 idle ++ [modePress])).sensorData.moisturePercent
        = .fin 20 ∧
      (runTicks boot (modePress :: List.replicate 4 idle)).sensorData.moisturePercent
        = .fin 20 ∧
      (runTicks boot (List.replicate 30 idle ++ [modePress])).state.ledState
        = .LED_MOISTURE_ALERT ∧
      (runTicks boot (modePress :: List.replicate 4 idle)).state.ledState = .LED_NORMAL := by
  decide

/-- C13 (amended): two states at the end of a tick of runs from start-up that
have the same mode, the same pump state and the same held moisture sample, and
are not in Manual mode with the pump Off, have the same indicator state:
Watering when the pump is On, in either mode, and in Auto mode with the pump Off
MoistureAlert when the sample is below the minimum threshold and Normal when it
is not. -/
theorem indicator_determined_unless_manual_off (xs ys : List TickInput) (x y : TickInput)
    (hm : (tick x (runTicks boot xs)).state.currentMode =
      (tick y (runTicks boot ys)).state.currentMode)
    (hp : (tick x (runTicks boot xs)).state.pumpState =
      (tick y (runTicks boot ys)).state.pumpState)
    (hs : (tick x (runTicks boot xs)).sensorData.moisturePercent =
      (tick y (runTicks boot ys)).sensorData.moisturePercent)
    (hne : (tick x (runTicks boot xs)).state.currentMode = .MODE_AUTO ∨
      (tick x (runTicks boot xs)).state.pumpState = .PUMP_ON) :
    (tick x (runTicks boot xs)).state.ledState = (tick y (runTicks boot ys)).state.ledState ∧
      (tick x (runTicks boot xs)).state.ledState =
        if (tick x (runTicks boot xs)).state.pumpState = .PUMP_ON then .LED_WATERING
        else if (tick x (runTicks boot xs)).sensorData.moisturePercent.lt
            boot.settings.minMoistureThreshold = true then
          .LED_MOISTURE_ALERT
        else .LED_NORMAL := by
  have hne2 : (tick y (runTicks boot ys)).state.currentMode = .MODE_AUTO ∨
      (tick y (runTicks boot ys)).state.pumpState = .PUMP_ON := by
    rw [← hm, ← hp]
    exact hne
  refine ⟨?_, tick_indicator_of_auto_or_on xs x hne⟩
  rw [tick_indicator_of_auto_or_on xs x hne, tick_indicator_of_auto_or_on ys y hne2, hp, hs]

/-- C13, witness: the second and the third tick of a manual cycle started right
after start-up, both in Manual mode with the pump On and the held sample 0.0. -/
theorem indicator_determined_unless_manual_off_witness :
    ((tick manualPress (runTicks boot [modePress])).state.currentMode =
          (tick idle (runTicks boot [modePress, manualPress])).state.currentMode ∧
        (tick manualPress (runTicks boot [modePress])).state.pumpState =
          (tick idle (runTicks boot [modePress, manualPress])).state.pumpState ∧
        (tick manualPress (runTicks boot [modePress])).sensorData.moisturePercent =
          (tick idle (runTicks boot [modePress, manualPress])).sensorData.moisturePercent ∧
        (tick manualPress (runTicks boot [modePress])).state.currentMode = .MODE_MANUAL ∧
        (tick manualPress (runTicks boot [modePress])).state.pumpState = .PUMP_ON) ∧
      (tick manualPress (runTicks boot [modePress])).state.ledState =
        (tick idle (runTicks boot [modePress, manualPress])).state.ledState ∧
      (tick manualPress (runTicks boot [modePress])).state.ledState = .LED_WATERING :=
  ⟨by decide,
    (indicator_determined_unless_manual_off [modePress] [modePress, manualPress] manualPress idle
      (by decide) (by decide) (by decide) (Or.inr (by decide))).1,
    by decide⟩

/-- C14: with `1 ≤ sensorReadInterval_s` (a `uint32_t`) and the sensor counter at
0 before the first tick, the tick number `n` (here `inps.length + 1`) reads the
sensor exactly when the interval divides `n`: then the held sample is the pair
just read, the counter is back at 0 and the sensor status line is sent; on any
other tick the held sample is unchanged, the counter is one more than before
and no sensor status line is sent. -/
theorem sensor_read_cadence (c : Controller) (inps : List TickInput) (inp : TickInput)
    (hI1 : 1 ≤ c.settings.sensorReadInterval_s)
    (hI2 : c.settings.sensorReadInterval_s < UINT32_RANGE)
    (h0 : c.state.sensorCheckCounter = 0) :
    (c.settings.sensorReadInterval_s ∣ inps.length + 1 →
        (tick inp (runTicks c inps)).sensorData =
          { moisturePercent := inp.soilMoisture, airTemperatureCelsius := inp.airTemperature } ∧
        (tick inp (runTicks c inps)).state.sensorCheckCounter = 0 ∧
        HalCall.SendStatus (.sensors inp.soilMoisture inp.airTemperature) ∈
          callsOfTick inp (runTicks c inps)) ∧
      (¬ c.settings.sensorReadInterval_s ∣ inps.length + 1 →
        (tick inp (runTicks c inps)).sensorData = (runTicks c inps).sensorData ∧
        (tick inp (runTicks c inps)).state.sensorCheckCounter =
          (runTicks c inps).state.sensorCheckCounter + 1 ∧
        ∀ m t, HalCall.SendStatus (.sensors m t) ∉ callsOfTick inp (runTicks c inps)) := by
  have hcnt := runTicks_sensorCheckCounter c inps hI2 (by omega)
  rw [h0, Nat.zero_add] at hcnt
  have hlt : inps.length % c.settings.sensorReadInterval_s < c.settings.sensorReadInterval_s :=
    Nat.mod_lt _ (by omega)
  have hinc : u32_incr (runTicks c inps).state.sensorCheckCounter =
      inps.length % c.settings.sensorReadInterval_s + 1 := by
    rw [hcnt]; exact u32_incr_of_lt _ (by omega)
  have hdvd : c.settings.sensorReadInterval_s ∣ inps.length + 1 ↔
      inps.length % c.settings.sensorReadInterval_s + 1 ≥ c.settings.sensorReadInterval_s := by
    rw [Nat.dvd_iff_mod_eq_zero, ← Nat.mod_add_mod]
    constructor
    · intro h
      by_contra hn
      rw [Nat.mod_eq_of_lt (by omega)] at h
      omega
    · intro h
      have : inps.length % c.settings.sensorReadInterval_s + 1 =
          c.settings.sensorReadInterval_s := by omega
      rw [this, Nat.mod_self]
  have hcalls := callsOfTick_eq inp (runTicks c inps)
  constructor
  · intro hd
    have hge := hdvd.mp hd
    refine ⟨?_, ?_, ?_⟩
    · rw [tick_sensorData, runTicks_settings, hinc, if_pos hge]
    · rw [tick_sensorCheckCounter, runTicks_settings, hinc, if_pos hge]
    · rw [hcalls]
      simp [sensorCalls, CheckButtons_sensorCheckCounter, CheckButtons_settings,
        runTicks_settings, hinc, hge]
  · intro hd
    have hge : ¬ inps.length % c.settings.sensorReadInterval_s + 1 ≥
        c.settings.sensorReadInterval_s := fun h => hd (hdvd.mpr h)
    refine ⟨?_, ?_, ?_⟩
    · rw [tick_sensorData, runTicks_settings, hinc, if_neg hge]
    · rw [tick_sensorCheckCounter, runTicks_settings, hinc, if_neg hge, hcnt]
    · intro m t
      rw [hcalls]
      simp only [sensorCalls, CheckButtons_sensorCheckCounter, CheckButtons_settings,
        runTicks_settings, hinc, if_neg hge]
      simp only [buttonCalls, ruleCalls, autoCalls, manualCalls]
      split_ifs <;> simp

set_option maxRecDepth 100000 in
/-- C14, witness: the fifth tick after start-up with the default interval of 5. -/
theorem sensor_read_cadence_witness :
    (1 ≤ boot.settings.sensorReadInterval_s ∧ boot.state.sensorCheckCounter = 0 ∧
        boot.settings.sensorReadInterval_s ∣ (List.replicate 4 idle).length + 1) ∧
      (tick idle (runTicks boot (List.replicate 4 idle))).sensorData =
        { moisturePercent := idle.soilMoisture, airTemperatureCelsius := idle.airTemperature } :=
  ⟨by decide,
    ((sensor_read_cadence boot (List.replicate 4 idle) idle (by decide) (by decide)
      (by decide)).1 (by decide)).1⟩

/-- C15: on a tick that refreshes the sensor, two controllers with the same
runtime state and settings but different held samples end with the same runtime
state (pump, indicator, watering counter included) and make the same calls; the
sample held afterwards is the moisture read in this tick. -/
theorem refreshed_tick_ignores_held_sample (inp : TickInput) (a b : Controller)
    (hs : a.state = b.state) (hc : a.settings = b.settings)
    (href : u32_incr a.state.sensorCheckCounter ≥ a.settings.sensorReadInterval_s) :
    (tick inp a).state = (tick inp b).state ∧
      (tick inp a).sensorData.moisturePercent = inp.soilMoisture ∧
      (tick inp b).sensorData.moisturePercent = inp.soilMoisture ∧
      callsOfTick inp a = callsOfTick inp b := by
  have hrefb : u32_incr b.state.sensorCheckCounter ≥ b.settings.sensorReadInterval_s := by
    rw [← hs, ← hc]; exact href
  have hsa : sampleInEffect inp a = inp.soilMoisture := by
    unfold sampleInEffect; rw [if_pos href]
  have hsb : sampleInEffect inp b = inp.soilMoisture := by
    unfold sampleInEffect; rw [if_pos hrefb]
  have h1s : (CheckButtons inp a).state = (CheckButtons inp b).state := by
    rw [CheckButtons_state, CheckButtons_state, hs]
  have h2 : (sensorPhase inp (CheckButtons inp a)).control =
      (sensorPhase inp (CheckButtons inp b)).control := by
    rw [control_eq_iff, sensorPhase_state, sensorPhase_state, sensorPhase_settings,
      sensorPhase_settings, sensorPhase_moisture, sensorPhase_moisture,
      sampleInEffect_CheckButtons, sampleInEffect_CheckButtons, h1s, CheckButtons_settings,
      CheckButtons_settings, hc, hsa, hsb]
    exact ⟨rfl, rfl, rfl⟩
  have hmode : (sensorPhase inp (CheckButtons inp a)).state.currentMode =
      (sensorPhase inp (CheckButtons inp b)).state.currentMode := by
    rw [control_eq_iff] at h2; rw [h2.1]
  have hst : (tick inp a).state = (tick inp b).state := by
    rw [tick_eq, tick_eq, hmode]
    split
    · exact ((control_eq_iff _ _).mp (RunAutoMode_control_congr _ _ h2)).1
    · exact ((control_eq_iff _ _).mp (RunManualMode_control_congr inp inp _ _ rfl h2)).1
  refine ⟨hst, by rw [tick_moisture, hsa], by rw [tick_moisture, hsb], ?_⟩
  rw [callsOfTick_eq, callsOfTick_eq, ruleCalls_congr inp _ _ h2, hst]
  congr 3
  · simp [buttonCalls, hs]
  · simp [sensorCalls, h1s, CheckButtons_settings, hc]

set_option maxRecDepth 100000 in
/-- C15, witness: the fifth tick after start-up, against the same controller
holding 90 % instead. -/
theorem refreshed_tick_ignores_held_sample_witness :
    (u32_incr (autoDry 4).state.sensorCheckCounter ≥ (autoDry 4).settings.sensorReadInterval_s) ∧
      (tick idle (autoDry 4)).state =
        (tick idle { autoDry 4 with
          sensorData := { (autoDry 4).sensorData with moisturePercent := .fin 90 } }).state :=
  ⟨by decide,
    (refreshed_tick_ignores_held_sample idle (autoDry 4)
      { autoDry 4 with sensorData := { (autoDry 4).sensorData with moisturePercent := .fin 90 } }
      rfl rfl (by decide)).1⟩

/-- C16: the calls of a tick are some calls without any `HAL_SetLedState`,
followed by one `HAL_SetLedState` whose argument is the indicator state stored
at the end of the tick; this holds for every input and every controller. -/
theorem one_indicator_command_per_tick (inp : TickInput) (c : Controller) :
    ∃ pre : List HalCall,
      callsOfTick inp c = pre ++ [.HAL_SetLedState (tick inp c).state.ledState] ∧
        (∀ s, HalCall.HAL_SetLedState s ∉ pre) ∧
        (tick inp c).calls =
          c.calls ++ pre ++ [.HAL_SetLedState (tick inp c).state.ledState] := by
  refine ⟨buttonCalls inp c ++ sensorCalls inp (CheckButtons inp c) ++
    ruleCalls inp (sensorPhase inp (CheckButtons inp c)), callsOfTick_eq inp c, ?_, ?_⟩
  · intro s
    simp only [buttonCalls, sensorCalls, ruleCalls, autoCalls, manualCalls]
    split_ifs <;> simp
  · rw [tick_calls]; simp [List.append_assoc]

/-- C17, counterexample: one tick after start-up the pump is on in Auto mode; a
tick on which both buttons are reported issues pump-off and then pump-on, and
the stored pump state at its end is the one at its start. -/
theorem pump_commands_without_net_change :
    callsOfTick bothPress (runTicks boot [idle]) =
        [.SendStatus .modeChangedManual, .HAL_TurnPumpOff, .SendStatus .manualPumpForcedOff,
          .HAL_DelayMs 300, .HAL_TurnPumpOn, .SendStatus .manualPumpActivated,
          .HAL_SetLedState .LED_WATERING] ∧
      (runTicks boot [idle]).state.pumpState = .PUMP_ON ∧
      (tick bothPress (runTicks boot [idle])).state.pumpState = .PUMP_ON := by
  decide

/-- C17 (amended): after every run of ticks from start-up the stored pump state is
the last pump command issued (Off when there was none); in the next tick every
pump command changes the pump state it meets (pump-on only when off, pump-off
only when on); a tick that ends with another pump state than it started with
has issued a pump command, and a tick without pump command leaves the pump
state as it was. -/
theorem pump_state_mirrors_commands (inps : List TickInput) (inp : TickInput) :
    lastPumpCommand (runTicks boot inps).calls = (runTicks boot inps).state.pumpState ∧
      pumpCommandsAllFlip (runTicks boot inps).state.pumpState
        (callsOfTick inp (runTicks boot inps)) = true ∧
      ((tick inp (runTicks boot inps)).state.pumpState ≠ (runTicks boot inps).state.pumpState →
        HalCall.HAL_TurnPumpOn ∈ callsOfTick inp (runTicks boot inps) ∨
          HalCall.HAL_TurnPumpOff ∈ callsOfTick inp (runTicks boot inps)) ∧
      (HalCall.HAL_TurnPumpOn ∉ callsOfTick inp (runTicks boot inps) →
        HalCall.HAL_TurnPumpOff ∉ callsOfTick inp (runTicks boot inps) →
        (tick inp (runTicks boot inps)).state.pumpState =
          (runTicks boot inps).state.pumpState) := by
  obtain ⟨h1, h2⟩ := callsOfTick_pump inp (runTicks boot inps)
  have hnone : HalCall.HAL_TurnPumpOn ∉ callsOfTick inp (runTicks boot inps) →
      HalCall.HAL_TurnPumpOff ∉ callsOfTick inp (runTicks boot inps) →
      (tick inp (runTicks boot inps)).state.pumpState =
        (runTicks boot inps).state.pumpState := by
    intro hon hoff
    rw [← h1, pumpAfterCalls_of_no_command _ _ hon hoff]
  refine ⟨lastPumpCommand_runTicks boot inps (by decide), h2, ?_, hnone⟩
  intro hne
  by_contra hcon
  rw [not_or] at hcon
  exact hne (hnone hcon.1 hcon.2)

/-- C18: `CheckButtons` turns Auto into Manual and Manual into Auto when the mode
button reports pressed and leaves the mode alone otherwise, so the mode after it
differs from the mode before exactly when the button is pressed; the sensor
step, `RunAutoMode` and `RunManualMode` keep the mode, and the mode at the end
of the tick is the one `CheckButtons` left. -/
theorem mode_changes_only_on_mode_button (inp : TickInput) (c : Controller) :
    (inp.modeButton = true →
        (c.state.currentMode = .MODE_AUTO →
          (CheckButtons inp c).state.currentMode = .MODE_MANUAL) ∧
        (c.state.currentMode = .MODE_MANUAL →
          (CheckButtons inp c).state.currentMode = .MODE_AUTO)) ∧
      (inp.modeButton = false →
        (CheckButtons inp c).state.currentMode = c.state.currentMode) ∧
      ((CheckButtons inp c).state.currentMode ≠ c.state.currentMode ↔ inp.modeButton = true) ∧
      (sensorPhase inp (CheckButtons inp c)).state.currentMode =
        (CheckButtons inp c).state.currentMode ∧
      (∀ x : Controller, (RunAutoMode x).state.currentMode = x.state.currentMode) ∧
      (∀ x : Controller, (RunManualMode inp x).state.currentMode = x.state.currentMode) ∧
      (tick inp c).state.currentMode = (CheckButtons inp c).state.currentMode := by
  refine ⟨fun hb => ⟨fun hm => ?_, fun hm => ?_⟩, fun hb => ?_, ?_, sensorPhase_mode _ _,
    RunAutoMode_mode, RunManualMode_mode inp, tick_mode inp c⟩
  · rw [CheckButtons_state_of_auto inp c hm hb]
  · rw [CheckButtons_state_of_manual inp c hm hb]
  · rw [CheckButtons_idle inp c hb]
  · rw [CheckButtons_state]
    cases hb : inp.modeButton <;> cases hm : c.state.currentMode <;> simp [hm]

/-- C19, counterexample: with a manual-watering duration of 1 s (all durations
positive), in Manual mode with the pump off, a tick with the manual button
pressed and the mode button not issues pump-on and pump-off in the same tick
and ends with the pump Off, the indicator Normal and the counter at 1. -/
theorem manual_press_one_second_ends_off :
    oneSecondManual.state.currentMode = .MODE_MANUAL ∧
      oneSecondManual.state.pumpState = .PUMP_OFF ∧
      0 < oneSecondManual.settings.maxWateringDuration_s ∧
      0 < oneSecondManual.settings.manualWateringDuration_s ∧
      0 < oneSecondManual.settings.sensorReadInterval_s ∧
      manualPress.manualButton = true ∧ manualPress.modeButton = false ∧
      (tick manualPress oneSecondManual).state.pumpState = .PUMP_OFF ∧
      (tick manualPress oneSecondManual).state.ledState = .LED_NORMAL ∧
      (tick manualPress oneSecondManual).state.wateringTimeCounter = 1 ∧
      callsOfTick manualPress oneSecondManual =
        [.HAL_TurnPumpOn, .SendStatus .manualPumpActivated, .HAL_TurnPumpOff,
          .SendStatus .manualDurationComplete, .HAL_SetLedState .LED_NORMAL] := by
  decide

/-- C19 (amended): for every settings value with a manual-watering duration
above 1 s and every state in Manual mode with the pump Off, a tick in which the
manual button reports pressed and the mode button does not ends with the pump
On and the indicator Watering, the watering counter having been restarted from
0 and counted this tick (it is 1 whatever it was before). Every controller
reached from start-up holds the default duration of 10 s, so on all of them in
Manual mode with the pump Off such a tick ends that way. -/
theorem manual_press_starts_pump_above_one_second (inp : TickInput) (c : Controller)
    (hmode : c.state.currentMode = .MODE_MANUAL) (hpump : c.state.pumpState = .PUMP_OFF)
    (hbtn : inp.modeButton = false) (hman : inp.manualButton = true)
    (hdur : 1 < c.settings.manualWateringDuration_s) :
    ((tick inp c).state.pumpState = .PUMP_ON ∧ (tick inp c).state.ledState = .LED_WATERING ∧
        (tick inp c).state.wateringTimeCounter = 1) ∧
      ∀ xs : List TickInput, (runTicks boot xs).state.currentMode = .MODE_MANUAL →
        (runTicks boot xs).state.pumpState = .PUMP_OFF →
        (tick inp (runTicks boot xs)).state.pumpState = .PUMP_ON ∧
          (tick inp (runTicks boot xs)).state.ledState = .LED_WATERING ∧
          (tick inp (runTicks boot xs)).state.wateringTimeCounter = 1 := by
  refine ⟨manual_press_starts_pump inp c hmode hpump hbtn hman hdur, ?_⟩
  intro xs hm hp
  apply manual_press_starts_pump inp _ hm hp hbtn hman
  rw [runTicks_settings]
  decide

/-- C19, witness: the manual press on the first tick in Manual mode after
start-up, with the default duration of 10 s. -/
theorem manual_press_starts_pump_above_one_second_witness :
    (manualIdle.state.currentMode = .MODE_MANUAL ∧ manualIdle.state.pumpState = .PUMP_OFF ∧
        manualPress.modeButton = false ∧ manualPress.manualButton = true ∧
        1 < manualIdle.settings.manualWateringDuration_s) ∧
      (tick manualPress manualIdle).state.pumpState = .PUMP_ON ∧
      (tick manualPress manualIdle).state.ledState = .LED_WATERING ∧
      (tick manualPress manualIdle).state.wateringTimeCounter = 1 :=
  ⟨by decide,
    (manual_press_starts_pump_above_one_second manualPress manualIdle (by decide) (by decide)
      (by decide) (by decide) (by decide)).1⟩

/-- C20: in a tick whose mode after the button step is Manual, if the pump is Off
before the tick and On after it then the manual button reported pressed, and
more generally any `HAL_TurnPumpOn` of that tick needs the manual button; the
moisture sample plays no part. -/
theorem manual_tick_pump_on_needs_press (inp : TickInput) (c : Controller)
    (hmode : (CheckButtons inp c).state.currentMode = .MODE_MANUAL) :
    (c.state.pumpState = .PUMP_OFF → (tick inp c).state.pumpState = .PUMP_ON →
        inp.manualButton = true) ∧
      (HalCall.HAL_TurnPumpOn ∈ callsOfTick inp c → inp.manualButton = true) := by
  have hm1 : (sensorPhase inp (CheckButtons inp c)).state.currentMode = .MODE_MANUAL := by
    rw [sensorPhase_mode, hmode]
  have ht : tick inp c = RunManualMode inp (sensorPhase inp (CheckButtons inp c)) := by
    rw [tick_eq, if_neg (by rw [hm1]; decide)]
  constructor
  · intro hoff hon
    have hp1 : (sensorPhase inp (CheckButtons inp c)).state.pumpState = .PUMP_OFF := by
      rw [sensorPhase_pump, CheckButtons_state]
      split_ifs <;> first | rfl | exact hoff
    rw [ht, RunManualMode_state_of_off _ _ hp1] at hon
    by_contra hb
    rw [if_neg hb, hp1] at hon
    exact absurd hon (by decide)
  · intro hin
    rw [callsOfTick_eq] at hin
    by_contra hb
    simp [buttonCalls, sensorCalls, ruleCalls, manualCalls, hm1, hb] at hin
    revert hin
    split_ifs <;> simp

/-- C20, witness: the manual press that starts a cycle from `manualIdle`. -/
theorem manual_tick_pump_on_needs_press_witness :
    (CheckButtons manualPress manualIdle).state.currentMode = .MODE_MANUAL ∧
      manualIdle.state.pumpState = .PUMP_OFF ∧
      (tick manualPress manualIdle).state.pumpState = .PUMP_ON ∧
      manualPress.manualButton = true :=
  ⟨by decide, by decide, by decide,
    (manual_tick_pump_on_needs_press manualPress manualIdle (by decide)).1 (by decide)
      (by decide)⟩

/-- C21: in a tick whose mode after the button step is Auto, the whole controller
at the end of the tick (state, held sample, calls made) and the calls of the
tick are the same whether the manual-watering button reports pressed or not. -/
theorem auto_tick_ignores_manual_button (inp : TickInput) (c : Controller)
    (hmode : (CheckButtons inp c).state.currentMode = .MODE_AUTO) :
    tick { inp with manualButton := true } c = tick { inp with manualButton := false } c ∧
      callsOfTick { inp with manualButton := true } c =
        callsOfTick { inp with manualButton := false } c := by
  have key : ∀ x : Controller, (CheckButtons inp x).state.currentMode = .MODE_AUTO →
      tick { inp with manualButton := true } x = tick { inp with manualButton := false } x := by
    intro x hx
    have hcb : ∀ b, CheckButtons { inp with manualButton := b } x = CheckButtons inp x :=
      fun _ => rfl
    have hsp : ∀ b y, sensorPhase { inp with manualButton := b } y = sensorPhase inp y :=
      fun _ _ => rfl
    have hm : (sensorPhase inp (CheckButtons inp x)).state.currentMode = .MODE_AUTO := by
      rw [sensorPhase_mode, hx]
    rw [tick_eq, tick_eq, hcb true, hcb false, hsp true, hsp false, if_pos hm, if_pos hm]
  refine ⟨key c hmode, ?_⟩
  unfold callsOfTick
  rw [key { c with calls := [] } (by rw [CheckButtons_state] at hmode ⊢; exact hmode)]

/-- C21, witness: the second tick after start-up, in Auto mode with the pump on. -/
theorem auto_tick_ignores_manual_button_witness :
    (CheckButtons idle (autoDry 1)).state.currentMode = .MODE_AUTO ∧
      tick { idle with manualButton := true } (autoDry 1) =
        tick { idle with manualButton := false } (autoDry 1) :=
  ⟨by decide, (auto_tick_ignores_manual_button idle (autoDry 1) (by decide)).1⟩

/-- C22, counterexample: the settings held before `SPWS_Init` runs (all zero at
power-on) violate the invariant of the specification, and `SPWS_Init` builds the
controller state all the same; its calls are `HAL_Init` and the status line. -/
theorem init_has_no_settings_check :
    specSettingsInvariant powerOn.settings = false ∧
      (SPWS_Init powerOn).state =
        { currentMode := .MODE_AUTO
          pumpState := .PUMP_OFF
          ledState := .LED_NORMAL
          wateringTimeCounter := 0
          sensorCheckCounter := 0 } ∧
      (SPWS_Init powerOn).calls = [.HAL_Init, .SendStatus .systemInitialized] := by
  decide

/-- C22 (amended): `SPWS_Init` takes no settings value and has no failure path:
whatever the module variables hold, it installs the default settings 30 / 70 /
30 s / 10 s / 5 s, which satisfy `0 ≤ min < max ≤ 100` with positive durations,
and builds the controller state Auto, pump Off, indicator Normal, counters 0. -/
theorem init_installs_valid_defaults (c : Controller) :
    specSettingsInvariant (SPWS_Init c).settings = true ∧
      (SPWS_Init c).settings =
        { minMoistureThreshold := .fin 30
          maxMoistureThreshold := .fin 70
          maxWateringDuration_s := 30
          manualWateringDuration_s := 10
          sensorReadInterval_s := 5 } ∧
      (SPWS_Init c).state =
        { currentMode := .MODE_AUTO
          pumpState := .PUMP_OFF
          ledState := .LED_NORMAL
          wateringTimeCounter := 0
          sensorCheckCounter := 0 } := by
  refine ⟨?_, rfl, rfl⟩
  have h : (SPWS_Init c).settings = boot.settings := rfl
  rw [h]
  decide

/-- C34: one call of `SPWS_Run` with clock value `currentTickMs`. The test
compares `(currentTickMs − lastTickMs) mod 2^32` with 1000. When it is at least
1000 the call stores `currentTickMs` in `lastTickMs` and runs the tick body once,
which makes at least one HAL call; when it is below 1000 the call returns the
controller as it was, calls included. If the clock has advanced by `elapsed`
milliseconds since `lastTickMs`, wrapped or not, the value compared is
`elapsed`, for every elapsed time the 32-bit clock can tell (below `2^32` ms);
in particular after `k ≥ 1` whole seconds in that range the call runs the tick
body once, not `k` times, and a further call at the same clock value does
nothing. -/
theorem SPWS_Run_once_per_elapsed_second (currentTickMs : Nat) (inp : TickInput)
    (c : Controller) :
    ((u32_sub currentTickMs c.lastTickMs : Nat) : Int) =
        ((currentTickMs : Int) - (c.lastTickMs : Int)) % 2 ^ 32 ∧
      (1000 ≤ u32_sub currentTickMs c.lastTickMs →
        SPWS_Run currentTickMs inp c =
            tick inp { c with lastTickMs := currentTickMs % UINT32_RANGE } ∧
          (SPWS_Run currentTickMs inp c).lastTickMs = currentTickMs % UINT32_RANGE ∧
          (SPWS_Run currentTickMs inp c).calls = c.calls ++ callsOfTick inp c ∧
          callsOfTick inp c ≠ []) ∧
      (u32_sub currentTickMs c.lastTickMs < 1000 → SPWS_Run currentTickMs inp c = c) ∧
      (c.lastTickMs < UINT32_RANGE →
        (∀ elapsed, elapsed < UINT32_RANGE →
          u32_sub ((c.lastTickMs + elapsed) % UINT32_RANGE) c.lastTickMs = elapsed) ∧
        (∀ k, 1 ≤ k → k * 1000 < UINT32_RANGE →
          SPWS_Run ((c.lastTickMs + k * 1000) % UINT32_RANGE) inp c =
              tick inp { c with lastTickMs := (c.lastTickMs + k * 1000) % UINT32_RANGE } ∧
            ∀ inp2, SPWS_Run ((c.lastTickMs + k * 1000) % UINT32_RANGE) inp2
                (SPWS_Run ((c.lastTickMs + k * 1000) % UINT32_RANGE) inp c) =
              SPWS_Run ((c.lastTickMs + k * 1000) % UINT32_RANGE) inp c)) := by
  refine ⟨?_, ?_, SPWS_Run_of_not_elapsed currentTickMs inp c, ?_⟩
  · rw [u32_sub_eq_emod]; norm_num
  · intro h
    rw [SPWS_Run_of_elapsed currentTickMs inp c h]
    refine ⟨rfl, ?_, ?_, callsOfTick_ne_nil inp c⟩
    · rw [tick_lastTickMs]
    · rw [tick_calls_append, callsOfTick_lastTickMs]
  · intro hl
    refine ⟨fun elapsed he => u32_sub_elapsed _ _ hl he, ?_⟩
    intro k hk hk2
    have he := u32_sub_elapsed c.lastTickMs (k * 1000) hl hk2
    have hrun := SPWS_Run_of_elapsed ((c.lastTickMs + k * 1000) % UINT32_RANGE) inp c
      (by rw [he]; omega)
    rw [Nat.mod_mod] at hrun
    refine ⟨hrun, ?_⟩
    intro inp2
    apply SPWS_Run_of_not_elapsed
    rw [hrun, tick_lastTickMs]
    show u32_sub _ ((c.lastTickMs + k * 1000) % UINT32_RANGE) < 1000
    rw [u32_sub_self]
    omega

/-- C35: over any sequence of polls of `HAL_IsManualButtonPressed` (the static
starting at 0, `chars` being the characters the polls read, `EOF` included),
poll `i` returns 1 when the character it reads is `'t'` or `'T'` and either it is
the first poll or the poll before read another character, and returns 0
otherwise. So an uninterrupted run of `'t'` / `'T'` that starts at the first
poll or right after another character reports one press, on its first
character. -/
theorem manual_button_reports_rising_edge (chars : List Int) :
    (∀ i c, chars[i]? = some c →
      (pollManualButton chars 0)[i]? =
        some (if isManualKey c ∧ (i = 0 ∨ ∃ p, chars[i - 1]? = some p ∧ ¬ isManualKey p)
          then 1 else 0)) ∧
      (pollManualButton chars 0).length = chars.length ∧
      (∀ before run after, chars = before ++ run ++ after →
        (∀ c ∈ run, isManualKey c) → (∀ p, before.getLast? = some p → ¬ isManualKey p) →
        ∀ j, j < run.length →
          (pollManualButton chars 0)[before.length + j]? = some (if j = 0 then 1 else 0)) := by
  have hmain : ∀ i c, chars[i]? = some c →
      (pollManualButton chars 0)[i]? =
        some (if isManualKey c ∧ (i = 0 ∨ ∃ p, chars[i - 1]? = some p ∧ ¬ isManualKey p)
          then 1 else 0) := by
    intro i c hc
    rw [pollManualButton_getElem? chars 0 (by omega) i c hc]
    cases i with
    | zero => simp
    | succ j => simp
  have hlen : ∀ (cs : List Int) (ls : Nat), (pollManualButton cs ls).length = cs.length := by
    intro cs
    induction cs with
    | nil => intro ls; rfl
    | cons c rest ih => intro ls; simp [pollManualButton, ih]
  refine ⟨hmain, hlen chars 0, ?_⟩
  intro before run after hchars hall hbefore j hj
  have hrun : ∀ m (hm : m < run.length), chars[before.length + m]? = some run[m] := by
    intro m hm
    rw [hchars, List.append_assoc, List.getElem?_append_right (by omega),
      Nat.add_sub_cancel_left, List.getElem?_append_left hm, List.getElem?_eq_getElem hm]
  rw [hmain _ _ (hrun j hj)]
  have hk : isManualKey run[j] := hall _ (List.getElem_mem hj)
  cases j with
  | zero =>
    cases hb : before.getLast? with
    | none =>
      have hnil : before = [] := List.getLast?_eq_none_iff.mp hb
      simp [hk, hnil]
    | some p =>
      have hp : chars[before.length - 1]? = some p := by
        have hne : before ≠ [] := by
          intro hnil
          rw [hnil] at hb
          simp at hb
        have hpos : 0 < before.length := List.length_pos.mpr hne
        rw [hchars, List.append_assoc, List.getElem?_append_left (by omega), ← hb,
          List.getLast?_eq_getElem?]
      have hnk : ¬ isManualKey p := hbefore p hb
      simp [hk, hp, hnk]
  | succ m =>
    have hm : m < run.length := by omega
    have hkm : isManualKey run[m] := hall _ (List.getElem_mem hm)
    have hprev : chars[before.length + m]? = some run[m] := hrun m hm
    have hidx : before.length + (m + 1) - 1 = before.length + m := by omega
    rw [hidx, hprev]
    simp [hk, hkm]

end SPWS

namespace LedDriver

/-! ## LED driver: basic facts -/

/-- For 8-bit components the packed value is `g·65536 + r·256 + b`. -/
theorem pack_color_eq (r g b : Nat) (hr : r < 256) (hb : b < 256) :
    pack_color r g b = g * 65536 + r * 256 + b := by
  unfold pack_color
  rw [Nat.shiftLeft_eq, Nat.shiftLeft_eq]
  have h1 : g * 2 ^ 16 ||| r * 2 ^ 8 = g * 2 ^ 16 + r * 2 ^ 8 := by
    rw [Nat.mul_comm g (2 ^ 16)]
    exact (Nat.mul_add_lt_is_or (by omega) g).symm
  have h2 : g * 2 ^ 16 + r * 2 ^ 8 = 2 ^ 8 * (g * 2 ^ 8 + r) := by ring
  rw [h1, h2, ← Nat.mul_add_lt_is_or (by omega) _]
  ring

theorem pack_color_lt (r g b : Nat) (hr : r < 256) (hg : g < 256) (hb : b < 256) :
    pack_color r g b < 2 ^ 24 := by
  rw [pack_color_eq r g b hr hb]; omega

theorem extract_g_eq (r g b : Nat) (hr : r < 256) (hg : g < 256) (hb : b < 256) :
    extract_g (g * 65536 + r * 256 + b) = g := by
  unfold extract_g
  rw [show (0xFF : Nat) = 2 ^ 8 - 1 from rfl, Nat.and_pow_two_sub_one_eq_mod,
    Nat.shiftRight_eq_div_pow]
  omega

theorem extract_r_eq (r g b : Nat) (hr : r < 256) (hb : b < 256) :
    extract_r (g * 65536 + r * 256 + b) = r := by
  unfold extract_r
  rw [show (0xFF : Nat) = 2 ^ 8 - 1 from rfl, Nat.and_pow_two_sub_one_eq_mod,
    Nat.shiftRight_eq_div_pow]
  omega

theorem extract_b_eq (r g b : Nat) (hb : b < 256) :
    extract_b (g * 65536 + r * 256 + b) = b := by
  unfold extract_b
  rw [show (0xFF : Nat) = 2 ^ 8 - 1 from rfl, Nat.and_pow_two_sub_one_eq_mod]
  omega

/-- What `ready` says, spelled out. -/
theorem ready_iff (s : LedState) :
    s.ready = true ↔
      s.initialized = true ∧ ∃ buf, s.buffer = some buf ∧ buf.length = s.num_pixels := by
  unfold LedState.ready
  cases hb : s.buffer <;> simp

/-- The fill loop on a block of `n` cells leaves `n` cells holding the colour. -/
theorem fill_loop (color : Nat) (buf : List Nat) :
    (List.range buf.length).foldl (fun buf i => buf.set i color) buf =
      List.replicate buf.length color := by
  have key : ∀ k, k ≤ buf.length →
      (List.range k).foldl (fun buf i => buf.set i color) buf =
        List.replicate k color ++ buf.drop k := by
    intro k
    induction k with
    | zero => intro _; simp
    | succ k ih =>
      intro hk
      rw [List.range_succ, List.foldl_append, ih (by omega)]
      simp only [List.foldl_cons, List.foldl_nil]
      apply List.ext_getElem
      · simp; omega
      · intro i h1 h2
        simp only [List.getElem_set, List.length_replicate, List.getElem_append,
          List.getElem_replicate, List.getElem_drop]
        split_ifs <;> first | rfl | omega | (congr 1; omega)
  simpa using key buf.length (le_refl _)

theorem fill_loop_cells (color : Nat) (hc : color < 2 ^ 24) (idxs : List Nat) (buf : List Nat)
    (hbuf : ∀ v ∈ buf, v < 2 ^ 24) :
    ∀ v ∈ idxs.foldl (fun buf i => buf.set i color) buf, v < 2 ^ 24 := by
  induction idxs generalizing buf with
  | nil => simpa using hbuf
  | cons i rest ih =>
    rw [List.foldl_cons]
    apply ih
    intro v hv
    rcases List.mem_or_eq_of_mem_set hv with h | h
    · exact hbuf v h
    · rw [h]; exact hc

theorem led_fill_cellsBelow (r g b : Nat) (s : LedState) (hr : r < 256) (hg : g < 256)
    (hb : b < 256) (h : s.cellsBelow) : (led_fill r g b s).cellsBelow := by
  unfold led_fill
  split
  · exact h
  · intro buf hbuf v hv
    cases hs : s.buffer with
    | none => simp [hs] at hbuf
    | some old =>
      simp only [hs, Option.map_some', Option.some.injEq] at hbuf
      rw [← hbuf] at hv
      exact fill_loop_cells _ (pack_color_lt r g b hr hg hb) _ old (h old hs) v hv

/-- One call with 8-bit colour arguments keeps every cell below `2 ^ 24`. -/
theorem run_cellsBelow (c : LedCall) (s : LedState) (h8 : c.eightBit = true)
    (h : s.cellsBelow) : (c.run s).cellsBelow := by
  cases c with
  | init n ok =>
    intro buf hbuf v hv
    simp only [LedCall.run, led_init] at hbuf
    split_ifs at hbuf
    · exact h buf hbuf v hv
    · exact h buf hbuf v hv
    all_goals
      cases ok
      · simp_all
      · simp only [if_true, Option.some.injEq] at hbuf
        rw [← hbuf, List.mem_replicate] at hv
        omega
  | set_pixel_color i r g b =>
    simp only [LedCall.eightBit, Bool.and_eq_true, decide_eq_true_eq] at h8
    simp only [LedCall.run, led_set_pixel_color]
    split
    · exact h
    · intro buf hbuf v hv
      cases hs : s.buffer with
      | none => simp [hs] at hbuf
      | some old =>
        simp only [hs, Option.map_some', Option.some.injEq] at hbuf
        rw [← hbuf] at hv
        rcases List.mem_or_eq_of_mem_set hv with h1 | h1
        · exact h old hs v h1
        · rw [h1]; exact pack_color_lt r g b h8.1.1 h8.1.2 h8.2
  | fill r g b =>
    simp only [LedCall.eightBit, Bool.and_eq_true, decide_eq_true_eq] at h8
    exact led_fill_cellsBelow r g b s h8.1.1 h8.1.2 h8.2 h
  | clear =>
    exact led_fill_cellsBelow 0 0 0 s (by omega) (by omega) (by omega) h
  | shutdown =>
    simp only [LedCall.run, led_shutdown]
    split
    · exact h
    · intro buf hbuf
      split at hbuf <;> simp_all

theorem runCalls_cellsBelow (calls : List LedCall) (s : LedState)
    (h8 : ∀ c ∈ calls, c.eightBit = true) (h : s.cellsBelow) :
    (runCalls s calls).cellsBelow := by
  induction calls generalizing s with
  | nil => exact h
  | cons c rest ih =>
    exact ih (c.run s) (fun d hd => h8 d (by simp [hd]))
      (run_cellsBelow c s (h8 c (by simp)) h)

/-- What `led_init` does on a driver that is not initialised, for `n > 0` and a
successful allocation. -/
theorem led_init_of_fresh (n : Nat) (s : LedState) (hn : 0 < n)
    (hs : s.initialized = false) :
    led_init n true s =
      (0, { buffer := some (List.replicate n 0), num_pixels := n, initialized := true }) := by
  simp [led_init, Nat.pos_iff_ne_zero.mp hn, hs]

/-! ## LED driver: theorems -/

/-- C23: on an initialised strip, for a valid index `i` and 8-bit `r`, `g`, `b`,
`led_get_pixel i` after `led_set_pixel_color i r g b` is `g·65536 + r·256 + b`,
and the bits 23-16, 15-8 and 7-0 of that value, extracted as `led_print_buffer`
does, are `g`, `r` and `b`. -/
theorem set_pixel_then_get (s : LedState) (i r g b : Nat)
    (hready : s.ready = true) (hi : i < s.num_pixels)
    (hr : r < 256) (hg : g < 256) (hb : b < 256) :
    led_get_pixel i (led_set_pixel_color i r g b s) = g * 65536 + r * 256 + b ∧
      extract_g (led_get_pixel i (led_set_pixel_color i r g b s)) = g ∧
      extract_r (led_get_pixel i (led_set_pixel_color i r g b s)) = r ∧
      extract_b (led_get_pixel i (led_set_pixel_color i r g b s)) = b := by
  obtain ⟨hinit, buf, hbuf, hlen⟩ := (ready_iff s).mp hready
  have hget : led_get_pixel i (led_set_pixel_color i r g b s) = g * 65536 + r * 256 + b := by
    have hs : led_set_pixel_color i r g b s =
        { s with buffer := some (buf.set i (pack_color r g b)) } := by
      simp [led_set_pixel_color, is_valid_index, hinit, hi, hbuf]
    rw [hs, pack_color_eq r g b hr hb]
    simp [led_get_pixel, is_valid_index, hinit, hi, List.getD_eq_getElem?_getD,
      List.getElem?_set, hlen]
  rw [hget]
  exact ⟨rfl, extract_g_eq r g b hr hg hb, extract_r_eq r g b hr hb, extract_b_eq r g b hb⟩

/-- C23, witness: pixel 4 of a strip of 10 set to (255, 128, 0). -/
theorem set_pixel_then_get_witness :
    ((led_init 10 true led_state_initial).2.ready = true ∧
        4 < (led_init 10 true led_state_initial).2.num_pixels) ∧
      led_get_pixel 4 (led_set_pixel_color 4 255 128 0 (led_init 10 true led_state_initial).2) =
        128 * 65536 + 255 * 256 + 0 :=
  ⟨by decide,
    (set_pixel_then_get (led_init 10 true led_state_initial).2 4 255 128 0 (by decide)
      (by decide) (by decide) (by decide) (by decide)).1⟩

/-- C24: `led_set_pixel_color index r g b` leaves every pixel other than the one
at `index` as it was (read through `led_get_pixel`, and cell by cell in the
buffer, whose length stays), keeps the pixel count and the initialised flag, and
leaves the whole state unchanged when the driver is not initialised or
`index` is not below the pixel count. -/
theorem set_pixel_changes_one_pixel (s : LedState) (i r g b : Nat) :
    (∀ j, j ≠ i →
        led_get_pixel j (led_set_pixel_color i r g b s) = led_get_pixel j s) ∧
      (∀ buf, s.buffer = some buf →
        ∃ buf2, (led_set_pixel_color i r g b s).buffer = some buf2 ∧
          buf2.length = buf.length ∧ ∀ j, j ≠ i → buf2[j]? = buf[j]?) ∧
      (led_set_pixel_color i r g b s).num_pixels = s.num_pixels ∧
      (led_set_pixel_color i r g b s).initialized = s.initialized ∧
      led_get_pixel_count (led_set_pixel_color i r g b s) = led_get_pixel_count s ∧
      (s.initialized = false ∨ s.num_pixels ≤ i → led_set_pixel_color i r g b s = s) := by
  by_cases hv : is_valid_index i s = true
  · have hs : led_set_pixel_color i r g b s =
        { s with buffer := s.buffer.map fun buf => buf.set i (pack_color r g b) } := by
      simp [led_set_pixel_color, hv]
    rw [hs]
    refine ⟨fun j hj => ?_, fun buf hbuf => ?_, rfl, rfl, rfl, fun h => ?_⟩
    · cases hbuf : s.buffer with
      | none => simp [led_get_pixel, is_valid_index, hbuf]
      | some buf =>
        simp [led_get_pixel, is_valid_index, hbuf, List.getD_eq_getElem?_getD,
          List.getElem?_set_ne (Ne.symm hj)]
    · exact ⟨buf.set i (pack_color r g b), by simp [hbuf], by simp,
        fun j hj => by simp [List.getElem?_set_ne (Ne.symm hj)]⟩
    · simp only [is_valid_index, Bool.and_eq_true, decide_eq_true_eq] at hv
      rcases h with h | h
      · rw [hv.1] at h; exact absurd h (by decide)
      · omega
  · have hs : led_set_pixel_color i r g b s = s := by
      simp only [Bool.not_eq_true] at hv
      simp [led_set_pixel_color, hv]
    rw [hs]
    exact ⟨fun _ _ => rfl, fun buf hbuf => ⟨buf, hbuf, rfl, fun _ _ => rfl⟩, rfl, rfl, rfl,
      fun _ => rfl⟩

/-- C25: for `n > 0`, `led_init n` on a driver that is not initialised, the
allocation succeeding, returns 0; afterwards the pixel count is `n`, every
pixel `0 … n-1` reads 0 and the buffer is `n` zero cells. -/
theorem led_init_fresh (n : Nat) (s : LedState) (hn : 0 < n)
    (hs : s.initialized = false) :
    (led_init n true s).1 = 0 ∧
      led_get_pixel_count (led_init n true s).2 = n ∧
      (∀ i, i < n → led_get_pixel i (led_init n true s).2 = 0) ∧
      led_get_buffer (led_init n true s).2 = some (List.replicate n 0) := by
  rw [led_init_of_fresh n s hn hs]
  refine ⟨rfl, rfl, fun i hi => ?_, rfl⟩
  simp [led_get_pixel, is_valid_index, hi, List.getD_eq_getElem?_getD, List.getElem?_replicate]

/-- C25, witness: `led_init 10` on the initial driver state. -/
theorem led_init_fresh_witness :
    (0 < 10 ∧ led_state_initial.initialized = false) ∧
      (led_init 10 true led_state_initial).1 = 0 ∧
      led_get_pixel_count (led_init 10 true led_state_initial).2 = 10 :=
  ⟨by decide, (led_init_fresh 10 led_state_initial (by decide) rfl).1,
    (led_init_fresh 10 led_state_initial (by decide) rfl).2.1⟩

/-- C26: `led_init` returns -1 and leaves the state as it is when `num_pixels` is
0 or the driver is already initialised; after `led_shutdown` the driver is not
initialised and the pixel count reads 0, and `led_init n` with `n > 0` (the
allocation succeeding) then returns 0 with pixel count `n`. -/
theorem led_init_rejects_and_restarts (n : Nat) (allocOk : Bool) (s : LedState) :
    (n = 0 ∨ s.initialized = true → led_init n allocOk s = (-1, s)) ∧
      led_get_pixel_count (led_shutdown s) = 0 ∧
      (led_shutdown s).initialized = false ∧
      (0 < n → (led_init n true (led_shutdown s)).1 = 0 ∧
        led_get_pixel_count (led_init n true (led_shutdown s)).2 = n) := by
  have hsd : (led_shutdown s).initialized = false := by
    cases hi : s.initialized <;> simp [led_shutdown, hi]
  refine ⟨fun h => ?_, by simp [led_get_pixel_count, hsd], hsd, fun hn => ?_⟩
  · rcases h with h | h
    · simp [led_init, h]
    · simp [led_init, h]
  · rw [led_init_of_fresh n _ hn hsd]
    exact ⟨rfl, rfl⟩

/-- C27: on an initialised strip, whatever the buffer holds, after `led_fill r g b`
(8-bit components) every pixel is `g·65536 + r·256 + b` and after `led_clear`
every pixel is 0; both keep the pixel count. -/
theorem fill_and_clear_set_every_pixel (s : LedState) (r g b : Nat)
    (hready : s.ready = true) (hr : r < 256) (hb : b < 256) :
    (∀ i, i < s.num_pixels → led_get_pixel i (led_fill r g b s) = g * 65536 + r * 256 + b) ∧
      (∀ i, i < s.num_pixels → led_get_pixel i (led_clear s) = 0) ∧
      led_get_pixel_count (led_fill r g b s) = led_get_pixel_count s ∧
      led_get_pixel_count (led_clear s) = led_get_pixel_count s ∧
      led_get_buffer (led_fill r g b s) =
        some (List.replicate s.num_pixels (g * 65536 + r * 256 + b)) ∧
      led_get_buffer (led_clear s) = some (List.replicate s.num_pixels 0) := by
  obtain ⟨hinit, buf, hbuf, hlen⟩ := (ready_iff s).mp hready
  have hfill : ∀ r g b, led_fill r g b s =
      { s with buffer := some (List.replicate s.num_pixels (pack_color r g b)) } := by
    intro r g b
    simp only [led_fill, hinit, hbuf, Option.map_some', ← hlen, fill_loop]
    simp
  have h0 : pack_color 0 0 0 = 0 := by decide
  unfold led_clear
  rw [hfill, hfill, h0, pack_color_eq r g b hr hb]
  refine ⟨fun i hi => ?_, fun i hi => ?_, ?_, ?_, ?_, ?_⟩
  · simp [led_get_pixel, is_valid_index, hinit, hi, List.getD_eq_getElem?_getD,
      List.getElem?_replicate]
  · simp [led_get_pixel, is_valid_index, hinit, hi, List.getD_eq_getElem?_getD,
      List.getElem?_replicate]
  · simp [led_get_pixel_count]
  · simp [led_get_pixel_count]
  · simp [led_get_buffer, hinit]
  · simp [led_get_buffer, hinit]

/-- C27, witness: a strip of 10 with one pixel set, then filled with green. -/
theorem fill_and_clear_set_every_pixel_witness :
    (led_set_pixel_color 2 9 9 9 (led_init 10 true led_state_initial).2).ready = true ∧
      led_get_buffer
          (led_fill 0 255 0 (led_set_pixel_color 2 9 9 9 (led_init 10 true led_state_initial).2)) =
        some (List.replicate 10 (255 * 65536 + 0 * 256 + 0)) :=
  ⟨by decide,
    (fill_and_clear_set_every_pixel
      (led_set_pixel_color 2 9 9 9 (led_init 10 true led_state_initial).2) 0 255 0
      (by decide) (by decide) (by decide)).2.2.2.2.1⟩

/-- C28: after any sequence of `led_init`, `led_set_pixel_color`, `led_fill`,
`led_clear` and `led_shutdown` calls from the initial driver state, the colour
arguments being 8-bit, every cell of the buffer is below `2 ^ 24`, that is its
bits 31-24 are 0. -/
theorem stored_pixels_below_two_pow_24 (calls : List LedCall)
    (h8 : ∀ c ∈ calls, c.eightBit = true) :
    ∀ buf, (runCalls led_state_initial calls).buffer = some buf →
      ∀ v ∈ buf, v < 2 ^ 24 ∧ v >>> 24 = 0 := by
  intro buf hbuf v hv
  have hlt := runCalls_cellsBelow calls led_state_initial h8
    (fun b hb => by simp [led_state_initial] at hb) buf hbuf v hv
  exact ⟨hlt, by rw [Nat.shiftRight_eq_div_pow]; exact Nat.div_eq_of_lt hlt⟩

/-- C28, witness: a short sequence of calls on a strip of 3. -/
theorem stored_pixels_below_two_pow_24_witness :
    (∀ c ∈ [LedCall.init 3 true, .fill 255 255 255, .set_pixel_color 1 255 128 0, .clear,
        .set_pixel_color 0 1 2 3], c.eightBit = true) ∧
      (runCalls led_state_initial
          [.init 3 true, .fill 255 255 255, .set_pixel_color 1 255 128 0, .clear,
            .set_pixel_color 0 1 2 3]).buffer = some [131331, 0, 0] ∧
      ∀ v ∈ [131331, 0, 0], v < 2 ^ 24 ∧ v >>> 24 = 0 :=
  ⟨by decide, by decide,
    stored_pixels_below_two_pow_24
      [.init 3 true, .fill 255 255 255, .set_pixel_color 1 255 128 0, .clear,
        .set_pixel_color 0 1 2 3] (by decide) [131331, 0, 0] (by decide)⟩

/-- C29: the constants BLACK, WHITE, RED, GREEN, BLUE, YELLOW, CYAN and MAGENTA are
`pack_color` of their RGB triple, but `LED_COLOR_ORANGE` (0x00FF8000) is not
`pack_color 255 128 0` (0x0080FF00): it is `pack_color 128 255 0`; and
`LED_COLOR_PURPLE` (0x008000FF) is not `pack_color 128 0 255` (0x000080FF): it
is `pack_color 0 128 255`. The two are written red first, 0x00RRGGBB. -/
theorem color_constants_orange_purple_misordered :
    LED_COLOR_BLACK = pack_color 0 0 0 ∧
      LED_COLOR_WHITE = pack_color 255 255 255 ∧
      LED_COLOR_RED = pack_color 255 0 0 ∧
      LED_COLOR_GREEN = pack_color 0 255 0 ∧
      LED_COLOR_BLUE = pack_color 0 0 255 ∧
      LED_COLOR_YELLOW = pack_color 255 255 0 ∧
      LED_COLOR_CYAN = pack_color 0 255 255 ∧
      LED_COLOR_MAGENTA = pack_color 255 0 255 ∧
      LED_COLOR_ORANGE ≠ pack_color 255 128 0 ∧
      LED_COLOR_ORANGE = pack_color 128 255 0 ∧
      pack_color 255 128 0 = 0x0080FF00 ∧
      LED_COLOR_PURPLE ≠ pack_color 128 0 255 ∧
      LED_COLOR_PURPLE = pack_color 0 128 255 ∧
      pack_color 128 0 255 = 0x000080FF := by
  decide

end LedDriver

namespace TaskQueue

/-! ## Task queue: basic facts -/

theorem cstring_append_zero (xs rest : List Nat) (h : ∀ b ∈ xs, b ≠ 0) :
    cstring (xs ++ 0 :: rest) = xs := by
  unfold cstring
  induction xs with
  | nil => simp
  | cons x xs ih =>
    have hx : x ≠ 0 := h x (by simp)
    simpa [List.takeWhile_cons, hx] using ih (fun b hb => h b (by simp [hb]))

theorem cstring_no_zero (src : List Nat) : ∀ b ∈ cstring src, b ≠ 0 := by
  intro b hb
  have := List.mem_takeWhile_imp hb
  simpa using this

/-- The array written by `queue_add_task` holds the description cut to 49 bytes. -/
theorem cstring_strncpy (src : List Nat) (n : Nat) :
    cstring (strncpy src n ++ [0]) = (cstring src).take n := by
  unfold strncpy
  have h : ∀ b ∈ (cstring src).take n, b ≠ 0 :=
    fun b hb => cstring_no_zero src b (List.mem_of_mem_take hb)
  cases hk : n - (cstring src).length with
  | zero => simpa using cstring_append_zero _ [] h
  | succ k =>
    rw [List.replicate_succ, List.append_assoc]
    exact cstring_append_zero _ _ h

theorem strncpy_length (src : List Nat) (n : Nat) : (strncpy src n).length = n := by
  unfold strncpy
  simp [List.length_take]
  omega

theorem chain_lt {heap : List TaskNode_t} {start : Option Nat} {items : List (Nat × List Nat)}
    (h : chain heap start items) : ∀ p ∈ items.map Prod.fst, p < heap.length := by
  induction items generalizing start with
  | nil => simp
  | cons it rest ih =>
    obtain ⟨p, d⟩ := it
    obtain ⟨-, nx, hnode, hrest⟩ := h
    intro x hx
    simp only [List.map_cons, List.mem_cons] at hx
    rcases hx with hx | hx
    · rw [hx]
      by_contra hge
      rw [List.getElem?_eq_none (by omega)] at hnode
      exact absurd hnode (by simp)
    · exact ih hrest x hx

theorem setNext_getElem?_ne (heap : List TaskNode_t) (p j : Nat) (v : Option Nat)
    (h : j ≠ p) : (setNext heap p v)[j]? = heap[j]? := by
  unfold setNext
  split
  · rw [List.getElem?_set_ne (Ne.symm h)]
  · rfl

theorem setNext_getElem?_eq (heap : List TaskNode_t) (p : Nat) (v : Option Nat)
    (node : TaskNode_t) (h : heap[p]? = some node) :
    (setNext heap p v)[p]? = some { node with next := v } := by
  have hlt : p < heap.length := by
    by_contra hge
    rw [List.getElem?_eq_none (by omega)] at h
    exact absurd h (by simp)
  unfold setNext
  rw [h]
  simp [List.getElem?_set_self, hlt]

/-- Writing the link of a node outside the list leaves the list as it is. -/
theorem chain_setNext_of_not_mem (heap : List TaskNode_t) (start : Option Nat)
    (items : List (Nat × List Nat)) (p : Nat) (v : Option Nat)
    (h : chain heap start items) (hp : p ∉ items.map Prod.fst) :
    chain (setNext heap p v) start items := by
  induction items generalizing start with
  | nil => exact h
  | cons it rest ih =>
    obtain ⟨a, d⟩ := it
    obtain ⟨hs, nx, hnode, hrest⟩ := h
    simp only [List.map_cons, List.mem_cons, not_or] at hp
    refine ⟨hs, nx, ?_, ih nx hrest hp.2⟩
    rw [setNext_getElem?_ne heap p a v (Ne.symm hp.1)]
    exact hnode

/-- Allocating one more node leaves the list as it is. -/
theorem chain_append (heap : List TaskNode_t) (node : TaskNode_t) (start : Option Nat)
    (items : List (Nat × List Nat)) (h : chain heap start items) :
    chain (heap ++ [node]) start items := by
  induction items generalizing start with
  | nil => exact h
  | cons it rest ih =>
    obtain ⟨a, d⟩ := it
    obtain ⟨hs, nx, hnode, hrest⟩ := h
    refine ⟨hs, nx, ?_, ih nx hrest⟩
    have hlt : a < heap.length := by
      by_contra hge
      rw [List.getElem?_eq_none (by omega)] at hnode
      exact absurd hnode (by simp)
    rw [List.getElem?_append_left hlt]
    exact hnode

/-- Linking a freshly allocated node behind the last node of a non-empty list. -/
theorem chain_link_last (heap : List TaskNode_t) (d : List Nat) (start : Option Nat)
    (items : List (Nat × List Nat)) (t : Nat)
    (h : chain heap start items) (hnd : (items.map Prod.fst).Nodup)
    (ht : (items.map Prod.fst).getLast? = some t) :
    chain (setNext (heap ++ [{ task_description := d, next := none }]) t (some heap.length))
      start (items ++ [(heap.length, d)]) := by
  induction items generalizing start with
  | nil => simp at ht
  | cons it rest ih =>
    obtain ⟨a, da⟩ := it
    obtain ⟨hs, nx, hnode, hrest⟩ := h
    have ha : a < heap.length := by
      by_contra hge
      rw [List.getElem?_eq_none (by omega)] at hnode
      exact absurd hnode (by simp)
    simp only [List.map_cons, List.nodup_cons] at hnd
    cases rest with
    | nil =>
      simp only [List.map_cons, List.map_nil, List.getLast?_singleton, Option.some.injEq] at ht
      subst ht
      have hnx : nx = none := hrest
      subst hnx
      refine ⟨hs, some heap.length, ?_, rfl, none, ?_, rfl⟩
      · rw [setNext_getElem?_eq _ a _ ⟨da, none⟩
          (by rw [List.getElem?_append_left ha]; exact hnode)]
      · rw [setNext_getElem?_ne _ a _ _ (by omega)]
        simp
    | cons b rest2 =>
      have ht2 : (List.map Prod.fst (b :: rest2)).getLast? = some t := by
        simpa [List.getLast?_cons_cons] using ht
      have hta : t ≠ a := by
        intro heq
        have hmem : t ∈ List.map Prod.fst (b :: rest2) := List.mem_of_getLast?_eq_some ht2
        rw [heq] at hmem
        exact hnd.1 hmem
      refine ⟨hs, nx, ?_, ih nx hrest hnd.2 ht2⟩
      rw [setNext_getElem?_ne _ t a _ (Ne.symm hta), List.getElem?_append_left ha]
      exact hnode

/-- Adding a task to a queue that holds `items` makes it hold one more item:
the fresh node, with the description cut and terminated. -/
theorem queue_add_task_holds (q : QueueState) (items : List (Nat × List Nat))
    (d : List Nat) (h : Holds q items) :
    Holds (queue_add_task (some d) true q)
      (items ++ [(q.heap.length, strncpy d (TASK_DESC_SIZE - 1) ++ [0])]) := by
  obtain ⟨hchain, hnd, htail⟩ := h
  have hfresh : q.heap.length ∉ items.map Prod.fst := fun hmem =>
    absurd (chain_lt hchain _ hmem) (by omega)
  have hnd2 : (List.map Prod.fst
      (items ++ [(q.heap.length, strncpy d (TASK_DESC_SIZE - 1) ++ [0])])).Nodup := by
    rw [List.map_append, List.nodup_append]
    refine ⟨hnd, by simp, ?_⟩
    intro a ha hb
    simp only [List.map_cons, List.map_nil, List.mem_singleton] at hb
    exact hfresh (hb ▸ ha)
  have hlast : (List.map Prod.fst
      (items ++ [(q.heap.length, strncpy d (TASK_DESC_SIZE - 1) ++ [0])])).getLast? =
      some q.heap.length := by
    simp
  cases items with
  | nil =>
    have hh : q.queue_head = none := hchain
    simp only [queue_add_task, Bool.not_true, Bool.false_eq_true, if_false, hh]
    refine ⟨?_, hnd2, ?_⟩
    · exact ⟨rfl, none, by simp, rfl⟩
    · simp
  | cons it rest =>
    obtain ⟨a, da⟩ := it
    have hh : q.queue_head = some a := hchain.1
    obtain ⟨t, ht⟩ : ∃ t, (List.map Prod.fst ((a, da) :: rest)).getLast? = some t := by
      cases hl : (List.map Prod.fst ((a, da) :: rest)).getLast? with
      | none => simp at hl
      | some t => exact ⟨t, rfl⟩
    rw [ht] at htail
    simp only [queue_add_task, Bool.not_true, Bool.false_eq_true, if_false, hh, htail]
    refine ⟨?_, hnd2, hlast.symm⟩
    have := chain_link_last q.heap (strncpy d (TASK_DESC_SIZE - 1) ++ [0]) q.queue_head
      ((a, da) :: rest) t hchain hnd ht
    rw [hh] at this
    exact this

/-- Taking the next task from a queue that holds `(p, d) :: rest` returns `p`,
leaves a queue that holds `rest`, and the node returned has description `d`
and a `NULL` link. -/
theorem queue_get_next_task_holds (q : QueueState) (p : Nat) (d : List Nat)
    (rest : List (Nat × List Nat)) (h : Holds q ((p, d) :: rest)) :
    (queue_get_next_task q).1 = some p ∧
      (queue_get_next_task q).2.heap[p]? = some { task_description := d, next := none } ∧
      Holds (queue_get_next_task q).2 rest := by
  obtain ⟨⟨hh, nx, hnode, hrest⟩, hnd, htail⟩ := h
  simp only [List.map_cons, List.nodup_cons] at hnd
  have hq : queue_get_next_task q =
      (some p,
        { heap := setNext q.heap p none
          queue_head := nx
          queue_tail := if nx = none then none else q.queue_tail }) := by
    simp only [queue_get_next_task, hh, hnode, Option.bind_some]
    split <;> simp_all
  rw [hq]
  refine ⟨rfl, setNext_getElem?_eq _ p none _ hnode, ?_, hnd.2, ?_⟩
  · exact chain_setNext_of_not_mem _ _ _ p none hrest hnd.1
  · cases rest with
    | nil =>
      have hnx : nx = none := hrest
      simp [hnx]
    | cons b rest2 =>
      have hnx : nx = some b.1 := hrest.1
      simp only [hnx, if_false, htail, reduceCtorEq]
      simp [List.getLast?_cons_cons]

/-- A queue that holds no item is empty. -/
theorem holds_nil_empty (q : QueueState) (h : Holds q []) : queue_is_empty q = 1 := by
  have hh : q.queue_head = none := h.1
  simp [queue_is_empty, hh]

theorem addAll_holds (ds : List (List Nat)) (q : QueueState) (items : List (Nat × List Nat))
    (h : Holds q items) :
    ∃ added : List (Nat × List Nat),
      added.map Prod.snd = ds.map (fun d => strncpy d (TASK_DESC_SIZE - 1) ++ [0]) ∧
        Holds (addAll ds q) (items ++ added) := by
  induction ds generalizing q items with
  | nil => exact ⟨[], rfl, by simpa [addAll] using h⟩
  | cons d rest ih =>
    obtain ⟨added, hmap, hholds⟩ := ih (queue_add_task (some d) true q) _
      (queue_add_task_holds q items d h)
    refine ⟨(q.heap.length, strncpy d (TASK_DESC_SIZE - 1) ++ [0]) :: added, ?_, ?_⟩
    · simp [hmap]
    · simpa [addAll, List.append_assoc] using hholds

theorem getMany_holds (items : List (Nat × List Nat)) (q : QueueState) (h : Holds q items) :
    (getMany items.length q).1 =
        items.map (fun it => some { task_description := it.2, next := none }) ∧
      Holds (getMany items.length q).2 [] := by
  induction items generalizing q with
  | nil => exact ⟨rfl, h⟩
  | cons it rest ih =>
    obtain ⟨p, d⟩ := it
    obtain ⟨h1, h2, h3⟩ := queue_get_next_task_holds q p d rest h
    obtain ⟨ih1, ih2⟩ := ih _ h3
    simp only [List.length_cons, getMany, List.map_cons]
    refine ⟨?_, ih2⟩
    rw [h1, ih1]
    simp [h2]

theorem cstring_of_no_zero (d : List Nat) (h : ∀ b ∈ d, b ≠ 0) : cstring d = d := by
  unfold cstring
  rw [List.takeWhile_eq_self_iff]
  intro b hb
  simpa using h b hb

/-- Distinct pointers into the heap are at most as many as its nodes. -/
theorem nodup_length_le (ps : List Nat) (n : Nat) (hnd : ps.Nodup) (hlt : ∀ p ∈ ps, p < n) :
    ps.length ≤ n := by
  have hsub : ps ⊆ List.range n := fun p hp => List.mem_range.mpr (hlt p hp)
  have := (List.subperm_of_subset hnd hsub).length_le
  simpa using this

/-- The loop of `queue_destroy` ends on a well-formed list and frees its nodes. -/
theorem destroyLoop_of_chain (heap : List TaskNode_t) (items : List (Nat × List Nat))
    (start : Option Nat) (fuel : Nat) (h : chain heap start items) (hf : items.length < fuel) :
    destroyLoop heap fuel start = some (items.map Prod.fst) := by
  induction items generalizing start fuel with
  | nil =>
    have hs : start = none := h
    subst hs
    cases fuel <;> rfl
  | cons it rest ih =>
    obtain ⟨p, d⟩ := it
    obtain ⟨hs, nx, hnode, hrest⟩ := h
    subst hs
    cases fuel with
    | zero => simp at hf
    | succ k =>
      simp only [List.length_cons, Nat.add_lt_add_iff_right] at hf
      simp [destroyLoop, hnode, ih nx k hrest hf]

/-- On a queue that holds `items`, `queue_destroy` returns, having freed the
nodes of the items, and leaves a queue that holds nothing. -/
theorem queue_destroy_holds (q : QueueState) (items : List (Nat × List Nat))
    (h : Holds q items) :
    ∃ q2, queue_destroy q = some (items.map Prod.fst, q2) ∧ Holds q2 [] := by
  obtain ⟨hchain, hnd, -⟩ := h
  have hlen : items.length < q.heap.length + 1 := by
    have := nodup_length_le _ _ hnd (chain_lt hchain)
    simp only [List.length_map] at this
    omega
  refine ⟨{ q with queue_head := none, queue_tail := none }, ?_, rfl, by simp, rfl⟩
  simp [queue_destroy, destroyLoop_of_chain q.heap items q.queue_head _ hchain hlen]

/-- A queue that holds no item gives `NULL` and stays as it is. -/
theorem queue_get_next_task_of_nil (q : QueueState) (h : Holds q []) :
    queue_get_next_task q = (none, q) := by
  have hh : q.queue_head = none := h.1
  simp [queue_get_next_task, hh]

/-- Every sequence of calls returns, and the queue then holds the tasks pending. -/
theorem runQueueCalls_holds (calls : List QueueCall) (q : QueueState)
    (items : List (Nat × List Nat)) (tasks : List (List Nat)) (h : Holds q items)
    (hmap : items.map Prod.snd = tasks.map (fun d => strncpy d (TASK_DESC_SIZE - 1) ++ [0])) :
    ∃ q2 items2, runQueueCalls calls q = some q2 ∧ Holds q2 items2 ∧
      items2.map Prod.snd =
        (calls.foldl (fun tasks call => call.pending tasks) tasks).map
          (fun d => strncpy d (TASK_DESC_SIZE - 1) ++ [0]) := by
  induction calls generalizing q items tasks with
  | nil => exact ⟨q, items, rfl, h, hmap⟩
  | cons call rest ih =>
    cases call with
    | add description allocOk =>
      cases description with
      | none => exact ih q items tasks h hmap
      | some d =>
        cases allocOk with
        | false => exact ih q items tasks h hmap
        | true =>
          exact ih _ _ (tasks ++ [d]) (queue_add_task_holds q items d h) (by simp [hmap])
    | get =>
      cases items with
      | nil =>
        have ht : tasks = [] := by simpa using hmap.symm
        have hq := queue_get_next_task_of_nil q h
        have := ih q [] [] h rfl
        simpa [runQueueCalls, QueueCall.run, QueueCall.pending, hq, ht] using this
      | cons it items2 =>
        obtain ⟨p, d⟩ := it
        cases tasks with
        | nil => simp at hmap
        | cons t tasks2 =>
          simp only [List.map_cons, List.cons.injEq] at hmap
          obtain ⟨-, -, h3⟩ := queue_get_next_task_holds q p d items2 h
          exact ih _ items2 tasks2 h3 hmap.2
    | destroy =>
      obtain ⟨q2, hq2, hholds⟩ := queue_destroy_holds q items h
      have := ih q2 [] [] hholds rfl
      simpa [runQueueCalls, QueueCall.run, QueueCall.pending, hq2] using this

/-- What the two query functions answer on a queue that holds `items`. -/
theorem empty_reports_of_holds (q : QueueState) (items : List (Nat × List Nat))
    (h : Holds q items) :
    ((queue_get_next_task q).1 = none ↔ items = []) ∧
      (items = [] → (queue_get_next_task q).2 = q) ∧
      (queue_is_empty q = 1 ↔ items = []) ∧ (queue_is_empty q = 0 ↔ items ≠ []) := by
  cases items with
  | nil =>
    have hh : q.queue_head = none := h.1
    simp [queue_get_next_task, queue_is_empty, hh]
  | cons it rest =>
    have hh : q.queue_head = some it.1 := h.1.1
    simp [queue_get_next_task, queue_is_empty, hh]

/-! ## Task queue: theorems -/

/-- C30: descriptions `d1 … dn` (not `NULL`) added with `queue_add_task` to an
empty queue, every allocation succeeding, are given back by `n` successive
`queue_get_next_task` calls in the same order: the k-th call returns a node with
a `NULL` link whose array holds the k-th description cut to its first 49 bytes
and terminated (for a description without zero byte: `d.take 49`); the queue is
then empty and one more call returns `NULL`. -/
theorem queue_is_fifo (heap : List TaskNode_t) (ds : List (List Nat)) :
    (getMany ds.length (addAll ds (emptyQueue heap))).1 =
        ds.map (fun d =>
          some { task_description := strncpy d (TASK_DESC_SIZE - 1) ++ [0], next := none }) ∧
      (∀ d, cstring (strncpy d (TASK_DESC_SIZE - 1) ++ [0]) = (cstring d).take 49) ∧
      (∀ d, (∀ b ∈ d, b ≠ 0) → cstring (strncpy d (TASK_DESC_SIZE - 1) ++ [0]) = d.take 49) ∧
      queue_is_empty (getMany ds.length (addAll ds (emptyQueue heap))).2 = 1 ∧
      (queue_get_next_task (getMany ds.length (addAll ds (emptyQueue heap))).2).1 = none := by
  have h0 : Holds (emptyQueue heap) [] := ⟨rfl, by simp, rfl⟩
  obtain ⟨added, hmap, hholds⟩ := addAll_holds ds (emptyQueue heap) [] h0
  rw [List.nil_append] at hholds
  have hlen : added.length = ds.length := by
    have := congrArg List.length hmap
    simpa using this
  obtain ⟨hget, hempty⟩ := getMany_holds added _ hholds
  rw [hlen] at hget hempty
  have hcut : ∀ d, cstring (strncpy d (TASK_DESC_SIZE - 1) ++ [0]) = (cstring d).take 49 :=
    fun d => cstring_strncpy d 49
  refine ⟨?_, hcut, fun d hd => by rw [hcut, cstring_of_no_zero d hd], holds_nil_empty _ hempty,
    ?_⟩
  · rw [hget]
    have : added.map (fun it => some ({ task_description := it.2, next := none } : TaskNode_t)) =
        (added.map Prod.snd).map (fun d => some { task_description := d, next := none }) := by
      simp
    rw [this, hmap]
    simp
  · have hh : (getMany ds.length (addAll ds (emptyQueue heap))).2.queue_head = none := hempty.1
    simp [queue_get_next_task, hh]

/-- C31: after any sequence of `queue_add_task`, `queue_get_next_task` and
`queue_destroy` calls on a queue that started empty (`NULL` descriptions and
failing allocations included), every call has returned and the list from
`queue_head` holds the tasks pending, oldest first. In that state
`queue_get_next_task` returns `NULL` exactly when no task is pending and then
leaves the queue as it is, and `queue_is_empty` returns 1 exactly when no task
is pending and 0 exactly when one is. -/
theorem queue_empty_reported_after_any_calls (heap : List TaskNode_t) (calls : List QueueCall) :
    ∃ q items, runQueueCalls calls (emptyQueue heap) = some q ∧ Holds q items ∧
      items.map Prod.snd =
        (pendingAfter calls).map (fun d => strncpy d (TASK_DESC_SIZE - 1) ++ [0]) ∧
      ((queue_get_next_task q).1 = none ↔ pendingAfter calls = []) ∧
      (pendingAfter calls = [] → (queue_get_next_task q).2 = q) ∧
      (queue_is_empty q = 1 ↔ pendingAfter calls = []) ∧
      (queue_is_empty q = 0 ↔ pendingAfter calls ≠ []) := by
  have h0 : Holds (emptyQueue heap) [] := ⟨rfl, by simp, rfl⟩
  obtain ⟨q, items, hrun, hholds, hmap⟩ := runQueueCalls_holds calls (emptyQueue heap) [] [] h0 rfl
  have hnil : items = [] ↔ pendingAfter calls = [] := by
    unfold pendingAfter
    constructor
    · intro hi
      rw [hi] at hmap
      simpa using hmap.symm
    · intro hp
      rw [hp] at hmap
      simpa using hmap
  obtain ⟨h1, h2, h3, h4⟩ := empty_reports_of_holds q items hholds
  refine ⟨q, items, hrun, hholds, hmap, h1.trans hnil, fun hp => h2 (hnil.mpr hp), h3.trans hnil,
    h4.trans (not_congr hnil)⟩

end TaskQueue

namespace ActivityLog

open TaskQueue (cstring strncpy)

/-! ## Activity log: basic facts -/

/-- A list stays what it is on a heap that keeps the entry and the `next` link
of every node. -/
theorem history_chain_of_agree (heap heap2 : List HistoryNode_t)
    (hagree : ∀ (p : Nat) (node : HistoryNode_t), heap[p]? = some node →
      ∃ node2 : HistoryNode_t, heap2[p]? = some node2 ∧ node2.log_entry = node.log_entry ∧
        node2.next = node.next)
    (start : Option Nat) (items : List (List Nat)) (h : chain heap start items) :
    chain heap2 start items := by
  induction items generalizing start with
  | nil => exact h
  | cons d rest ih =>
    obtain ⟨p, node, hs, hnode, hd, hrest⟩ := h
    obtain ⟨node2, hnode2, he, hn⟩ := hagree p node hnode
    exact ⟨p, node2, hs, hnode2, he.trans hd, by rw [hn]; exact ih _ hrest⟩

theorem history_getElem?_lt {heap : List HistoryNode_t} {p : Nat} {node : HistoryNode_t}
    (h : heap[p]? = some node) : p < heap.length := by
  by_contra hge
  rw [List.getElem?_eq_none (by omega)] at h
  exact absurd h (by simp)

theorem setPrev_getElem? (heap : List HistoryNode_t) (p j : Nat) (v : Option Nat)
    (node : HistoryNode_t) (h : heap[j]? = some node) :
    ∃ node2, (setPrev heap p v)[j]? = some node2 ∧ node2.log_entry = node.log_entry ∧
      node2.next = node.next := by
  unfold setPrev
  by_cases hj : j = p
  · subst hj
    rw [h]
    exact ⟨{ node with prev := v },
      by simp [List.getElem?_set_self, history_getElem?_lt h], rfl, rfl⟩
  · split
    · exact ⟨node, by rw [List.getElem?_set_ne (Ne.symm hj)]; exact h, rfl, rfl⟩
    · exact ⟨node, h, rfl, rfl⟩

theorem history_setNext_getElem?_ne (heap : List HistoryNode_t) (p j : Nat) (v : Option Nat)
    (h : j ≠ p) : (setNext heap p v)[j]? = heap[j]? := by
  unfold setNext
  split
  · rw [List.getElem?_set_ne (Ne.symm h)]
  · rfl

theorem history_setNext_getElem?_eq (heap : List HistoryNode_t) (p : Nat) (v : Option Nat)
    (node : HistoryNode_t) (h : heap[p]? = some node) :
    (setNext heap p v)[p]? = some { node with next := v } := by
  unfold setNext
  rw [h]
  simp [List.getElem?_set_self, history_getElem?_lt h]

/-- Logging an entry puts it, cut and terminated, before the entries held. -/
theorem history_log_activity_chain (s : HistoryState) (items : List (List Nat)) (e : List Nat)
    (h : chain s.heap s.history_head items) :
    chain (history_log_activity (some e) true s).heap
        (history_log_activity (some e) true s).history_head
        ((strncpy e (LOG_ENTRY_SIZE - 1) ++ [0]) :: items) ∧
      (history_log_activity (some e) true s).heap.length = s.heap.length + 1 := by
  cases items with
  | nil =>
    have hh : s.history_head = none := h
    simp only [history_log_activity, Bool.not_true, Bool.false_eq_true, if_false, hh]
    refine ⟨⟨s.heap.length,
      { log_entry := strncpy e (LOG_ENTRY_SIZE - 1) ++ [0], next := none, prev := none },
      rfl, by simp, rfl, rfl⟩, by simp⟩
  | cons d rest =>
    obtain ⟨p, node, hs, hnode, hd, hrest⟩ := h
    have hp : p < s.heap.length := history_getElem?_lt hnode
    simp only [history_log_activity, Bool.not_true, Bool.false_eq_true, if_false, hs]
    have hnew : ∀ node0 : HistoryNode_t, (s.heap ++ [node0])[s.heap.length]? = some node0 := by
      intro node0
      simp
    have hnew := hnew
      { log_entry := strncpy e (LOG_ENTRY_SIZE - 1) ++ [0], next := none, prev := none }
    have hnew2 := history_setNext_getElem?_eq _ s.heap.length (some p) _ hnew
    obtain ⟨n2, hn2, he2, hx2⟩ := setPrev_getElem? _ p s.heap.length (some s.heap.length) _ hnew2
    constructor
    · refine ⟨s.heap.length, n2, rfl, hn2, he2, ?_⟩
      rw [hx2]
      apply history_chain_of_agree s.heap _ _ (some p) (d :: rest) ⟨p, node, rfl, hnode, hd, hrest⟩
      intro j nj hj
      have hjlt : j < s.heap.length := history_getElem?_lt hj
      apply setPrev_getElem?
      rw [history_setNext_getElem?_ne _ _ _ _ (by omega), List.getElem?_append_left hjlt]
      exact hj
    · have hlen : ∀ (hp2 : List HistoryNode_t) (a : Nat) (v : Option Nat),
          (setPrev hp2 a v).length = hp2.length := by
        intro hp2 a v
        unfold setPrev
        split <;> simp
      have hlen2 : ∀ (hp2 : List HistoryNode_t) (a : Nat) (v : Option Nat),
          (setNext hp2 a v).length = hp2.length := by
        intro hp2 a v
        unfold setNext
        split <;> simp
      rw [hlen, hlen2]
      simp

/-- Logging entries one after the other piles them up before the entries held,
the last one logged first. -/
theorem logAll_chain (es : List (List Nat)) (s : HistoryState) (items : List (List Nat))
    (h : chain s.heap s.history_head items) :
    chain (logAll es s).heap (logAll es s).history_head
        (es.reverse.map (fun e => strncpy e (LOG_ENTRY_SIZE - 1) ++ [0]) ++ items) ∧
      (logAll es s).heap.length = s.heap.length + es.length := by
  induction es generalizing s items with
  | nil => exact ⟨by simpa [logAll] using h, rfl⟩
  | cons e rest ih =>
    obtain ⟨h1, h2⟩ := history_log_activity_chain s items e h
    obtain ⟨h3, h4⟩ := ih _ _ h1
    refine ⟨?_, ?_⟩
    · simpa [logAll, List.append_assoc] using h3
    · have : logAll (e :: rest) s = logAll rest (history_log_activity (some e) true s) := rfl
      rw [this, h4, h2, List.length_cons]
      omega

/-- The loop of `history_print_all` ends on a well-formed list and prints the
strings of its entries, numbered from `index` on. -/
theorem printLoop_of_chain (heap : List HistoryNode_t) (items : List (List Nat))
    (start : Option Nat) (fuel index : Nat) (h : chain heap start items)
    (hf : items.length < fuel) :
    printLoop heap fuel start index = some ((items.map cstring).enumFrom index) := by
  induction items generalizing start fuel index with
  | nil =>
    have hs : start = none := h
    subst hs
    cases fuel <;> rfl
  | cons d rest ih =>
    obtain ⟨p, node, hs, hnode, hd, hrest⟩ := h
    subst hs
    cases fuel with
    | zero => simp at hf
    | succ k =>
      simp only [List.length_cons, Nat.add_lt_add_iff_right] at hf
      simp [printLoop, hnode, ih node.next k (index + 1) hrest hf, hd, List.enumFrom]

/-! ## Activity log: theorems -/

/-- C32: after `history_log_activity` has been called with the entries
`e1 … en` (not `NULL`) on an empty log, every allocation succeeding,
`history_print_all` ends and lists, numbered 1 to n from the head, the entries
`en, …, e1`: newest first, oldest last, each one cut to its first 49 bytes (for
an entry without zero byte: `e.take 49`). -/
theorem history_lists_newest_first (heap : List HistoryNode_t) (es : List (List Nat)) :
    history_print_all (logAll es (emptyLog heap)) =
        some ((es.reverse.map (fun e => (cstring e).take 49)).enumFrom 1) ∧
      (∀ e, (∀ b ∈ e, b ≠ 0) → (cstring e).take 49 = e.take 49) ∧
      (history_is_empty (logAll es (emptyLog heap)) = 1 ↔ es = []) := by
  obtain ⟨hchain, hlen⟩ := logAll_chain es (emptyLog heap) [] rfl
  rw [List.append_nil] at hchain
  refine ⟨?_, fun e he => by rw [TaskQueue.cstring_of_no_zero e he], ?_⟩
  · unfold history_print_all
    rw [printLoop_of_chain _ _ _ _ 1 hchain (by simp [hlen]; omega)]
    have : ∀ e, cstring (strncpy e (LOG_ENTRY_SIZE - 1) ++ [0]) = (cstring e).take 49 :=
      fun e => TaskQueue.cstring_strncpy e 49
    simp [List.map_map, Function.comp_def, this]
  · unfold history_is_empty
    cases hr : es.reverse with
    | nil =>
      have hes : es = [] := List.reverse_eq_nil_iff.mp hr
      subst hes
      simp [logAll, emptyLog]
    | cons e rest =>
      rw [hr] at hchain
      obtain ⟨p, node, hs, -⟩ := hchain
      have hes : es ≠ [] := by
        intro hnil
        rw [hnil] at hr
        simp at hr
      simp [hs, hes]

end ActivityLog

namespace Logger

/-! ## Logger: basic facts -/

/-- What `logger_log` adds to the writes made before, case by case. -/
theorem logger_log_output (level : Int) (file : List Nat) (line : Int) (formatted : List Nat)
    (timestamp : List Nat) (c : LoggerConfig) :
    (logger_log level file line formatted timestamp c).output =
      c.output ++
        (if c.initialized = true then
          if level ≤ c.min_level then
            .logLine (if level ≤ LOG_ERROR then .stderr else .stdout)
                { timestamp := timestamp
                  level_name := get_level_name level
                  filename := extract_filename file
                  line := line
                  message := formatted.take (MAX_LOG_MESSAGE - 1) } ::
              (if c.log_file ≠ none then
                [.logLine .logFile
                  { timestamp := timestamp
                    level_name := get_level_name level
                    filename := extract_filename file
                    line := line
                    message := formatted.take (MAX_LOG_MESSAGE - 1) }]
              else [])
          else []
        else if c.warning_shown = true then [] else [.diagnostic .notInitializedWarning]) := by
  unfold logger_log
  cases hi : c.initialized
  · cases hw : c.warning_shown <;> simp [LoggerConfig.write]
  · by_cases hl : level > c.min_level
    · have hle : ¬ level ≤ c.min_level := by omega
      simp [hl, hle]
    · have hle : level ≤ c.min_level := by omega
      cases hf : c.log_file <;> simp [hl, hle, hf, LoggerConfig.write]

/-- The function `logger_log` changes neither the level, nor the initialisation
status, nor the log file. -/
theorem logger_log_config (level : Int) (file : List Nat) (line : Int) (formatted : List Nat)
    (timestamp : List Nat) (c : LoggerConfig) :
    (logger_log level file line formatted timestamp c).min_level = c.min_level ∧
      (logger_log level file line formatted timestamp c).initialized = c.initialized ∧
      (logger_log level file line formatted timestamp c).log_file = c.log_file := by
  unfold logger_log
  simp only [LoggerConfig.write]
  split_ifs <;> exact ⟨rfl, rfl, rfl⟩

theorem written_of_output (before after : LoggerConfig) (new : List Output)
    (h : after.output = before.output ++ new) : written before after = new := by
  unfold written
  rw [h, List.drop_left]

/-! ## Logger: theorems -/

/-- C33: `logger_log(level, …)` writes a log line exactly when the logger is
initialised and `level` is at most the current minimum level, the value
`logger_get_level` returns. An initialised logger then writes the line to the
console (`stderr` up to `LOG_ERROR`, `stdout` above) and to the log file when one
is open, and leaves the logger as it was when `level` is above the minimum
level. An uninitialised logger writes no log line for any level: its first such
call writes a warning to `stderr`, later ones nothing. After `logger_init` has
returned `true`, and after `logger_set_level` with a level from 0 to 7 on an
initialised logger, the logger is initialised and the current minimum level is
the level passed. -/
theorem logger_log_emits_iff_level_passes (level : Int) (file : List Nat) (line : Int)
    (formatted timestamp : List Nat) (c : LoggerConfig) :
    ((∃ o ∈ written c (logger_log level file line formatted timestamp c), o.isLogLine = true) ↔
        (c.initialized = true ∧ level ≤ logger_get_level c)) ∧
      (c.initialized = true → level ≤ logger_get_level c →
        written c (logger_log level file line formatted timestamp c) =
          .logLine (if level ≤ LOG_ERROR then .stderr else .stdout)
              { timestamp := timestamp
                level_name := get_level_name level
                filename := extract_filename file
                line := line
                message := formatted.take (MAX_LOG_MESSAGE - 1) } ::
            (if c.log_file ≠ none then
              [.logLine .logFile
                { timestamp := timestamp
                  level_name := get_level_name level
                  filename := extract_filename file
                  line := line
                  message := formatted.take (MAX_LOG_MESSAGE - 1) }]
            else [])) ∧
      (c.initialized = true → logger_get_level c < level →
        logger_log level file line formatted timestamp c = c) ∧
      (c.initialized = false →
        written c (logger_log level file line formatted timestamp c) =
          if c.warning_shown = true then [] else [.diagnostic .notInitializedWarning]) ∧
      (∀ log_file min_level openOk ts,
        (logger_init log_file min_level openOk ts c).1 = true →
          (logger_init log_file min_level openOk ts c).2.initialized = true ∧
            logger_get_level (logger_init log_file min_level openOk ts c).2 = min_level) ∧
      (∀ new_level ts, c.initialized = true → LOG_EMERGENCY ≤ new_level → new_level ≤ LOG_DEBUG →
        (logger_set_level new_level ts c).initialized = true ∧
          logger_get_level (logger_set_level new_level ts c) = new_level) := by
  have hw := written_of_output c _ _ (logger_log_output level file line formatted timestamp c)
  refine ⟨?_, ?_, ?_, ?_, ?_, ?_⟩
  · rw [hw]
    unfold logger_get_level
    cases hi : c.initialized
    · cases hs : c.warning_shown <;> simp [Output.isLogLine]
    · by_cases hl : level ≤ c.min_level
      · simp [hl, Output.isLogLine]
      · simp [hl]
  · intro hi hl
    rw [hw]
    unfold logger_get_level at hl
    simp [hi, hl]
  · intro hi hl
    unfold logger_get_level at hl
    simp [logger_log, hi, hl]
  · intro hi
    rw [hw]
    simp [hi]
  · intro log_file min_level openOk ts hres
    unfold logger_init at hres ⊢
    unfold logger_get_level
    cases hi : c.initialized
    · cases log_file with
      | none =>
        simp only [hi, Bool.false_eq_true, if_false]
        exact ⟨(logger_log_config _ _ _ _ _ _).2.1, (logger_log_config _ _ _ _ _ _).1⟩
      | some path =>
        cases openOk
        · simp [hi] at hres
        · simp only [hi, Bool.false_eq_true, if_false, Bool.not_true]
          exact ⟨(logger_log_config _ _ _ _ _ _).2.1, (logger_log_config _ _ _ _ _ _).1⟩
    · simp [hi] at hres
  · intro new_level ts hi h0 h7
    unfold logger_set_level logger_get_level
    have hr : ¬ (new_level < LOG_EMERGENCY ∨ new_level > LOG_DEBUG) := by
      intro h
      rcases h with h | h <;> omega
    simp only [hi, Bool.not_true, Bool.false_eq_true, if_false, hr]
    exact ⟨(logger_log_config _ _ _ _ _ _).2.1, (logger_log_config _ _ _ _ _ _).1⟩

end Logger
